import Mathlib

/-!
# GatherToSplitFusion, kernel registration and the CUDA fence

A shallow embedding of `onnxruntime/core/optimizer/gather_to_split_fusion.cc`
and the properties of its rewrite, of the registration loop of
`onnxruntime/contrib_ops/cuda/cuda_contrib_kernels.cc`, and of the fence
operations of `onnxruntime/core/providers/cuda/cuda_fence.cc`.

Conventions of the embedding.

* `int64_t` values are `Int`; the one narrowing conversion of the source,
  `static_cast<int>(axis)`, is the explicit wrap `static_cast_int`.
* A graph is an arena of nodes with tombstones: `Graph.nodes[i]` is `none`
  once node `i` has been removed, and new nodes are appended.
* A `NodeArg*` is modelled by the `NodeArg` value it points to; the name of a
  `NodeArg` is its identity inside a graph.
* An element access outside its container (`shape->dim(i)`,
  `InputDefs()[1]`, `MutableOutputDefs()[0]`, a dangling edge) has no defined
  result in C++.
  The embedding stops there with the outcome `undefined`, keeping the graph
  and the flag as they were when the access was made.
* The registration loop and the fence operations return, next to their
  result, the list of the calls they made, in order: the calls of the table
  entries and of `Register`, and the CUDA runtime calls. The answers of
  `Register` and of the CUDA runtime are parameters.
-/

namespace onnxruntime

/-! ## Data model -/

/-- The ONNX default operator domain, `kOnnxDomain`. -/
def kOnnxDomain : String := ""

/-- The value of `ONNX_NAMESPACE::TensorProto_DataType_INT64`. -/
def TensorProto_DataType_INT64 : Int := 7

/-- The value of `ONNX_NAMESPACE::TensorProto_DataType_INT32`. -/
def TensorProto_DataType_INT32 : Int := 6

/-- One `TensorShapeProto::Dimension`: a concrete value, a symbolic
parameter, or nothing set. -/
inductive Dimension where
  | dim_value (v : Int)
  | dim_param (p : String)
  | unset
deriving DecidableEq, Repr

/-- The test `utils::HasDimValue(dim)`. -/
def utils.HasDimValue : Dimension → Bool
  | .dim_value _ => true
  | _ => false

/-- The conversion `static_cast<int>(x)` of a 64-bit value: the value
modulo `2^32`, read as a signed 32-bit integer. -/
def static_cast_int (x : Int) : Int := (x + 2147483648) % 4294967296 - 2147483648

/-- A `TensorShapeProto`. `dim_size()` returns an `int`, so a shape never has
`2^31` dimensions or more. -/
structure TensorShapeProto where
  dims : List Dimension
  dim_size_fits : dims.length < 2147483648
deriving DecidableEq, Repr

/-- The call `shape.dim_size()`. -/
def TensorShapeProto.dim_size (s : TensorShapeProto) : Int := (s.dims.length : Int)

/-- The call `shape.dim(i)` for an `int` index `i`; `none` when `i` is not
an index of the shape (the access is then outside the repeated field). -/
def TensorShapeProto.dim (s : TensorShapeProto) (i : Int) : Option Dimension :=
  if 0 ≤ i then s.dims[i.toNat]? else none

/-- A tensor `TypeProto`: element type and optional static shape. -/
structure TypeProto where
  elem_type : Int
  shape : Option TensorShapeProto
deriving DecidableEq, Repr

/-- A `NodeArg`: the descriptor of one graph edge value. -/
structure NodeArg where
  name : String
  type : Option TypeProto
deriving DecidableEq, Repr

/-- The call `NodeArg::Shape()`: null when the type or the shape is not known. -/
def NodeArg.Shape (a : NodeArg) : Option TensorShapeProto :=
  match a.type with
  | none => none
  | some t => t.shape

/-- A `TensorProto` holding 64-bit integers (the only payload the pass reads
or writes). -/
structure TensorProto where
  name : String
  data_type : Int
  dims : List Int
  int64_data : List Int
deriving DecidableEq, Repr

/-- An `AttributeProto`, restricted to the kinds the pass reads or writes. -/
inductive AttributeProto where
  | i (v : Int)
  | ints (v : List Int)
  | s (v : String)
deriving DecidableEq, Repr

/-- The test `utils::HasInt(attr)`. -/
def utils.HasInt : AttributeProto → Bool
  | .i _ => true
  | _ => false

abbrev NodeIndex := Nat

/-- One end of a graph edge, as stored at the node on the other end. -/
structure EdgeEnd where
  node_index : NodeIndex
  src_arg_index : Nat
  dst_arg_index : Nat
deriving DecidableEq, Repr

/-- A graph `Node`. Its `Index()` is its position in the arena of the graph
and is not repeated inside the node. -/
structure Node where
  name : String
  op_type : String
  description : String
  domain : String
  since_version : Int
  input_defs : List NodeArg
  output_defs : List NodeArg
  attributes : List (String × AttributeProto)
  execution_provider_type : String
  input_edges : List EdgeEnd
  output_edges : List EdgeEnd
deriving DecidableEq, Repr

/-- The lookup `attrs.find(key)` in the attribute map of a node. -/
def Node.GetAttribute (n : Node) (key : String) : Option AttributeProto :=
  (n.attributes.find? (fun kv => kv.1 == key)).map Prod.snd

/-- The call `node.GetOutputEdgesCount()`. -/
def Node.GetOutputEdgesCount (n : Node) : Nat := n.output_edges.length

/-- A `Graph`: node arena, the NodeArgs it owns, its constant initializers,
its opset imports and the names handed out so far. -/
structure Graph where
  nodes : List (Option Node)
  node_args : List NodeArg
  initializers : List TensorProto
  domain_to_version : List (String × Int)
  generated_node_arg_names : List String
  generated_node_names : List String
deriving DecidableEq, Repr

/-- The call `graph.GetNode(index)`: null for a removed or unknown index. -/
def Graph.GetNode (g : Graph) (i : NodeIndex) : Option Node :=
  match g.nodes[i]? with
  | some (some n) => some n
  | _ => none

/-- The lookup `graph.DomainToVersionMap().find(domain)`. -/
def Graph.DomainToVersion (g : Graph) (domain : String) : Option Int :=
  (g.domain_to_version.find? (fun kv => kv.1 == domain)).map Prod.snd

/-- A `Status`: success or an error carrying its message. -/
inductive Status where
  | OK
  | error (msg : String)
deriving DecidableEq, Repr

/-- The accessor `dim.dim_value()`: `0` when no value is set. -/
def Dimension.get_dim_value : Dimension → Int
  | .dim_value v => v
  | _ => 0

/-- The accessor `attr.i()`: `0` when the attribute holds no integer. -/
def AttributeProto.get_i : AttributeProto → Int
  | .i v => v
  | _ => 0

/-! ## Helpers of other translation units -/

/-- Modelled from the spec: `graph_utils::IsSupportedOptypeVersionAndDomain` is
defined in a file that is not available. A consumer must "be the exact matched
select-op" and "be version-compatible": the operator type is the one asked for,
the node sits in the ONNX domain and its opset version is one of the listed
versions. -/
def graph_utils.IsSupportedOptypeVersionAndDomain (node : Node) (op_type : String)
    (versions : List Int) : Bool :=
  node.op_type == op_type && node.domain == kOnnxDomain && versions.contains node.since_version

/-- Modelled from the spec: `graph_utils::IsSupportedProvider` is defined in a
file that is not available. A consumer must "run on the same
backend-compatibility set as the transformer's allowed providers": its assigned
provider is one of them. -/
def graph_utils.IsSupportedProvider (node : Node) (compatible_providers : List String) : Bool :=
  compatible_providers.contains node.execution_provider_type

/-- Modelled from the spec: `optimizer_utils::IsScalar` is defined in a file
that is not available. A scalar is a tensor whose static shape is known and has
no dimension. -/
def optimizer_utils.IsScalar (input_arg : NodeArg) : Bool :=
  match input_arg.Shape with
  | none => false
  | some shape => shape.dims.isEmpty

/-- Modelled from the spec: `graph_utils::GetConstantInitializer` is defined in
a file that is not available. It is the "initializer (constant) lookup" of the
graph by name. -/
def graph_utils.GetConstantInitializer (graph : Graph) (name : String) : Option TensorProto :=
  graph.initializers.find? (fun t => t.name == name)

/-- Modelled from the spec: the class `Initializer` is defined in a file that
is not available. The expression `*(init_const.data<int64_t>())` reads "the
value stored in that tensor", its first element. -/
def Initializer.data (tensor_proto : TensorProto) : Int :=
  tensor_proto.int64_data.headD 0

/-! ## The transformer -/

/-- The transformer object. `Recurse` is `GraphTransformer::Recurse`, which is
defined in a file that is not available: it applies the pass to the subgraphs
held by a node and reports a status and the new value of the `modified` flag.
-/
structure GatherToSplitFusion where
  compatible_execution_providers : List String
  Recurse : Node → Bool → Status × Bool

/-- The call `GetCompatibleExecutionProviders()`. -/
def GatherToSplitFusion.GetCompatibleExecutionProviders (self : GatherToSplitFusion) :
    List String :=
  self.compatible_execution_providers

/-- The outcome of a call of `IsSupportedGather`. -/
inductive GatherSupport where
  /-- The statement `return false`. -/
  | unsupported
  /-- The statement `return true`, with the values left in the output
  parameters `index` and `axis`. -/
  | supported (index axis : Int)
  /-- An element access outside its container. -/
  | undefined
deriving DecidableEq, Repr

/-- The output parameters of a call that returned `true`. -/
def GatherSupport.values : GatherSupport → Option (Int × Int)
  | .supported index axis => some (index, axis)
  | _ => none

/-- `GatherToSplitFusion::IsSupportedGather`, lines 12-32. Line 18 evaluates
`node.InputDefs()[1]` without a test of the number of inputs: for a node that
passed the tests of lines 13-14 and has fewer than two inputs the access is
outside the container. -/
def GatherToSplitFusion.IsSupportedGather (self : GatherToSplitFusion) (graph : Graph)
    (node : Node) : GatherSupport :=
  if !graph_utils.IsSupportedOptypeVersionAndDomain node "Gather" [1, 11, 13] ||
      !graph_utils.IsSupportedProvider node self.GetCompatibleExecutionProviders then
    .unsupported
  else
    match node.input_defs[1]? with
    | none => .undefined
    | some input_arg =>
      if !optimizer_utils.IsScalar input_arg then .unsupported
      else
        match graph_utils.GetConstantInitializer graph input_arg.name with
        | none => .unsupported
        | some tensor_proto =>
          if tensor_proto.data_type != TensorProto_DataType_INT64 then .unsupported
          else
            let index := Initializer.data tensor_proto
            let axis :=
              match node.GetAttribute "axis" with
              | none => 0
              | some axis_attr => if utils.HasInt axis_attr then axis_attr.get_i else 0
            .supported index axis

/-! ## The consumer loop of `ApplyImpl` (source lines 79-113) -/

/-- What one iteration of the consumer loop reads of its output edge: the
outcome of `IsSupportedGather(graph, *it, index, axis)` when the call returns
(`none` for `false`), the index `it->Index()` and the slot
`graph.GetNode(it->Index())->MutableOutputDefs()[0]` (`none` when the consumer
has no output slot). -/
structure ConsumerEdge where
  supported : Option (Int × Int)
  node_index : NodeIndex
  output : Option NodeArg
deriving DecidableEq, Repr

/-- The local variables of the consumer loop that survive an iteration. The
flag `can_fuse` is not stored: it is `true` as long as the loop runs. -/
structure LoopState where
  first_edge : Bool
  split_axis : Int
  gather_outputs : List (Option NodeArg)
  nodes_to_fuse : List NodeIndex
deriving DecidableEq, Repr

/-- How an iteration, or the whole loop, ends. -/
inductive LoopResult where
  /-- The iteration completed; for the whole loop: it ran to the end with
  `can_fuse` still `true`. -/
  | next (s : LoopState)
  /-- The assignment `can_fuse = false; break;`. -/
  | stop
  /-- An element access outside its container. -/
  | undefined
deriving DecidableEq, Repr

/-- The axis after line 90: `if (axis < 0) axis += rank;`. -/
def normalize_axis (axis rank : Int) : Int :=
  if axis < 0 then axis + rank else axis

/-- The index after line 103: `if (index < 0) index += output_count;`. -/
def normalize_index (index : Int) (output_count : Nat) : Int :=
  if index < 0 then index + (output_count : Int) else index

/-- The test `gather_outputs[static_cast<size_t>(index)]` of line 104: is the
slot already taken (non-null)? -/
def slot_taken (gather_outputs : List (Option NodeArg)) (index : Int) : Bool :=
  match gather_outputs[index.toNat]? with
  | some (some _) => true
  | _ => false

/-- Lines 103-110 of the loop body: the range and uniqueness checks on the
index, then the recording of the Gather node and of its output. -/
def check_index (output_count : Nat) (s : LoopState) (index : Int) (e : ConsumerEdge) :
    LoopResult :=
  let index := normalize_index index output_count
  if index < 0 || index ≥ (output_count : Int) || slot_taken s.gather_outputs index then
    .stop
  else
    match e.output with
    | none => .undefined
    | some out =>
      .next { s with
        nodes_to_fuse := s.nodes_to_fuse ++ [e.node_index]
        gather_outputs := s.gather_outputs.set index.toNat (some out) }

/-- The body of the consumer loop, lines 85-110. -/
def loop_body (shape : TensorShapeProto) (rank : Int) (output_count : Nat) (s : LoopState)
    (e : ConsumerEdge) : LoopResult :=
  match e.supported with
  | none => .stop
  | some (index, axis) =>
    let axis := normalize_axis axis rank
    if s.first_edge then
      match shape.dim (static_cast_int axis) with
      | none => .undefined
      | some dim =>
        if !utils.HasDimValue dim || dim.get_dim_value != (output_count : Int) then .stop
        else check_index output_count { s with split_axis := axis, first_edge := false } index e
    else if axis != s.split_axis then .stop
    else check_index output_count s index e

/-- The consumer loop, lines 84-111, over the output edges in iteration
order. An edge is `none` when its node is missing from the graph or when the
call of `IsSupportedGather` on its node has no defined result. -/
def consumer_loop (shape : TensorShapeProto) (rank : Int) (output_count : Nat) :
    LoopState → List (Option ConsumerEdge) → LoopResult
  | s, [] => .next s
  | _, none :: _ => .undefined
  | s, some e :: rest =>
    match loop_body shape rank output_count s e with
    | .next s1 => consumer_loop shape rank output_count s1 rest
    | .stop => .stop
    | .undefined => .undefined

/-- The state of the loop variables at line 83, before the first iteration. -/
def LoopState.init (output_count : Nat) : LoopState :=
  { first_edge := true
    split_axis := 0
    gather_outputs := List.replicate output_count none
    nodes_to_fuse := [] }

/-- What the loop reads at one output edge: `none` when the node `*it` is
missing from the graph or when the call of `IsSupportedGather` on it has no
defined result. -/
def GatherToSplitFusion.consumer_edge (self : GatherToSplitFusion) (graph : Graph)
    (edge : EdgeEnd) : Option ConsumerEdge :=
  match graph.GetNode edge.node_index with
  | none => none
  | some it =>
    match self.IsSupportedGather graph it with
    | .undefined => none
    | .unsupported =>
      some { supported := none
             node_index := edge.node_index
             output := it.output_defs[0]? }
    | .supported index axis =>
      some { supported := some (index, axis)
             node_index := edge.node_index
             output := it.output_defs[0]? }

/-- The range `node.OutputNodesBegin() .. node.OutputNodesEnd()` as the loop
reads it: one entry per output edge, in edge order. -/
def GatherToSplitFusion.OutputNodes (self : GatherToSplitFusion) (graph : Graph) (node : Node) :
    List (Option ConsumerEdge) :=
  node.output_edges.map (self.consumer_edge graph)

/-- The decision taken for one node by lines 62-113. -/
inductive Match where
  /-- One of the `continue` statements was reached. -/
  | skip
  /-- An element access outside its container. -/
  | undefined
  /-- The loop ended with `can_fuse`: the rewrite of lines 115-173 follows. -/
  | fuse (output : NodeArg) (shape : TensorShapeProto) (output_count : Nat) (s : LoopState)
deriving DecidableEq, Repr

/-- Lines 62-113 of `ApplyImpl` for one node. -/
def GatherToSplitFusion.match_node (self : GatherToSplitFusion) (graph : Graph) (node : Node) :
    Match :=
  if node.op_type == "Shape" then .skip
  else if node.output_defs.length > 1 then .skip
  else
    let output_count := node.GetOutputEdgesCount
    if output_count ≤ 1 then .skip
    else
      match node.output_defs[0]? with
      | none => .undefined
      | some output =>
        match output.Shape with
        | none => .skip
        | some shape =>
          let rank := shape.dim_size
          match consumer_loop shape rank output_count (LoopState.init output_count)
              (self.OutputNodes graph node) with
          | .stop => .skip
          | .undefined => .undefined
          | .next s => .fuse output shape output_count s

/-! ## Graph operations used by the rewrite -/

/-- Every name that occurs in a graph: names of live nodes and of the NodeArgs
they use, of the NodeArgs and initializers the graph owns, and the names
generated so far. -/
def Graph.used_names (g : Graph) : List String :=
  (g.nodes.flatMap fun n? =>
      match n? with
      | none => []
      | some n => n.name :: ((n.input_defs ++ n.output_defs).map fun a => a.name)) ++
    g.node_args.map (fun a => a.name) ++
    g.initializers.map (fun t => t.name) ++
    g.generated_node_arg_names ++ g.generated_node_names

/-- The length of the longest of a list of names. -/
def longest_name : List String → Nat
  | [] => 0
  | n :: ns => max n.length (longest_name ns)

/-- A name derived from `base` that is not in `used`: `base` itself when it
is free, otherwise `base` with a token longer than every used name. -/
def fresh_name (used : List String) (base : String) : String :=
  if used.contains base then
    base ++ "_token_" ++ String.mk (List.replicate (longest_name used) '0')
  else base

/-- Modelled from the spec: `Graph::GenerateNodeArgName` is defined in a file
that is not available. It hands out "a freshly generated unique name", unique
within the graph, and remembers it. -/
def Graph.GenerateNodeArgName (g : Graph) (base_name : String) : Graph × String :=
  let name := fresh_name g.used_names base_name
  ({ g with generated_node_arg_names := name :: g.generated_node_arg_names }, name)

/-- Modelled from the spec: `Graph::GenerateNodeName` is defined in a file that
is not available. It hands out "a freshly generated unique name", unique within
the graph, and remembers it. -/
def Graph.GenerateNodeName (g : Graph) (base_name : String) : Graph × String :=
  let name := fresh_name g.used_names base_name
  ({ g with generated_node_names := name :: g.generated_node_names }, name)

/-- Modelled from the spec: `Graph::GetOrCreateNodeArg` is defined in a file
that is not available. The NodeArg of that name when the graph owns one, a new
NodeArg of the given type otherwise ("name (unique within graph)"). -/
def Graph.GetOrCreateNodeArg (g : Graph) (name : String) (type : Option TypeProto) :
    Graph × NodeArg :=
  match g.node_args.find? (fun a => a.name == name) with
  | some a => (g, a)
  | none => ({ g with node_args := g.node_args ++ [{ name := name, type := type }] },
             { name := name, type := type })

/-- The node that `Graph::AddNode(name, op_type, description, inputs, outputs)`
creates: default domain, no attribute, no provider, no edge yet. -/
def Node.Init (name op_type description : String) (input_args output_args : List NodeArg) :
    Node :=
  { name := name
    op_type := op_type
    description := description
    domain := kOnnxDomain
    since_version := -1
    input_defs := input_args
    output_defs := output_args
    attributes := []
    execution_provider_type := ""
    input_edges := []
    output_edges := [] }

/-- The call `node.AddAttribute(name, value)`. -/
def Node.AddAttribute (n : Node) (name : String) (value : AttributeProto) : Node :=
  { n with attributes := n.attributes.filter (fun kv => kv.1 != name) ++ [(name, value)] }

/-- The call `node.SetExecutionProviderType(type)`. -/
def Node.SetExecutionProviderType (n : Node) (type : String) : Node :=
  { n with execution_provider_type := type }

/-- Modelled from the spec: `Graph::AddNode` is defined in a file that is not
available. The new node is appended to the arena; its index is the former size
of the arena. The calls that the source makes on the returned reference right
after `AddNode` (`AddAttribute`, `SetExecutionProviderType`) are applied to `n`
beforehand. -/
def Graph.AddNode (g : Graph) (n : Node) : Graph :=
  { g with nodes := g.nodes ++ [some n] }

/-- Modelled from the spec: `graph_utils::AddInitializer` is defined in a file
that is not available. The tensor becomes a constant initializer of the graph
and gets a NodeArg of its name, element type and dimensions. -/
def graph_utils.AddInitializer (g : Graph) (new_initializer : TensorProto) : Graph × NodeArg :=
  let dims := new_initializer.dims.map Dimension.dim_value
  let shape : Option TensorShapeProto :=
    if h : dims.length < 2147483648 then some ⟨dims, h⟩ else none
  { g with initializers := g.initializers ++ [new_initializer] }.GetOrCreateNodeArg
    new_initializer.name (some { elem_type := new_initializer.data_type, shape := shape })

/-- Modelled from the spec: `graph_utils::RemoveNodeOutputEdges` is defined in
a file that is not available. It is the explicit "remove output edges"
operation: the node loses its output edges and no other node keeps an input
edge coming from it. -/
def graph_utils.RemoveNodeOutputEdges (g : Graph) (index : NodeIndex) : Graph :=
  { g with nodes := g.nodes.mapIdx fun i n? =>
      n?.map fun n =>
        if i = index then { n with output_edges := [] }
        else { n with input_edges := n.input_edges.filter fun e => e.node_index != index } }

/-- Modelled from the spec: `Graph::RemoveNode` is defined in a file that is
not available. It "requires the node have zero remaining output edges" and
"must sever all edges referencing it": the slot of the node becomes empty and
no other node keeps an output edge going to it. -/
def Graph.RemoveNode (g : Graph) (index : NodeIndex) : Graph :=
  { g with nodes := g.nodes.mapIdx fun i n? =>
      if i = index then none
      else n?.map fun n =>
        { n with output_edges := n.output_edges.filter fun e => e.node_index != index } }

/-! ## The rewrite of `ApplyImpl` (source lines 115-173) -/

/-- Lines 115-125: the type of every Split output. It has the element type of
the output of the node and, dimension by dimension, the value `1` at
`split_axis` and the dimension of `shape` elsewhere. -/
def split_output_type (output : NodeArg) (shape : TensorShapeProto) (split_axis : Int) :
    TypeProto :=
  { elem_type :=
      match output.type with
      | some t => t.elem_type
      | none => 0
    shape := some
      { dims := shape.dims.mapIdx fun i d =>
          if (i : Int) = split_axis then Dimension.dim_value 1 else d
        dim_size_fits := by simpa using shape.dim_size_fits } }

/-- Lines 127-131: the loop that creates the NodeArgs `split0`, `split1`, ...
The first argument counts the iterations left, the second is `i`. -/
def create_split_outputs (type : TypeProto) : Nat → Nat → Graph → Graph × List NodeArg
  | 0, _, graph => (graph, [])
  | n + 1, i, graph =>
    let named := graph.GenerateNodeArgName ("split" ++ toString i)
    let created := named.1.GetOrCreateNodeArg named.2 (some type)
    let rest := create_split_outputs type n (i + 1) created.1
    (rest.1, created.2 :: rest.2)

/-- The output list `{gather_outputs[i]}` of a Squeeze node: the recorded
NodeArg, nothing for a null entry. -/
def squeeze_outputs (gather_output : Option NodeArg) : List NodeArg :=
  gather_output.toList

/-- Lines 145-150: one Squeeze node per Split output, the axis given by the
attribute `axes` (opset below 13). The first argument is `i`. -/
def add_squeeze_nodes_axes_attribute (provider : String) (split_axis : Int) :
    Nat → List NodeArg → List (Option NodeArg) → Graph → Graph
  | i, split_output :: split_outputs, gather_output :: gather_outputs, graph =>
    let named := graph.GenerateNodeName ("Squeeze" ++ toString i)
    let squeeze_node :=
      ((Node.Init named.2 "Squeeze" "Squeeze for Fused Gather nodes" [split_output]
          (squeeze_outputs gather_output)).AddAttribute "axes"
          (AttributeProto.ints [split_axis])).SetExecutionProviderType provider
    add_squeeze_nodes_axes_attribute provider split_axis (i + 1) split_outputs gather_outputs
      (named.1.AddNode squeeze_node)
  | _, _, _, graph => graph

/-- Lines 160-165: one Squeeze node per Split output, the axis given by the
second input `axes_arg` (opset 13 and above). The first argument is `i`. -/
def add_squeeze_nodes_axes_input (provider : String) (axes_arg : NodeArg) :
    Nat → List NodeArg → List (Option NodeArg) → Graph → Graph
  | i, split_output :: split_outputs, gather_output :: gather_outputs, graph =>
    let named := graph.GenerateNodeName ("Squeeze" ++ toString i)
    let squeeze_node :=
      (Node.Init named.2 "Squeeze" "Squeeze for Fused Gather nodes" [split_output, axes_arg]
          (squeeze_outputs gather_output)).SetExecutionProviderType provider
    add_squeeze_nodes_axes_input provider axes_arg (i + 1) split_outputs gather_outputs
      (named.1.AddNode squeeze_node)
  | _, _, _, graph => graph

/-- Lines 139-142: the opset version of the ONNX domain, `-1` when the graph
does not import it. -/
def onnx_opset_version (graph : Graph) : Int :=
  match graph.DomainToVersion kOnnxDomain with
  | some v => v
  | none => -1

/-- Lines 152-158: the initializer that carries the Squeeze axis. -/
def axes_initializer_proto (name : String) (split_axis : Int) : TensorProto :=
  { name := name
    dims := [1]
    data_type := TensorProto_DataType_INT64
    int64_data := [split_axis] }

/-- Lines 168-171: the loop that detaches and removes the fused Gather nodes. -/
def remove_fused_nodes : List NodeIndex → Graph → Graph
  | [], graph => graph
  | n :: nodes_to_fuse, graph =>
    remove_fused_nodes nodes_to_fuse ((graph_utils.RemoveNodeOutputEdges graph n).RemoveNode n)

/-- Lines 127-136: the graph once the Split node has been added, and the
outputs of that node. -/
def add_split_node (graph : Graph) (node : Node) (output : NodeArg) (shape : TensorShapeProto)
    (output_count : Nat) (split_axis : Int) : Graph × List NodeArg :=
  let created :=
    create_split_outputs (split_output_type output shape split_axis) output_count 0 graph
  let named := created.1.GenerateNodeName "Split"
  let split_node :=
    ((Node.Init named.2 "Split" "Split for Fused Gather nodes" [output] created.2).AddAttribute
        "axis" (AttributeProto.i split_axis)).SetExecutionProviderType
      node.execution_provider_type
  (named.1.AddNode split_node, created.2)

/-- Lines 138-166: the graph once the Squeeze nodes have been added. -/
def add_squeeze_nodes (graph : Graph) (node : Node) (split_outputs : List NodeArg)
    (s : LoopState) : Graph :=
  if onnx_opset_version graph < 13 then
    add_squeeze_nodes_axes_attribute node.execution_provider_type s.split_axis 0 split_outputs
      s.gather_outputs graph
  else
    let named := graph.GenerateNodeName "SqueezeAxesInitializer"
    let added := graph_utils.AddInitializer named.1 (axes_initializer_proto named.2 s.split_axis)
    add_squeeze_nodes_axes_input node.execution_provider_type added.2 0 split_outputs
      s.gather_outputs added.1

/-- Lines 115-171 of `ApplyImpl`: the rewrite of a matched node. -/
def GatherToSplitFusion.rewrite (graph : Graph) (node : Node) (output : NodeArg)
    (shape : TensorShapeProto) (output_count : Nat) (s : LoopState) : Graph :=
  let split := add_split_node graph node output shape output_count s.split_axis
  remove_fused_nodes s.nodes_to_fuse (add_squeeze_nodes split.1 node split.2 s)

/-! ## `ApplyImpl` -/

/-- How a call of `ApplyImpl` ends: it returns a `Status`, or it makes an
element access outside its container. -/
inductive Exit where
  | returned (status : Status)
  | undefined
deriving DecidableEq, Repr

/-- The effect of one iteration of the node loop (lines 55-174): the graph
and the `modified` flag after it, and how the call ends when the iteration
ends it (`none`: the loop goes on with the next node). -/
structure VisitResult where
  exit : Option Exit
  graph : Graph
  modified : Bool
deriving DecidableEq, Repr

/-- The result of a call of `ApplyImpl`: how it ended, and the graph and the
`modified` flag at that moment. -/
structure ApplyResult where
  exit : Exit
  graph : Graph
  modified : Bool
deriving DecidableEq, Repr

/-- One iteration of the node loop of `ApplyImpl`, lines 56-173. -/
def GatherToSplitFusion.visit (self : GatherToSplitFusion) (graph : Graph) (modified : Bool)
    (node_index : NodeIndex) : VisitResult :=
  match graph.GetNode node_index with
  | none => { exit := none, graph := graph, modified := modified }
  | some node =>
    match self.Recurse node modified with
    | (Status.error msg, modified) =>
      { exit := some (.returned (Status.error msg)), graph := graph, modified := modified }
    | (Status.OK, modified) =>
      match self.match_node graph node with
      | .skip => { exit := none, graph := graph, modified := modified }
      | .undefined => { exit := some .undefined, graph := graph, modified := modified }
      | .fuse output shape output_count s =>
        { exit := none
          graph := GatherToSplitFusion.rewrite graph node output shape output_count s
          modified := true }

/-- The node loop of `ApplyImpl`, lines 55-176, over the remaining part of
`node_topology_list`. -/
def GatherToSplitFusion.ApplyLoop (self : GatherToSplitFusion) :
    List NodeIndex → Graph → Bool → ApplyResult
  | [], graph, modified => { exit := .returned Status.OK, graph := graph, modified := modified }
  | node_index :: rest, graph, modified =>
    let r := self.visit graph modified node_index
    match r.exit with
    | none => self.ApplyLoop rest r.graph r.modified
    | some exit => { exit := exit, graph := r.graph, modified := r.modified }

/-- `GatherToSplitFusion::ApplyImpl`. The list `node_topology_list` is the
result of `GraphViewer::GetNodesInTopologicalOrder()` on the graph, computed
by code in a file that is not available; the pass only iterates over it. -/
def GatherToSplitFusion.ApplyImpl (self : GatherToSplitFusion) (graph : Graph) (modified : Bool)
    (node_topology_list : List NodeIndex) : ApplyResult :=
  self.ApplyLoop node_topology_list graph modified


/-! ## Notions used to state the properties -/

/-- The loop state after an edge has been accepted with normalized axis
`axis` and normalized index `index`. -/
def LoopState.accept (s : LoopState) (axis index : Int) (out : NodeArg) (n : NodeIndex) :
    LoopState :=
  { first_edge := false
    split_axis := axis
    gather_outputs := s.gather_outputs.set index.toNat (some out)
    nodes_to_fuse := s.nodes_to_fuse ++ [n] }

/-- The axis test of an iteration: on the first edge the dimension read at the
axis is the concrete value `output_count`, on a later edge the axis is the
one of the first edge. -/
def axis_accepted (shape : TensorShapeProto) (output_count : Nat) (s : LoopState) (axis : Int) :
    Prop :=
  if s.first_edge then
    shape.dim (static_cast_int axis) = some (Dimension.dim_value (output_count : Int))
  else axis = s.split_axis

instance (shape : TensorShapeProto) (output_count : Nat) (s : LoopState) (axis : Int) :
    Decidable (axis_accepted shape output_count s axis) := by
  unfold axis_accepted
  infer_instance

/-- The normalized index of a consumer edge, when `IsSupportedGather` holds. -/
def ConsumerEdge.index (output_count : Nat) (e : ConsumerEdge) : Option Int :=
  e.supported.map fun p => normalize_index p.1 output_count

/-- The normalized axis of a consumer edge, when `IsSupportedGather` holds. -/
def ConsumerEdge.axis (rank : Int) (e : ConsumerEdge) : Option Int :=
  e.supported.map fun p => normalize_axis p.2 rank

/-- The ONNX element types that hold integers (UINT8, INT8, UINT16, INT16,
INT32, INT64, UINT32, UINT64). -/
def is_integer_type (data_type : Int) : Bool :=
  [2, 3, 4, 5, 6, 7, 12, 13].contains data_type

/-- The candidacy condition in the words of the specification: an ONNX-domain
Gather of opset 1, 11 or 13, assigned to a compatible provider, whose second
input is a compile-time-constant scalar integer tensor. -/
def candidate_as_specified (self : GatherToSplitFusion) (graph : Graph) (node : Node) : Bool :=
  graph_utils.IsSupportedOptypeVersionAndDomain node "Gather" [1, 11, 13] &&
    graph_utils.IsSupportedProvider node self.GetCompatibleExecutionProviders &&
    match node.input_defs[1]? with
    | none => false
    | some input_arg =>
      optimizer_utils.IsScalar input_arg &&
        match graph_utils.GetConstantInitializer graph input_arg.name with
        | none => false
        | some tensor_proto => is_integer_type tensor_proto.data_type

/-! ## Example graphs -/

namespace Example

/-- The symbolic dimension `B`. -/
def B : Dimension := .dim_param "B"

/-- The symbolic dimension `H`. -/
def H : Dimension := .dim_param "H"

/-- A float tensor type of the given shape. -/
def float_tensor (shape : TensorShapeProto) : Option TypeProto :=
  some { elem_type := 1, shape := some shape }

/-- The shape `[B, 3, H]`. -/
def shape_B3H : TensorShapeProto := ⟨[B, .dim_value 3, H], by decide⟩

/-- The shape `[B, H]`. -/
def shape_BH : TensorShapeProto := ⟨[B, H], by decide⟩

/-- The output `x` of the producer node. -/
def x (shape : TensorShapeProto) : NodeArg := { name := "x", type := float_tensor shape }

/-- The scalar index input of the `i`-th consumer, of element type `elem_type`. -/
def idx (elem_type : Int) (i : Nat) : NodeArg :=
  { name := "idx" ++ toString i
    type := some { elem_type := elem_type, shape := some ⟨[], by decide⟩ } }

/-- The output of the `i`-th consumer. -/
def y (i : Nat) : NodeArg := { name := "y" ++ toString i, type := float_tensor shape_BH }

/-- The constant behind `idx i`, holding `value`. -/
def idx_tensor (elem_type : Int) (i : Nat) (value : Int) : TensorProto :=
  { name := "idx" ++ toString i, data_type := elem_type, dims := [], int64_data := [value] }

/-- The producer node `N`, at index `0`, with one output edge to each of the
nodes `1 .. fan_out`. -/
def producer (op_type : String) (shape : TensorShapeProto) (fan_out : Nat) : Node :=
  { name := "N", op_type := op_type, description := "", domain := "", since_version := 14
    input_defs := [{ name := "input", type := float_tensor shape }]
    output_defs := [x shape]
    attributes := []
    execution_provider_type := "CPUExecutionProvider"
    input_edges := []
    output_edges := (List.range fan_out).map fun i => ⟨i + 1, 0, 0⟩ }

/-- The `i`-th consumer: a Gather of `x` at the constant `idx i` along `axis`. -/
def gather (elem_type : Int) (shape : TensorShapeProto) (i : Nat) (axis : Int) : Node :=
  { name := "G" ++ toString i, op_type := "Gather", description := "", domain := ""
    since_version := 13
    input_defs := [x shape, idx elem_type i]
    output_defs := [y i]
    attributes := [("axis", .i axis)]
    execution_provider_type := "CPUExecutionProvider"
    input_edges := [⟨0, 0, 0⟩]
    output_edges := [] }

/-- The graph `N -> {G0, G1, ...}`: the producer of type `op_type` with output
shape `shape`, and one Gather per entry `(index, axis)` of `consumers`, whose
index constants have element type `elem_type`. -/
def fan_out_graph (opset : Int) (op_type : String) (elem_type : Int) (shape : TensorShapeProto)
    (consumers : List (Int × Int)) : Graph :=
  { nodes := some (producer op_type shape consumers.length) ::
      consumers.enum.map fun c => some (gather elem_type shape c.1 c.2.2)
    node_args := { name := "input", type := float_tensor shape } :: x shape ::
      ((List.range consumers.length).map (idx elem_type) ++ (List.range consumers.length).map y)
    initializers := consumers.enum.map fun c => idx_tensor elem_type c.1 c.2.1
    domain_to_version := [("", opset)]
    generated_node_arg_names := []
    generated_node_names := [] }

/-- The transformer, compatible with the CPU provider, on nodes without
subgraphs: the recursion has nothing to do. -/
def pass : GatherToSplitFusion :=
  { compatible_execution_providers := ["CPUExecutionProvider"]
    Recurse := fun _ modified => (Status.OK, modified) }

/-- The end-to-end example: `N -> {G0(idx=0), G1(idx=1), G2(idx=2)}` on axis
1 of `[B, 3, H]`, with INT64 index constants. -/
def graph_B3H (opset : Int) : Graph :=
  fan_out_graph opset "Relu" TensorProto_DataType_INT64 shape_B3H [(0, 1), (1, 1), (2, 1)]

end Example

/-- What `IsSupportedGather` reports for the node at the far end of an output
edge: `none` when it does not return true (or when no node is there). -/
def GatherToSplitFusion.gather_at (self : GatherToSplitFusion) (graph : Graph) (edge : EdgeEnd) :
    Option (Int × Int) :=
  match graph.GetNode edge.node_index with
  | none => none
  | some it => (self.IsSupportedGather graph it).values

/-- The normalized index of the consumer at an output edge of a node with
`output_count` output edges. -/
def GatherToSplitFusion.normalized_index_at (self : GatherToSplitFusion) (graph : Graph)
    (output_count : Nat) (edge : EdgeEnd) : Option Int :=
  (self.gather_at graph edge).map fun p => normalize_index p.1 output_count

/-- The normalized axis of the consumer at an output edge of a node whose
output has rank `rank`. -/
def GatherToSplitFusion.normalized_axis_at (self : GatherToSplitFusion) (graph : Graph)
    (rank : Int) (edge : EdgeEnd) : Option Int :=
  (self.gather_at graph edge).map fun p => normalize_axis p.2 rank

/-- Two consumer edges that differ at most in the raw index and the raw axis
reported by `IsSupportedGather`, and agree on both after normalization. -/
def ConsumerEdge.same_normalized (rank : Int) (output_count : Nat) (e1 e2 : ConsumerEdge) : Prop :=
  e1.node_index = e2.node_index ∧ e1.output = e2.output ∧
    e1.index output_count = e2.index output_count ∧ e1.axis rank = e2.axis rank

namespace Example

/-- The shape `[B, 2]`. -/
def shape_B2 : TensorShapeProto := ⟨[B, .dim_value 2], by decide⟩

end Example

namespace Example

/-- The shape `[B, 4, H]`. -/
def shape_B4H : TensorShapeProto := ⟨[B, .dim_value 4, H], by decide⟩

end Example

/-- The Squeeze node of lines 146-149: one input, the axis in the attribute
`axes`. -/
def squeeze_node_axes_attribute (name provider : String) (split_axis : Int)
    (split_output : NodeArg) (gather_output : Option NodeArg) : Node :=
  { name := name
    op_type := "Squeeze"
    description := "Squeeze for Fused Gather nodes"
    domain := kOnnxDomain
    since_version := -1
    input_defs := [split_output]
    output_defs := gather_output.toList
    attributes := [("axes", AttributeProto.ints [split_axis])]
    execution_provider_type := provider
    input_edges := []
    output_edges := [] }

/-- The Squeeze node of lines 161-164: two inputs, the second carrying the
axis, and no attribute. -/
def squeeze_node_axes_input (name provider : String) (axes_arg : NodeArg)
    (split_output : NodeArg) (gather_output : Option NodeArg) : Node :=
  { name := name
    op_type := "Squeeze"
    description := "Squeeze for Fused Gather nodes"
    domain := kOnnxDomain
    since_version := -1
    input_defs := [split_output, axes_arg]
    output_defs := gather_output.toList
    attributes := []
    execution_provider_type := provider
    input_edges := []
    output_edges := [] }

/-- A node once the nodes `removed` have been detached and removed: it keeps
everything but its edges from and to those nodes. -/
def Node.detach (removed : List NodeIndex) (n : Node) : Node :=
  { n with
    input_edges := n.input_edges.filter fun e => !removed.contains e.node_index
    output_edges := n.output_edges.filter fun e => !removed.contains e.node_index }

/-- The NodeArg of the initializer that carries the Squeeze axis: an INT64
tensor of dims `[1]`. -/
def axes_node_arg (name : String) : NodeArg :=
  { name := name
    type := some { elem_type := TensorProto_DataType_INT64
                   shape := some ⟨[Dimension.dim_value 1], by decide⟩ } }

/-- The Split node of lines 133-136: its only input is the output of the
producer, its outputs are the Split outputs, the axis is the attribute `axis`. -/
def split_node (name provider : String) (split_axis : Int) (output : NodeArg)
    (split_outputs : List NodeArg) : Node :=
  { name := name
    op_type := "Split"
    description := "Split for Fused Gather nodes"
    domain := kOnnxDomain
    since_version := -1
    input_defs := [output]
    output_defs := split_outputs
    attributes := [("axis", AttributeProto.i split_axis)]
    execution_provider_type := provider
    input_edges := []
    output_edges := [] }

/-- Does the iteration of the node loop for `node_index` perform the rewrite
(reach lines 115-173)? -/
def GatherToSplitFusion.fuses_at (self : GatherToSplitFusion) (graph : Graph) (modified : Bool)
    (node_index : NodeIndex) : Bool :=
  match graph.GetNode node_index with
  | none => false
  | some node =>
    match self.Recurse node modified with
    | (Status.error _, _) => false
    | (Status.OK, _) =>
      match self.match_node graph node with
      | .fuse _ _ _ _ => true
      | _ => false

/-- The nodes at which a call of `ApplyImpl` performs the rewrite, in order:
the fusions performed at this graph level. -/
def GatherToSplitFusion.fusions (self : GatherToSplitFusion) :
    List NodeIndex → Graph → Bool → List NodeIndex
  | [], _, _ => []
  | node_index :: rest, graph, modified =>
    (if self.fuses_at graph modified node_index then [node_index] else []) ++
      match (self.visit graph modified node_index).exit with
      | none =>
        self.fusions rest (self.visit graph modified node_index).graph
          (self.visit graph modified node_index).modified
      | some _ => []

namespace Example

/-- A graph without a match: `[B, 4, H]` with three Gather consumers of axis 1. -/
def graph_B4H : Graph :=
  fan_out_graph 12 "Relu" TensorProto_DataType_INT64 shape_B4H [(0, 1), (1, 1), (2, 1)]

end Example

/-! ## Further example graphs: consumers whose axis lies outside the rank -/

namespace Example

/-- The end-to-end example with the axis attribute of the three Gather nodes
set to 7, on the producer of rank 3. -/
def graph_axis_7 : Graph :=
  fan_out_graph 12 "Relu" TensorProto_DataType_INT64 shape_B3H [(0, 7), (1, 7), (2, 7)]

/-- The end-to-end example with the axis attribute of the three Gather nodes
set to -5, on the producer of rank 3. -/
def graph_axis_minus_5 : Graph :=
  fan_out_graph 12 "Relu" TensorProto_DataType_INT64 shape_B3H [(0, -5), (1, -5), (2, -5)]

/-- The end-to-end example with the axis attribute of the three Gather nodes
set to `2^32 + 1`, which `static_cast<int>` maps to 1. -/
def graph_axis_wrapped : Graph :=
  fan_out_graph 12 "Relu" TensorProto_DataType_INT64 shape_B3H
    [(0, 4294967297), (1, 4294967297), (2, 4294967297)]

end Example

/-! ## The node loop up to a node -/

/-- The graph and the `modified` flag with which the node loop of `ApplyImpl`
enters the iteration that follows the given first entries of
`node_topology_list`; `none` when the loop has ended inside one of them. -/
def GatherToSplitFusion.reach (self : GatherToSplitFusion) :
    List NodeIndex → Graph → Bool → Option (Graph × Bool)
  | [], graph, modified => some (graph, modified)
  | node_index :: rest, graph, modified =>
    match (self.visit graph modified node_index).exit with
    | none =>
      self.reach rest (self.visit graph modified node_index).graph
        (self.visit graph modified node_index).modified
    | some _ => none

namespace Example

/-- The shape `[B, 2, 2]`. -/
def shape_B22 : TensorShapeProto := ⟨[B, .dim_value 2, .dim_value 2], by decide⟩

/-- The shape `[B]`. -/
def shape_B1 : TensorShapeProto := ⟨[B], by decide⟩

/-- The output `y0` of the Gather `G0` of the nested graph, of shape
`[B, 2]`. -/
def y0_B2 : NodeArg := { name := "y0", type := float_tensor shape_B2 }

/-- The Gather `G0` of the nested graph, at index 1: it reads `x` at index 0
along axis 1 and has itself the two Gather consumers `H0` and `H1`, the nodes
3 and 4. -/
def nested_G0 : Node :=
  { name := "G0", op_type := "Gather", description := "", domain := ""
    since_version := 13
    input_defs := [x shape_B22, idx TensorProto_DataType_INT64 0]
    output_defs := [y0_B2]
    attributes := [("axis", .i 1)]
    execution_provider_type := "CPUExecutionProvider"
    input_edges := [⟨0, 0, 0⟩]
    output_edges := [⟨3, 0, 0⟩, ⟨4, 0, 0⟩] }

/-- The Gather `G1` of the nested graph, at index 2: it reads `x` at index 1
along axis 1. -/
def nested_G1 : Node :=
  { name := "G1", op_type := "Gather", description := "", domain := ""
    since_version := 13
    input_defs := [x shape_B22, idx TensorProto_DataType_INT64 1]
    output_defs := [{ name := "y1", type := float_tensor shape_B2 }]
    attributes := [("axis", .i 1)]
    execution_provider_type := "CPUExecutionProvider"
    input_edges := [⟨0, 0, 0⟩]
    output_edges := [] }

/-- The Gather `H i` of the nested graph, at index `3 + i`: it reads `y0` at
index `i` along axis 1. -/
def nested_H (i : Nat) : Node :=
  { name := "H" ++ toString i, op_type := "Gather", description := "", domain := ""
    since_version := 13
    input_defs := [y0_B2, idx TensorProto_DataType_INT64 i]
    output_defs := [{ name := "z" ++ toString i, type := float_tensor shape_B1 }]
    attributes := [("axis", .i 1)]
    execution_provider_type := "CPUExecutionProvider"
    input_edges := [⟨1, 0, 0⟩]
    output_edges := [] }

/-- The nested graph `M -> {G0, G1}`, `G0 -> {H0, H1}`: `M` has the output
`x` of shape `[B, 2, 2]`, `G0` and `G1` select the indices 0 and 1 of its axis
1, and `H0` and `H1` select the indices 0 and 1 of axis 1 of the output `y0`
of `G0`, of shape `[B, 2]`. The nodes are in topological order. -/
def graph_nested : Graph :=
  { nodes := [some (producer "Relu" shape_B22 2), some nested_G0, some nested_G1,
      some (nested_H 0), some (nested_H 1)]
    node_args := [{ name := "input", type := float_tensor shape_B22 }, x shape_B22,
      idx TensorProto_DataType_INT64 0, idx TensorProto_DataType_INT64 1, y0_B2,
      { name := "y1", type := float_tensor shape_B2 },
      { name := "z0", type := float_tensor shape_B1 },
      { name := "z1", type := float_tensor shape_B1 }]
    initializers := [idx_tensor TensorProto_DataType_INT64 0 0,
      idx_tensor TensorProto_DataType_INT64 1 1]
    domain_to_version := [("", 13)]
    generated_node_arg_names := []
    generated_node_names := [] }

/-- A node of type Gather with the data input only: it has no second
input. -/
def gather_one_input (i : Nat) : Node :=
  { name := "G" ++ toString i, op_type := "Gather", description := "", domain := ""
    since_version := 13
    input_defs := [x shape_B3H]
    output_defs := [y i]
    attributes := [("axis", .i 1)]
    execution_provider_type := "CPUExecutionProvider"
    input_edges := [⟨0, 0, 0⟩]
    output_edges := [] }

/-- The graph `N -> {G0, G1, G2}` in which the three nodes of type Gather
have one input each. -/
def graph_one_input : Graph :=
  { nodes := [some (producer "Relu" shape_B3H 3), some (gather_one_input 0),
      some (gather_one_input 1), some (gather_one_input 2)]
    node_args := [{ name := "input", type := float_tensor shape_B3H }, x shape_B3H,
      y 0, y 1, y 2]
    initializers := []
    domain_to_version := [("", 13)]
    generated_node_arg_names := []
    generated_node_names := [] }

end Example

/-! ## Kernel registration (contrib_ops/cuda/cuda_contrib_kernels.cc) -/

/-- Modelled from the spec: the class `KernelDef` is defined in a file that is
not available. It is the key of a registration entry: "backend identifier,
domain, operator name, version-applicability, optional type-constraint
tuple". -/
structure KernelDef where
  provider_type : String
  op_domain : String
  op_name : String
  op_since_version_start : Int
  op_since_version_end : Int
  type_constraints : List String
deriving DecidableEq, Repr

/-- Modelled from the spec: the struct `KernelCreateInfo` is defined in a file
that is not available. A registration entry holds its key, `kernel_def` (a
pointer, null in a sentinel entry), and the "factory function producing an
executable kernel instance", here the name of the kernel class it creates. -/
structure KernelCreateInfo where
  kernel_def : Option KernelDef
  kernel_create_func : Option String
deriving DecidableEq, Repr

/-- The type `BuildKernelCreateInfoFn` of the entries of `function_table`:
a function without arguments that returns a `KernelCreateInfo`. -/
abbrev BuildKernelCreateInfoFn : Type := Unit → KernelCreateInfo

/-- Lines 104-108: `BuildKernelCreateInfo<void>` returns a default-constructed
`KernelCreateInfo`, whose `kernel_def` is null. -/
def BuildKernelCreateInfo_void : BuildKernelCreateInfoFn :=
  fun _ => { kernel_def := none, kernel_create_func := none }

/-- What `RegisterCudaContribKernels` does, in order: a table entry is called
(`function_table_entry()`, for the entry at the given position of the table),
or `kernel_registry.Register` is called with an info and returns a status. -/
inductive RegistrationStep where
  | build (entry : Nat)
  | Register (info : KernelCreateInfo) (returned : Status)
deriving DecidableEq, Repr

/-- The info passed to `Register` in a step, if the step is a call of it. -/
def RegistrationStep.registered : RegistrationStep → Option KernelCreateInfo
  | .build _ => none
  | .Register info _ => some info

/-- The table position of a step that calls a table entry. -/
def RegistrationStep.built : RegistrationStep → Option Nat
  | .build entry => some entry
  | .Register _ _ => none

/-- The outcome of `RegisterCudaContribKernels`: the status it returns, the
registry it leaves and the steps it took. -/
structure RegistrationResult (ρ : Type) where
  status : Status
  kernel_registry : ρ
  steps : List RegistrationStep

/-- The steps taken before a result are put in front of it. -/
def RegistrationResult.after {ρ : Type} (steps : List RegistrationStep)
    (r : RegistrationResult ρ) : RegistrationResult ρ :=
  { r with steps := steps ++ r.steps }

/-- Lines 200-207: the loop over `function_table`, from the entry at position
`i` on. `KernelRegistry::Register` is defined in a file that is not available
and is a parameter: it takes the registry and the info and gives the status
and the registry it leaves. `ORT_RETURN_IF_ERROR` returns the status of the
call when it is not OK. -/
def RegisterLoop {ρ : Type} (Register : ρ → KernelCreateInfo → Status × ρ) :
    List BuildKernelCreateInfoFn → Nat → ρ → RegistrationResult ρ
  | [], _, kernel_registry =>
    { status := Status.OK, kernel_registry := kernel_registry, steps := [] }
  | function_table_entry :: rest, i, kernel_registry =>
    let info := function_table_entry ()
    if info.kernel_def ≠ none then
      match Register kernel_registry info with
      | (Status.OK, kernel_registry) =>
        (RegisterLoop Register rest (i + 1) kernel_registry).after
          [.build i, .Register info Status.OK]
      | (Status.error msg, kernel_registry) =>
        { status := Status.error msg
          kernel_registry := kernel_registry
          steps := [.build i, .Register info (Status.error msg)] }
    else
      (RegisterLoop Register rest (i + 1) kernel_registry).after [.build i]

/-- Lines 110-208: `RegisterCudaContribKernels`. The entries of the static
`function_table` of lines 111-198 depend on the build configuration (the
macros `USE_ROCM`, `CUDA_VERSION`, ...); the table is a parameter. -/
def RegisterCudaContribKernels {ρ : Type} (Register : ρ → KernelCreateInfo → Status × ρ)
    (function_table : List BuildKernelCreateInfoFn) (kernel_registry : ρ) :
    RegistrationResult ρ :=
  RegisterLoop Register function_table 0 kernel_registry

/-- The infos of the entries of a table that are not sentinels, in table
order. -/
def enabled_entries (function_table : List BuildKernelCreateInfoFn) : List KernelCreateInfo :=
  (function_table.map fun function_table_entry => function_table_entry ()).filter
    fun info => info.kernel_def.isSome

/-- Modelled from the spec: the class `KernelRegistry` is defined in a file
that is not available. It is a "lookup table" from keys to kernel factories;
the entries are kept in the order of their registration. -/
structure KernelRegistry where
  entries : List KernelCreateInfo
deriving DecidableEq, Repr

/-- Modelled from the spec: the lookup of a key "returns the matching factory
or a not found result" (`none`). -/
def KernelRegistry.TryFindKernel (self : KernelRegistry) (key : KernelDef) :
    Option KernelCreateInfo :=
  self.entries.find? fun info => info.kernel_def == some key

/-- Modelled from the spec: `KernelRegistry::Register` is defined in a file
that is not available. "Keys must be unique": the registration of a key that
the registry holds already is an error and leaves the registry as it was, and
so does an info without a key; otherwise the entry is added. -/
def KernelRegistry.Register (self : KernelRegistry) (create_info : KernelCreateInfo) :
    Status × KernelRegistry :=
  match create_info.kernel_def with
  | none => (Status.error "kernel def can't be NULL", self)
  | some key =>
    match self.TryFindKernel key with
    | some _ => (Status.error ("Failed to add kernel for " ++ key.op_name), self)
    | none => (Status.OK, { entries := self.entries ++ [create_info] })

namespace Example

/-- An entry `BuildKernelCreateInfo<...>` for a typed kernel class of the
CUDA provider, version 1: it builds an info with a key. -/
def BuildKernelCreateInfo (domain type name : String) : BuildKernelCreateInfoFn :=
  fun _ =>
    { kernel_def := some
        { provider_type := "CUDAExecutionProvider"
          op_domain := domain
          op_name := name
          op_since_version_start := 1
          op_since_version_end := 1
          type_constraints := [type] }
      kernel_create_func := some (name ++ "<" ++ type ++ ">") }

/-- The first entries of the table of lines 111-115, with the sentinel. -/
def function_table : List BuildKernelCreateInfoFn :=
  [BuildKernelCreateInfo_void,
   BuildKernelCreateInfo "com.microsoft" "float" "GridSample",
   BuildKernelCreateInfo "com.microsoft" "float" "FastGelu",
   BuildKernelCreateInfo "com.microsoft" "MLFloat16" "FastGelu"]

/-- A table in which the entry for `FastGelu` on `float` occurs twice,
followed by one more entry. -/
def function_table_duplicate : List BuildKernelCreateInfoFn :=
  [BuildKernelCreateInfo_void,
   BuildKernelCreateInfo "com.microsoft" "float" "FastGelu",
   BuildKernelCreateInfo "com.microsoft" "float" "FastGelu",
   BuildKernelCreateInfo "com.microsoft" "float" "Gelu"]

/-- The key of the `FusedConv` kernel, which the table of lines 111-198 omits
in a ROCm build. -/
def FusedConv_key : KernelDef :=
  { provider_type := "CUDAExecutionProvider"
    op_domain := "com.microsoft"
    op_name := "FusedConv"
    op_since_version_start := 1
    op_since_version_end := 1
    type_constraints := ["float"] }

end Example

/-! ## The fence (core/providers/cuda/cuda_fence.cc) -/

/-- A CUDA event handle, `cudaEvent_t`. -/
abbrev cudaEvent_t : Type := Nat

/-- A CUDA stream handle, `cudaStream_t`. -/
abbrev cudaStream_t : Type := Nat

/-- The status a CUDA runtime call reports, `cudaError_t`: success, "not
ready", or another error code. -/
inductive cudaError_t where
  | cudaSuccess
  | cudaErrorNotReady
  | other (code : Nat)
deriving DecidableEq, Repr

/-- The CUDA runtime calls written in cuda_fence.cc. -/
inductive CudaOp where
  | cudaStreamWaitEvent (stream : cudaStream_t) (event : cudaEvent_t) (flags : Nat)
  | cudaEventSynchronize (event : cudaEvent_t)
  | cudaEventQuery (event : cudaEvent_t)
  | cudaEventRecord (event : cudaEvent_t) (stream : cudaStream_t)
  | cudaGetLastError
deriving DecidableEq, Repr

/-- The event a runtime call is about, if any. -/
def CudaOp.event : CudaOp → Option cudaEvent_t
  | .cudaStreamWaitEvent _ event _ => some event
  | .cudaEventSynchronize event => some event
  | .cudaEventQuery event => some event
  | .cudaEventRecord event _ => some event
  | .cudaGetLastError => none

/-- The stream a runtime call enqueues work on, if any. -/
def CudaOp.stream : CudaOp → Option cudaStream_t
  | .cudaStreamWaitEvent stream _ _ => some stream
  | .cudaEventRecord _ stream => some stream
  | _ => none

/-- Is the call one that blocks the host thread until an event completes? -/
def CudaOp.is_synchronize : CudaOp → Bool
  | .cudaEventSynchronize _ => true
  | _ => false

/-- Is the call a non-blocking poll: a query of an event, or the reading of
the last error? -/
def CudaOp.is_query : CudaOp → Bool
  | .cudaEventQuery _ => true
  | .cudaGetLastError => true
  | _ => false

/-- The CUDA runtime as the calling thread sees it: the status it reports for
a call, given the calls the operation has made before. -/
structure CudaRuntime where
  respond : List CudaOp → CudaOp → cudaError_t

/-- The run of a fence operation: the runtime calls it made, in order, and
its result; `none` when it ended by throwing. -/
structure FenceRun (α : Type) where
  calls : List CudaOp
  result : Option α
deriving DecidableEq, Repr

/-- The name of the CUDA execution provider, `kCudaExecutionProvider`. -/
def kCudaExecutionProvider : String := "CUDAExecutionProvider"

/-- The class `CUDAFence`: its two events, and the streams of the queues of
`data_transfer_` (`GPUDataTransfer::GetStream` is defined in a file that is
not available and is a field). -/
structure CUDAFence where
  GetStream : Int → cudaStream_t
  read_event_ : cudaEvent_t
  write_event_ : cudaEvent_t

/-- Modelled from the spec: the macro `CUDA_CALL_THROW` and the function
`CudaCall<cudaError_t, true>` are defined in a file that is not available. A
"call reporting something other than success" is "unrecoverable and
propagated as a fatal status": the operation ends by throwing. The function
makes the given calls in turn, each answered by the runtime, and stops at the
first that does not report success. -/
def CUDA_CALL_THROW (runtime : CudaRuntime) : List CudaOp → List CudaOp → FenceRun Unit
  | made, [] => { calls := made, result := some () }
  | made, op :: rest =>
    if runtime.respond made op = cudaError_t.cudaSuccess then
      CUDA_CALL_THROW runtime (made ++ [op]) rest
    else
      { calls := made ++ [op], result := none }

/-- Lines 23-31: `CUDAFence::BeforeUsingAsInput`. -/
def CUDAFence.BeforeUsingAsInput (self : CUDAFence) (runtime : CudaRuntime)
    (provider_type : String) (async_queue_id : Int) : FenceRun Unit :=
  if provider_type = kCudaExecutionProvider then
    CUDA_CALL_THROW runtime []
      [.cudaStreamWaitEvent (self.GetStream async_queue_id) self.write_event_ 0]
  else
    CUDA_CALL_THROW runtime [] [.cudaEventSynchronize self.write_event_]

/-- Lines 33-44: `CUDAFence::BeforeUsingAsOutput`. -/
def CUDAFence.BeforeUsingAsOutput (self : CUDAFence) (runtime : CudaRuntime)
    (provider_type : String) (queue_id : Int) : FenceRun Unit :=
  if provider_type = kCudaExecutionProvider then
    let stream := self.GetStream queue_id
    CUDA_CALL_THROW runtime []
      [.cudaStreamWaitEvent stream self.read_event_ 0,
       .cudaStreamWaitEvent stream self.write_event_ 0]
  else
    CUDA_CALL_THROW runtime []
      [.cudaEventSynchronize self.read_event_, .cudaEventSynchronize self.write_event_]

/-- Lines 46-65: `CUDAFence::CanRelease`. The call of
`CudaCall<cudaError_t, true>` with a status that is not `cudaSuccess` throws
(see `CUDA_CALL_THROW`). -/
def CUDAFence.CanRelease (self : CUDAFence) (runtime : CudaRuntime) : FenceRun Bool :=
  let query_read := CudaOp.cudaEventQuery self.read_event_
  let status := runtime.respond [] query_read
  if status = cudaError_t.cudaErrorNotReady then
    { calls := [query_read, .cudaGetLastError], result := some false }
  else if status ≠ cudaError_t.cudaSuccess then
    { calls := [query_read], result := none }
  else
    let query_write := CudaOp.cudaEventQuery self.write_event_
    let status := runtime.respond [query_read] query_write
    if status = cudaError_t.cudaErrorNotReady then
      { calls := [query_read, query_write, .cudaGetLastError], result := some false }
    else if status ≠ cudaError_t.cudaSuccess then
      { calls := [query_read, query_write], result := none }
    else
      { calls := [query_read, query_write], result := some true }

/-- Lines 67-71: `CUDAFence::AfterUsedAsInput`. -/
def CUDAFence.AfterUsedAsInput (self : CUDAFence) (runtime : CudaRuntime) (queue_id : Int) :
    FenceRun Unit :=
  let stream := self.GetStream queue_id
  CUDA_CALL_THROW runtime [] [.cudaEventRecord self.read_event_ stream]

/-- Lines 73-77: `CUDAFence::AfterUsedAsOutput`. -/
def CUDAFence.AfterUsedAsOutput (self : CUDAFence) (runtime : CudaRuntime) (queue_id : Int) :
    FenceRun Unit :=
  let stream := self.GetStream queue_id
  CUDA_CALL_THROW runtime [] [.cudaEventRecord self.write_event_ stream]

namespace Example

/-- A fence with read event 1 and write event 2; queue `q` has stream
`10 + q`. -/
def fence : CUDAFence :=
  { GetStream := fun queue_id => 10 + queue_id.toNat
    read_event_ := 1
    write_event_ := 2 }

/-- A runtime that reports success for every call. -/
def runtime_success : CudaRuntime :=
  { respond := fun _ _ => cudaError_t.cudaSuccess }

/-- A runtime that reports the given status for every call on the given
event, and success for every other call. -/
def runtime_with (event : cudaEvent_t) (status : cudaError_t) : CudaRuntime :=
  { respond := fun _ op => if op.event = some event then status else cudaError_t.cudaSuccess }

end Example

/-- The status the runtime reports for the first call of `CanRelease`, the
query of the read event. -/
def CUDAFence.read_poll (self : CUDAFence) (runtime : CudaRuntime) : cudaError_t :=
  runtime.respond [] (.cudaEventQuery self.read_event_)

/-- The status the runtime reports for the query of the write event, made
after the query of the read event. -/
def CUDAFence.write_poll (self : CUDAFence) (runtime : CudaRuntime) : cudaError_t :=
  runtime.respond [.cudaEventQuery self.read_event_] (.cudaEventQuery self.write_event_)

/-! ## The consumer loop: one iteration, soundness, completeness -/

theorem dim_check_iff (dim : Dimension) (k : Nat) :
    (!utils.HasDimValue dim || dim.get_dim_value != (k : Int)) = false ↔
      dim = Dimension.dim_value (k : Int) := by
  cases dim <;> simp [utils.HasDimValue, Dimension.get_dim_value]

theorem check_index_next (k : Nat) (s s1 : LoopState) (index : Int) (e : ConsumerEdge) :
    check_index k s index e = .next s1 ↔
      ∃ out, e.output = some out ∧ 0 ≤ normalize_index index k ∧
        normalize_index index k < (k : Int) ∧
        slot_taken s.gather_outputs (normalize_index index k) = false ∧
        s1 = { s with
          nodes_to_fuse := s.nodes_to_fuse ++ [e.node_index]
          gather_outputs := s.gather_outputs.set (normalize_index index k).toNat (some out) } := by
  unfold check_index
  simp only []
  split
  · rename_i h
    simp only [Bool.or_eq_true, decide_eq_true_eq] at h
    constructor
    · intro h1; cases h1
    · rintro ⟨out, _, h0, h1, h2, _⟩
      rcases h with (h | h) | h
      · omega
      · omega
      · simp [h2] at h
  · rename_i h
    simp only [Bool.or_eq_true, decide_eq_true_eq, not_or, not_lt, Bool.not_eq_true] at h
    obtain ⟨⟨h0, h1⟩, h2⟩ := h
    cases ho : e.output with
    | none => simp
    | some out =>
      simp only [LoopResult.next.injEq, Option.some.injEq, exists_eq_left']
      constructor
      · intro h; exact ⟨h0, by omega, h2, h.symm⟩
      · rintro ⟨_, _, _, h⟩; exact h.symm

theorem loop_body_next (shape : TensorShapeProto) (rank : Int) (k : Nat) (s s1 : LoopState)
    (e : ConsumerEdge) :
    loop_body shape rank k s e = .next s1 ↔
      ∃ index axis out, e.supported = some (index, axis) ∧ e.output = some out ∧
        axis_accepted shape k s (normalize_axis axis rank) ∧
        0 ≤ normalize_index index k ∧ normalize_index index k < (k : Int) ∧
        slot_taken s.gather_outputs (normalize_index index k) = false ∧
        s1 = s.accept (normalize_axis axis rank) (normalize_index index k) out e.node_index := by
  unfold loop_body axis_accepted
  cases hs : e.supported with
  | none => simp
  | some p =>
    obtain ⟨index, axis⟩ := p
    simp only [Option.some.injEq, Prod.mk.injEq]
    cases hf : s.first_edge with
    | true =>
      simp only [if_true]
      cases hd : shape.dim (static_cast_int (normalize_axis axis rank)) with
      | none => simp [hd]
      | some dim =>
        simp only []
        by_cases hc : (!utils.HasDimValue dim || dim.get_dim_value != (k : Int)) = false
        · have hdim := (dim_check_iff dim k).1 hc
          simp only [hc, Bool.false_eq_true, if_false, check_index_next]
          constructor
          · rintro ⟨out, ho, h0, h1, h2, rfl⟩
            exact ⟨index, axis, out, ⟨rfl, rfl⟩, ho, by rw [hd, hdim], h0, h1, h2, by
              simp [LoopState.accept]⟩
          · rintro ⟨i, a, out, ⟨rfl, rfl⟩, ho, _, h0, h1, h2, rfl⟩
            exact ⟨out, ho, h0, h1, h2, by simp [LoopState.accept]⟩
        · have hc1 : (!utils.HasDimValue dim || dim.get_dim_value != (k : Int)) = true := by
            rw [← Bool.not_eq_false]; exact hc
          simp only [hc1, if_true]
          constructor
          · intro h; cases h
          · rintro ⟨i, a, out, ⟨rfl, rfl⟩, _, hd1, _⟩
            have hd2 := hd.symm.trans hd1
            rw [Option.some.injEq] at hd2
            exact absurd ((dim_check_iff dim k).2 hd2) hc
    | false =>
      simp only [Bool.false_eq_true, if_false]
      by_cases ha : normalize_axis axis rank = s.split_axis
      · have : (normalize_axis axis rank != s.split_axis) = false := by simp [ha]
        simp only [this, Bool.false_eq_true, if_false, check_index_next]
        constructor
        · rintro ⟨out, ho, h0, h1, h2, rfl⟩
          refine ⟨index, axis, out, ⟨rfl, rfl⟩, ho, ha, h0, h1, h2, ?_⟩
          cases s
          simp only [LoopState.accept] at *
          simp [hf, ha]
        · rintro ⟨i, a, out, ⟨rfl, rfl⟩, ho, _, h0, h1, h2, rfl⟩
          refine ⟨out, ho, h0, h1, h2, ?_⟩
          cases s
          simp only [LoopState.accept] at *
          simp [hf, ha]
      · have : (normalize_axis axis rank != s.split_axis) = true := by simp [ha]
        simp only [this, if_true]
        constructor
        · intro h; cases h
        · rintro ⟨i, a, out, ⟨rfl, rfl⟩, _, h, _⟩
          exact absurd h ha

theorem slot_taken_eq_true (l : List (Option NodeArg)) (i : Int) :
    slot_taken l i = true ↔ ∃ o, l[i.toNat]? = some (some o) := by
  unfold slot_taken
  split
  · rename_i o h; simp [h]
  · rename_i h
    simp only [Bool.false_eq_true, false_iff, not_exists]
    intro o ho
    exact h o ho

theorem slot_taken_eq_false (l : List (Option NodeArg)) (i : Int) :
    slot_taken l i = false ↔ ∀ o, l[i.toNat]? ≠ some (some o) := by
  rw [← Bool.not_eq_true, slot_taken_eq_true]
  simp

theorem consumer_loop_cons_next (shape : TensorShapeProto) (rank : Int) (k : Nat)
    (s s2 : LoopState) (x : Option ConsumerEdge) (rest : List (Option ConsumerEdge)) :
    consumer_loop shape rank k s (x :: rest) = .next s2 ↔
      ∃ e s1, x = some e ∧ loop_body shape rank k s e = .next s1 ∧
        consumer_loop shape rank k s1 rest = .next s2 := by
  cases x with
  | none => simp [consumer_loop]
  | some e =>
    simp only [consumer_loop, Option.some.injEq, exists_and_left, exists_eq_left']
    cases h : loop_body shape rank k s e <;> simp

theorem consumer_loop_sound (shape : TensorShapeProto) (rank : Int) (k : Nat)
    (edges : List (Option ConsumerEdge)) :
    ∀ (s s2 : LoopState), s.gather_outputs.length = k →
      consumer_loop shape rank k s edges = .next s2 →
      s2.gather_outputs.length = k ∧
      s2.nodes_to_fuse = s.nodes_to_fuse ++ edges.filterMap (Option.map ConsumerEdge.node_index) ∧
      (∀ x ∈ edges, ∃ e ni out, x = some e ∧ e.index k = some ni ∧
        e.axis rank = some s2.split_axis ∧ e.output = some out ∧ 0 ≤ ni ∧ ni < (k : Int) ∧
        slot_taken s.gather_outputs ni = false ∧
        s2.gather_outputs[ni.toNat]? = some (some out)) ∧
      (edges.map fun x => x.bind (ConsumerEdge.index k)).Pairwise (· ≠ ·) ∧
      (∀ (j : Nat) (o : NodeArg), s.gather_outputs[j]? = some (some o) →
        s2.gather_outputs[j]? = some (some o)) ∧
      (∀ (j : Nat) (o : NodeArg), s2.gather_outputs[j]? = some (some o) →
        s.gather_outputs[j]? = some (some o) ∨
          ∃ e, some e ∈ edges ∧ e.index k = some (j : Int) ∧ e.output = some o) ∧
      (s.first_edge = false → s2.split_axis = s.split_axis ∧ s2.first_edge = false) ∧
      (s.first_edge = true → edges ≠ [] →
        shape.dim (static_cast_int s2.split_axis) = some (Dimension.dim_value (k : Int))) := by
  induction edges with
  | nil =>
    intro s s2 hlen h
    simp only [consumer_loop, LoopResult.next.injEq] at h
    subst h
    simpa using hlen
  | cons x rest ih =>
    intro s s2 hlen h
    rw [consumer_loop_cons_next] at h
    obtain ⟨e, s1, rfl, hbody, hrest⟩ := h
    rw [loop_body_next] at hbody
    obtain ⟨index, axis, out, hsup, hout, hax, h0, h1, hfree, rfl⟩ := hbody
    have hlen1 : (s.accept (normalize_axis axis rank) (normalize_index index k) out
        e.node_index).gather_outputs.length = k := by
      simp [LoopState.accept, hlen]
    obtain ⟨r1, r2, r3, r4, r5, r6, r7, _⟩ := ih _ s2 hlen1 hrest
    obtain ⟨r7a, r7b⟩ := r7 rfl
    have hni : (normalize_index index k).toNat < s.gather_outputs.length := by omega
    have hset : (s.accept (normalize_axis axis rank) (normalize_index index k) out
        e.node_index).gather_outputs[(normalize_index index k).toNat]? = some (some out) := by
      simp [LoopState.accept, List.getElem?_set, hni]
    have hfree1 := (slot_taken_eq_false _ _).1 hfree
    have hkeep : ∀ (j : Nat) (o : NodeArg), s.gather_outputs[j]? = some (some o) →
        (s.accept (normalize_axis axis rank) (normalize_index index k) out
          e.node_index).gather_outputs[j]? = some (some o) := by
      intro j o hj
      simp only [LoopState.accept, List.getElem?_set]
      split
      · rename_i hji
        subst hji
        exact absurd hj (hfree1 o)
      · exact hj
    refine ⟨r1, ?_, ?_, ?_, ?_, ?_, ?_, ?_⟩
    · rw [r2]; simp [LoopState.accept]
    · intro x hx
      rcases List.mem_cons.1 hx with rfl | hx
      · refine ⟨e, normalize_index index k, out, rfl, by simp [ConsumerEdge.index, hsup], ?_,
          hout, h0, h1, hfree, r5 _ _ hset⟩
        simp [ConsumerEdge.axis, hsup, r7a, LoopState.accept]
      · obtain ⟨e1, ni, out1, rfl, q1, q2, q3, q4, q5, q6, q7⟩ := r3 x hx
        refine ⟨e1, ni, out1, rfl, q1, q2, q3, q4, q5, ?_, q7⟩
        rw [slot_taken_eq_false] at q6 ⊢
        intro o ho
        exact q6 o (hkeep _ _ ho)
    · rw [List.map_cons, List.pairwise_cons]
      refine ⟨?_, r4⟩
      intro y hy
      rw [List.mem_map] at hy
      obtain ⟨x, hx, rfl⟩ := hy
      obtain ⟨e1, ni, out1, rfl, q1, _, _, _, _, q6, _⟩ := r3 x hx
      have he : (some e).bind (ConsumerEdge.index k) = some (normalize_index index k) := by
        simp [ConsumerEdge.index, hsup]
      have he1 : (some e1).bind (ConsumerEdge.index k) = some ni := by simpa using q1
      show (some e).bind (ConsumerEdge.index k) ≠ (some e1).bind (ConsumerEdge.index k)
      rw [he, he1]
      intro heq
      rw [Option.some.injEq] at heq
      subst heq
      rw [slot_taken_eq_false] at q6
      exact q6 out hset
    · intro j o hj
      exact r5 _ _ (hkeep _ _ hj)
    · intro j o hj
      rcases r6 j o hj with h | ⟨e1, he1, q1, q2⟩
      · by_cases hji : (normalize_index index k).toNat = j
        · subst hji
          rw [hset] at h
          right
          refine ⟨e, List.mem_cons_self _ _, ?_, ?_⟩
          · simp only [ConsumerEdge.index, hsup, Option.map_some', Option.some.injEq]
            omega
          · rw [hout]
            simpa using h
        · left
          simpa [LoopState.accept, List.getElem?_set, hji] using h
      · exact Or.inr ⟨e1, List.mem_cons_of_mem _ he1, q1, q2⟩
    · intro hf
      simp only [axis_accepted, hf, Bool.false_eq_true, if_false] at hax
      exact ⟨by rw [r7a]; simp [LoopState.accept, hax], r7b⟩
    · intro hf _
      simp only [axis_accepted, hf, if_true] at hax
      rw [r7a]
      simpa [LoopState.accept] using hax

theorem slot_taken_replicate (k : Nat) (i : Int) :
    slot_taken (List.replicate k none) i = false := by
  rw [slot_taken_eq_false]
  intro o h
  rw [List.getElem?_replicate] at h
  split at h <;> simp at h

theorem ConsumerEdge.index_axis_eq (k : Nat) (rank : Int) (e : ConsumerEdge) (ni a : Int)
    (hi : e.index k = some ni) (ha : e.axis rank = some a) :
    ∃ index axis, e.supported = some (index, axis) ∧ normalize_index index k = ni ∧
      normalize_axis axis rank = a := by
  unfold ConsumerEdge.index at hi
  unfold ConsumerEdge.axis at ha
  cases hs : e.supported with
  | none => simp [hs] at hi
  | some p =>
    obtain ⟨index, axis⟩ := p
    simp only [hs, Option.map_some', Option.some.injEq] at hi ha
    exact ⟨index, axis, rfl, hi, ha⟩

theorem consumer_loop_complete (shape : TensorShapeProto) (rank : Int) (k : Nat) (a : Int)
    (edges : List (Option ConsumerEdge)) :
    ∀ (s : LoopState), s.gather_outputs.length = k →
      (∀ x ∈ edges, ∃ e ni out, x = some e ∧ e.index k = some ni ∧ e.axis rank = some a ∧
        e.output = some out ∧ 0 ≤ ni ∧ ni < (k : Int) ∧ slot_taken s.gather_outputs ni = false) →
      (edges.map fun x => x.bind (ConsumerEdge.index k)).Pairwise (· ≠ ·) →
      (s.first_edge = true →
        shape.dim (static_cast_int a) = some (Dimension.dim_value (k : Int))) →
      (s.first_edge = false → s.split_axis = a) →
      ∃ s2, consumer_loop shape rank k s edges = .next s2 := by
  induction edges with
  | nil => intro s _ _ _ _ _; exact ⟨s, rfl⟩
  | cons x rest ih =>
    intro s hlen hall hpair hfirst hlater
    obtain ⟨e, ni, out, rfl, hi, ha, hout, h0, h1, hfree⟩ := hall _ (List.mem_cons_self _ _)
    obtain ⟨index, axis, hsup, rfl, rfl⟩ := ConsumerEdge.index_axis_eq k rank e ni a hi ha
    rw [List.map_cons, List.pairwise_cons] at hpair
    obtain ⟨hne, hpair⟩ := hpair
    have hbody : loop_body shape rank k s e =
        .next (s.accept (normalize_axis axis rank) (normalize_index index k) out e.node_index) := by
      rw [loop_body_next]
      refine ⟨index, axis, out, hsup, hout, ?_, h0, h1, hfree, rfl⟩
      unfold axis_accepted
      cases hf : s.first_edge with
      | true => simpa using hfirst hf
      | false => simpa using (hlater hf).symm
    have hstep : ∀ s2, consumer_loop shape rank k
        (s.accept (normalize_axis axis rank) (normalize_index index k) out e.node_index) rest =
          .next s2 → consumer_loop shape rank k s (some e :: rest) = .next s2 := by
      intro s2 h
      rw [consumer_loop_cons_next]
      exact ⟨e, _, rfl, hbody, h⟩
    obtain ⟨s2, hs2⟩ := ih
      (s.accept (normalize_axis axis rank) (normalize_index index k) out e.node_index)
      (by simp [LoopState.accept, hlen])
      (by
        intro x hx
        obtain ⟨e1, ni1, out1, rfl, hi1, ha1, hout1, h01, h11, hfree1⟩ :=
          hall x (List.mem_cons_of_mem _ hx)
        refine ⟨e1, ni1, out1, rfl, hi1, ha1, hout1, h01, h11, ?_⟩
        have hneq : normalize_index index k ≠ ni1 := by
          intro heq
          apply hne ((some e1).bind (ConsumerEdge.index k)) (List.mem_map.2 ⟨some e1, hx, rfl⟩)
          simp [hi, hi1, heq]
        rw [slot_taken_eq_false] at hfree1 ⊢
        intro o ho
        apply hfree1 o
        have : (normalize_index index k).toNat ≠ ni1.toNat := by omega
        simpa [LoopState.accept, List.getElem?_set, this] using ho)
      hpair
      (by intro h; simp [LoopState.accept] at h)
      (by intro _; rfl)
    exact ⟨s2, hstep s2 hs2⟩

/-! ## One iteration of the node loop -/

theorem visit_of_no_fuse (self : GatherToSplitFusion) (graph : Graph) (modified : Bool)
    (node_index : NodeIndex) (node : Node) (hget : graph.GetNode node_index = some node)
    (hno : ∀ output shape output_count s,
      self.match_node graph node ≠ .fuse output shape output_count s) :
    (self.visit graph modified node_index).graph = graph ∧
      (self.visit graph modified node_index).modified = (self.Recurse node modified).2 := by
  unfold GatherToSplitFusion.visit
  rw [hget]
  simp only []
  rcases hrec : self.Recurse node modified with ⟨status, m⟩
  cases status with
  | error msg => simp
  | OK =>
    simp only []
    cases hm : self.match_node graph node with
    | skip => simp
    | undefined => simp
    | fuse output shape output_count s => exact absurd hm (hno _ _ _ _)

theorem visit_of_skip (self : GatherToSplitFusion) (graph : Graph) (modified : Bool)
    (node_index : NodeIndex) (node : Node) (hget : graph.GetNode node_index = some node)
    (hskip : self.match_node graph node = .skip) :
    (self.visit graph modified node_index).graph = graph ∧
      (self.visit graph modified node_index).modified = (self.Recurse node modified).2 :=
  visit_of_no_fuse self graph modified node_index node hget (by
    intro _ _ _ _ h
    rw [hskip] at h
    cases h)

/-! ## From the loop to a node and its output edges -/

/-- An output edge gives the loop an entry exactly when its node is in the
graph and `IsSupportedGather` has a defined result on it. -/
theorem consumer_edge_eq_some_iff (self : GatherToSplitFusion) (graph : Graph) (edge : EdgeEnd)
    (e : ConsumerEdge) :
    self.consumer_edge graph edge = some e ↔
      ∃ c, graph.GetNode edge.node_index = some c ∧
        self.IsSupportedGather graph c ≠ .undefined ∧
        e = { supported := (self.IsSupportedGather graph c).values
              node_index := edge.node_index
              output := c.output_defs[0]? } := by
  unfold GatherToSplitFusion.consumer_edge
  cases hg : graph.GetNode edge.node_index with
  | none => simp
  | some c =>
    cases hsup : self.IsSupportedGather graph c <;>
      simp [hsup, GatherSupport.values, eq_comm]

theorem GatherSupport.values_eq_some_iff (r : GatherSupport) (index axis : Int) :
    r.values = some (index, axis) ↔ r = .supported index axis := by
  cases r <;> simp [GatherSupport.values]

theorem OutputNodes_index (self : GatherToSplitFusion) (graph : Graph) (node : Node) (k : Nat) :
    (self.OutputNodes graph node).map (fun x => x.bind (ConsumerEdge.index k)) =
      node.output_edges.map (self.normalized_index_at graph k) := by
  unfold GatherToSplitFusion.OutputNodes
  rw [List.map_map]
  apply List.map_congr_left
  intro edge _
  simp only [Function.comp, GatherToSplitFusion.normalized_index_at,
    GatherToSplitFusion.gather_at, GatherToSplitFusion.consumer_edge]
  cases graph.GetNode edge.node_index with
  | none => simp
  | some it =>
    cases hsup : self.IsSupportedGather graph it <;>
      simp [hsup, ConsumerEdge.index, GatherSupport.values]

theorem OutputNodes_axis (self : GatherToSplitFusion) (graph : Graph) (node : Node) (rank : Int) :
    (self.OutputNodes graph node).map (fun x => x.bind (ConsumerEdge.axis rank)) =
      node.output_edges.map (self.normalized_axis_at graph rank) := by
  unfold GatherToSplitFusion.OutputNodes
  rw [List.map_map]
  apply List.map_congr_left
  intro edge _
  simp only [Function.comp, GatherToSplitFusion.normalized_axis_at,
    GatherToSplitFusion.gather_at, GatherToSplitFusion.consumer_edge]
  cases graph.GetNode edge.node_index with
  | none => simp
  | some it =>
    cases hsup : self.IsSupportedGather graph it <;>
      simp [hsup, ConsumerEdge.axis, GatherSupport.values]

theorem match_node_fuse_iff (self : GatherToSplitFusion) (graph : Graph) (node : Node)
    (output : NodeArg) (shape : TensorShapeProto) (k : Nat) (s : LoopState) :
    self.match_node graph node = .fuse output shape k s ↔
      node.op_type ≠ "Shape" ∧ node.output_defs.length ≤ 1 ∧ 1 < node.output_edges.length ∧
      node.output_defs[0]? = some output ∧ output.Shape = some shape ∧
      k = node.output_edges.length ∧
      consumer_loop shape shape.dim_size k (LoopState.init k) (self.OutputNodes graph node) =
        .next s := by
  unfold GatherToSplitFusion.match_node Node.GetOutputEdgesCount
  by_cases h1 : node.op_type = "Shape"
  · simp [h1]
  by_cases h2 : 1 < node.output_defs.length
  · simp only [beq_iff_eq, h1, if_false, gt_iff_lt, h2, if_true]
    constructor
    · intro h; cases h
    · rintro ⟨_, h, _⟩; omega
  by_cases h3 : node.output_edges.length ≤ 1
  · simp only [beq_iff_eq, h1, if_false, gt_iff_lt, h2, h3, if_true]
    constructor
    · intro h; cases h
    · rintro ⟨_, _, h, _⟩; omega
  simp only [beq_iff_eq, h1, if_false, gt_iff_lt, h2, h3, ne_eq, not_false_eq_true, true_and]
  have h2' : node.output_defs.length ≤ 1 := by omega
  have h3' : 1 < node.output_edges.length := by omega
  simp only [h2', h3', true_and]
  cases ho : node.output_defs[0]? with
  | none =>
    constructor
    · intro h; cases h
    · rintro ⟨h, _⟩; cases h
  | some out =>
    simp only [Option.some.injEq]
    cases hs : out.Shape with
    | none =>
      constructor
      · intro h; cases h
      · rintro ⟨rfl, h, _⟩; rw [hs] at h; cases h
    | some sh =>
      simp only []
      cases hl : consumer_loop sh sh.dim_size node.output_edges.length
          (LoopState.init node.output_edges.length) (self.OutputNodes graph node) with
      | stop =>
        constructor
        · intro h; cases h
        · rintro ⟨rfl, h, rfl, h4⟩
          rw [hs, Option.some.injEq] at h
          subst h
          rw [hl] at h4; cases h4
      | undefined =>
        constructor
        · intro h; cases h
        · rintro ⟨rfl, h, rfl, h4⟩
          rw [hs, Option.some.injEq] at h
          subst h
          rw [hl] at h4; cases h4
      | next s1 =>
        simp only [Match.fuse.injEq]
        constructor
        · rintro ⟨rfl, rfl, rfl, rfl⟩
          exact ⟨rfl, hs, rfl, hl⟩
        · rintro ⟨rfl, h, rfl, h4⟩
          rw [hs, Option.some.injEq] at h
          subst h
          rw [hl, LoopResult.next.injEq] at h4
          exact ⟨rfl, rfl, rfl, h4⟩

theorem LoopState.init_length (k : Nat) : (LoopState.init k).gather_outputs.length = k := by
  simp [LoopState.init]

theorem output_defs_eq_singleton (node : Node) (output : NodeArg)
    (hlen : node.output_defs.length ≤ 1) (h0 : node.output_defs[0]? = some output) :
    node.output_defs = [output] := by
  cases hd : node.output_defs with
  | nil => rw [hd] at h0; cases h0
  | cons a rest =>
    rw [hd] at h0 hlen
    simp only [List.length_cons] at hlen
    have : rest = [] := List.eq_nil_of_length_eq_zero (by omega)
    subst this
    simpa using h0

theorem OutputNodes_filterMap (self : GatherToSplitFusion) (graph : Graph) (node : Node)
    (hall : ∀ edge ∈ node.output_edges, (self.consumer_edge graph edge).isSome = true) :
    (self.OutputNodes graph node).filterMap (Option.map ConsumerEdge.node_index) =
      node.output_edges.map fun edge => edge.node_index := by
  unfold GatherToSplitFusion.OutputNodes
  generalize node.output_edges = edges at hall
  induction edges with
  | nil => rfl
  | cons edge rest ih =>
    have h1 := hall edge (List.mem_cons_self _ _)
    have h2 := ih (fun e he => hall e (List.mem_cons_of_mem _ he))
    cases hc : self.consumer_edge graph edge with
    | none => rw [hc] at h1; cases h1
    | some e =>
      obtain ⟨c, _, _, rfl⟩ := (consumer_edge_eq_some_iff self graph edge e).1 hc
      simp only [List.map_cons, hc, List.filterMap_cons, Option.map_some']
      rw [h2]

/-- What a successful match says about the node, its output edges and the
loop variables handed to the rewrite. -/
theorem match_node_fuse_sound (self : GatherToSplitFusion) (graph : Graph) (node : Node)
    (output : NodeArg) (shape : TensorShapeProto) (k : Nat) (s : LoopState)
    (h : self.match_node graph node = .fuse output shape k s) :
    node.op_type ≠ "Shape" ∧ node.output_defs = [output] ∧ output.Shape = some shape ∧
      k = node.output_edges.length ∧ 2 ≤ k ∧
      (∀ edge ∈ node.output_edges, ∃ c index axis out,
        graph.GetNode edge.node_index = some c ∧
        self.IsSupportedGather graph c = .supported index axis ∧
        normalize_axis axis shape.dim_size = s.split_axis ∧
        0 ≤ normalize_index index k ∧ normalize_index index k < (k : Int) ∧
        c.output_defs[0]? = some out ∧
        s.gather_outputs[(normalize_index index k).toNat]? = some (some out)) ∧
      (node.output_edges.map (self.normalized_index_at graph k)).Pairwise (· ≠ ·) ∧
      shape.dim (static_cast_int s.split_axis) = some (Dimension.dim_value (k : Int)) ∧
      s.nodes_to_fuse = (node.output_edges.map fun edge => edge.node_index) ∧
      s.gather_outputs.length = k ∧
      (∀ (j : Nat) (o : NodeArg), s.gather_outputs[j]? = some (some o) →
        ∃ edge ∈ node.output_edges, ∃ c index axis,
          graph.GetNode edge.node_index = some c ∧
          self.IsSupportedGather graph c = .supported index axis ∧
          normalize_index index k = (j : Int) ∧ c.output_defs[0]? = some o) := by
  rw [match_node_fuse_iff] at h
  obtain ⟨h1, h2, h3, h4, h5, h6, h7⟩ := h
  obtain ⟨r1, r2, r3, r4, _, r6, _, r8⟩ :=
    consumer_loop_sound shape shape.dim_size k _ _ s (LoopState.init_length k) h7
  have hmem : ∀ edge ∈ node.output_edges,
      self.consumer_edge graph edge ∈ self.OutputNodes graph node := by
    intro edge he
    unfold GatherToSplitFusion.OutputNodes
    exact List.mem_map.2 ⟨edge, he, rfl⟩
  have hedges : ∀ edge ∈ node.output_edges, ∃ c index axis out,
      graph.GetNode edge.node_index = some c ∧
      self.IsSupportedGather graph c = .supported index axis ∧
      normalize_axis axis shape.dim_size = s.split_axis ∧
      0 ≤ normalize_index index k ∧ normalize_index index k < (k : Int) ∧
      c.output_defs[0]? = some out ∧
      s.gather_outputs[(normalize_index index k).toNat]? = some (some out) := by
    intro edge he
    obtain ⟨e, ni, out, hx, q1, q2, q3, q4, q5, _, q7⟩ := r3 _ (hmem edge he)
    obtain ⟨c, hg, _, rfl⟩ := (consumer_edge_eq_some_iff self graph edge e).1 hx
    obtain ⟨index, axis, hsup, rfl, hax⟩ :=
      ConsumerEdge.index_axis_eq k shape.dim_size _ ni _ q1 q2
    exact ⟨c, index, axis, out, hg,
      (GatherSupport.values_eq_some_iff _ index axis).1 hsup, hax, q4, q5, q3, q7⟩
  have hne : self.OutputNodes graph node ≠ [] := by
    unfold GatherToSplitFusion.OutputNodes
    intro hnil
    have := congrArg List.length hnil
    rw [List.length_map, List.length_nil] at this
    omega
  refine ⟨h1, output_defs_eq_singleton node output h2 h4, h5, h6, by omega, hedges, ?_,
    r8 rfl hne, ?_, r1, ?_⟩
  · rw [← OutputNodes_index]; exact r4
  · rw [r2]
    simp only [LoopState.init, List.nil_append]
    apply OutputNodes_filterMap
    intro edge he
    obtain ⟨c, index, axis, _, hg, hsup, _⟩ := hedges edge he
    simp [GatherToSplitFusion.consumer_edge, hg, hsup]
  · intro j o hj
    rcases r6 j o hj with h | ⟨e, he, q1, q2⟩
    · simp [LoopState.init, List.getElem?_replicate] at h
    · unfold GatherToSplitFusion.OutputNodes at he
      obtain ⟨edge, hedge, hx⟩ := List.mem_map.1 he
      obtain ⟨c, hg, _, rfl⟩ := (consumer_edge_eq_some_iff self graph edge e).1 hx
      unfold ConsumerEdge.index at q1
      cases hsup : self.IsSupportedGather graph c with
      | unsupported => simp [hsup, GatherSupport.values] at q1
      | undefined => simp [hsup, GatherSupport.values] at q1
      | supported index axis =>
        simp only [hsup, GatherSupport.values, Option.map_some', Option.some.injEq] at q1
        exact ⟨edge, hedge, c, index, axis, hg, hsup, q1, q2⟩

theorem getElem_map_of_bind {α β : Type} (l : List α) (f : α → Option β) (i : Nat) (v : β)
    (h : (l[i]?).bind f = some v) :
    ∃ (hi : i < (l.map f).length), (l.map f)[i] = some v ∧ ∃ a ∈ l, l[i]? = some a ∧ f a = some v := by
  cases ha : l[i]? with
  | none => rw [ha] at h; cases h
  | some a =>
    rw [ha] at h
    simp only [Option.some_bind] at h
    have hi : i < l.length := (List.getElem?_eq_some.1 ha).1
    have hia : l[i] = a := (List.getElem?_eq_some.1 ha).2
    refine ⟨by simpa using hi, ?_, a, ?_, rfl, h⟩
    · simp [hia, h]
    · exact hia ▸ List.getElem_mem _

/-- A repeated or out-of-range normalized index among the consumers excludes
a successful match. -/
theorem no_fuse_of_bad_index (self : GatherToSplitFusion) (graph : Graph) (node : Node)
    (hbad :
      (∃ (i j : Nat) (v : Int), i < j ∧
        (node.output_edges[i]?).bind
          (self.normalized_index_at graph node.output_edges.length) = some v ∧
        (node.output_edges[j]?).bind
          (self.normalized_index_at graph node.output_edges.length) = some v) ∨
      (∃ (i : Nat) (v : Int),
        (node.output_edges[i]?).bind
          (self.normalized_index_at graph node.output_edges.length) = some v ∧
        (v < 0 ∨ (node.output_edges.length : Int) ≤ v)))
    (output : NodeArg) (shape : TensorShapeProto) (k : Nat) (s : LoopState) :
    self.match_node graph node ≠ .fuse output shape k s := by
  intro hm
  obtain ⟨_, _, _, hk, _, hedges, hpair, _⟩ :=
    match_node_fuse_sound self graph node output shape k s hm
  subst hk
  rcases hbad with ⟨i, j, v, hij, hi, hj⟩ | ⟨i, v, hi, hv⟩
  · obtain ⟨hi1, hi2, _⟩ := getElem_map_of_bind _ _ i v hi
    obtain ⟨hj1, hj2, _⟩ := getElem_map_of_bind _ _ j v hj
    rw [List.pairwise_iff_getElem] at hpair
    exact hpair i j hi1 hj1 hij (hi2.trans hj2.symm)
  · obtain ⟨_, _, edge, he, _, hf⟩ := getElem_map_of_bind _ _ i v hi
    obtain ⟨c, index, axis, out, hg, hsup, _, h0, h1, _⟩ := hedges edge he
    simp only [GatherToSplitFusion.normalized_index_at, GatherToSplitFusion.gather_at,
      GatherSupport.values, hg, hsup,
      Option.map_some', Option.some.injEq] at hf
    subst hf
    omega

/-! ## The loop reads indices and axes only after normalization -/

theorem check_index_congr (k : Nat) (s : LoopState) (index1 index2 : Int) (e1 e2 : ConsumerEdge)
    (hn : e1.node_index = e2.node_index) (ho : e1.output = e2.output)
    (hi : normalize_index index1 k = normalize_index index2 k) :
    check_index k s index1 e1 = check_index k s index2 e2 := by
  unfold check_index
  simp only [hi, hn, ho]

theorem loop_body_congr (shape : TensorShapeProto) (rank : Int) (k : Nat) (s : LoopState)
    (e1 e2 : ConsumerEdge) (h : ConsumerEdge.same_normalized rank k e1 e2) :
    loop_body shape rank k s e1 = loop_body shape rank k s e2 := by
  obtain ⟨hn, ho, hi, ha⟩ := h
  unfold ConsumerEdge.index at hi
  unfold ConsumerEdge.axis at ha
  unfold loop_body
  cases h1 : e1.supported with
  | none =>
    cases h2 : e2.supported with
    | none => rfl
    | some p => simp [h1, h2] at hi
  | some p1 =>
    cases h2 : e2.supported with
    | none => simp [h1, h2] at hi
    | some p2 =>
      obtain ⟨i1, a1⟩ := p1
      obtain ⟨i2, a2⟩ := p2
      simp only [h1, h2, Option.map_some', Option.some.injEq] at hi ha
      simp only [ha]
      rw [check_index_congr k s i1 i2 e1 e2 hn ho hi,
        check_index_congr k { s with split_axis := normalize_axis a2 rank, first_edge := false }
          i1 i2 e1 e2 hn ho hi]

theorem consumer_loop_congr (shape : TensorShapeProto) (rank : Int) (k : Nat)
    (es1 es2 : List ConsumerEdge)
    (h : List.Forall₂ (ConsumerEdge.same_normalized rank k) es1 es2) :
    ∀ s, consumer_loop shape rank k s (es1.map some) =
      consumer_loop shape rank k s (es2.map some) := by
  induction h with
  | nil => intro s; rfl
  | cons hab _ ih =>
    intro s
    simp only [List.map_cons, consumer_loop]
    rw [loop_body_congr shape rank k s _ _ hab]
    split
    · exact ih _
    · rfl
    · rfl

/-- Two consumers with different normalized axes exclude a successful match. -/
theorem no_fuse_of_axis_mismatch (self : GatherToSplitFusion) (graph : Graph) (node : Node)
    (output : NodeArg) (shape : TensorShapeProto)
    (hout : node.output_defs[0]? = some output) (hshape : output.Shape = some shape)
    (hdiff : ∃ (i j : Nat) (a b : Int),
      (node.output_edges[i]?).bind (self.normalized_axis_at graph shape.dim_size) = some a ∧
      (node.output_edges[j]?).bind (self.normalized_axis_at graph shape.dim_size) = some b ∧
      a ≠ b)
    (output1 : NodeArg) (shape1 : TensorShapeProto) (k : Nat) (s : LoopState) :
    self.match_node graph node ≠ .fuse output1 shape1 k s := by
  intro hm
  obtain ⟨_, hdefs, hsh, _, _, hedges, _⟩ :=
    match_node_fuse_sound self graph node output1 shape1 k s hm
  rw [hdefs] at hout
  simp only [List.getElem?_cons_zero, Option.some.injEq] at hout
  subst hout
  rw [hsh, Option.some.injEq] at hshape
  subst hshape
  obtain ⟨i, j, a, b, hi, hj, hab⟩ := hdiff
  have key : ∀ (i : Nat) (a : Int),
      (node.output_edges[i]?).bind (self.normalized_axis_at graph shape1.dim_size) = some a →
      a = s.split_axis := by
    intro i a hi
    obtain ⟨_, _, edge, he, _, hf⟩ := getElem_map_of_bind _ _ i a hi
    obtain ⟨c, index, axis, out, hg, hsup, hax, _⟩ := hedges edge he
    simp only [GatherToSplitFusion.normalized_axis_at, GatherToSplitFusion.gather_at,
      GatherSupport.values, hg, hsup,
      Option.map_some', Option.some.injEq] at hf
    rw [← hf, hax]
  exact hab ((key i a hi).trans (key j b hj).symm)

theorem consumer_loop_congr_option (shape : TensorShapeProto) (rank : Int) (k : Nat)
    (xs ys : List (Option ConsumerEdge))
    (h : List.Forall₂ (fun x y => x = y ∨
      ∃ e1 e2, x = some e1 ∧ y = some e2 ∧ ConsumerEdge.same_normalized rank k e1 e2) xs ys) :
    ∀ s, consumer_loop shape rank k s xs = consumer_loop shape rank k s ys := by
  induction h with
  | nil => intro s; rfl
  | @cons x y xs ys hxy _ ih =>
    intro s
    rcases hxy with rfl | ⟨e1, e2, rfl, rfl, hrel⟩
    · cases x with
      | none => rfl
      | some e =>
        simp only [consumer_loop]
        split
        · exact ih _
        · rfl
        · rfl
    · simp only [consumer_loop]
      rw [loop_body_congr shape rank k s _ _ hrel]
      split
      · exact ih _
      · rfl
      · rfl

theorem forall₂_refl_or {α : Type} (R : α → α → Prop) (l : List α) :
    List.Forall₂ (fun x y => x = y ∨ R x y) l l := by
  induction l with
  | nil => exact List.Forall₂.nil
  | cons a l ih => exact List.Forall₂.cons (Or.inl rfl) ih

/-! ## The narrowing conversion and the dimension lookup -/

theorem static_cast_int_of_fits (x : Int) (h0 : -2147483648 ≤ x) (h1 : x < 2147483648) :
    static_cast_int x = x := by
  unfold static_cast_int
  omega

theorem TensorShapeProto.dim_eq_some (shape : TensorShapeProto) (i : Int) (d : Dimension)
    (h : shape.dim i = some d) :
    0 ≤ i ∧ i < shape.dim_size ∧ shape.dims[i.toNat]? = some d := by
  unfold TensorShapeProto.dim at h
  split at h
  · rename_i h0
    have hlt := (List.getElem?_eq_some.1 h).1
    refine ⟨h0, ?_, h⟩
    unfold TensorShapeProto.dim_size
    omega
  · cases h

/-! ## Fresh names -/

theorem length_le_longest_name (used : List String) (n : String) (h : n ∈ used) :
    n.length ≤ longest_name used := by
  induction used with
  | nil => cases h
  | cons a rest ih =>
    simp only [longest_name]
    rcases List.mem_cons.1 h with rfl | h
    · exact le_max_left _ _
    · exact le_trans (ih h) (le_max_right _ _)

theorem fresh_name_not_mem (used : List String) (base : String) :
    fresh_name used base ∉ used := by
  unfold fresh_name
  split
  · intro h
    have := length_le_longest_name used _ h
    simp only [String.length_append, String.length_mk, List.length_replicate] at this
    have h7 : "_token_".length = 7 := by decide
    omega
  · rename_i h
    simpa using h

theorem fresh_name_eq_base (used : List String) (base : String) (h : base ∉ used) :
    fresh_name used base = base := by
  unfold fresh_name
  have : used.contains base = false := by simpa using h
  rw [this]
  rfl

/-- The parts of a graph that name generation and NodeArg creation leave
alone. -/
theorem GenerateNodeArgName_spec (g : Graph) (base : String) :
    (g.GenerateNodeArgName base).2 ∉ g.used_names ∧
      (g.GenerateNodeArgName base).1.nodes = g.nodes ∧
      (g.GenerateNodeArgName base).1.node_args = g.node_args ∧
      (g.GenerateNodeArgName base).1.initializers = g.initializers ∧
      (g.GenerateNodeArgName base).1.domain_to_version = g.domain_to_version ∧
      (∀ n, n ∈ (g.GenerateNodeArgName base).1.used_names ↔
        n = (g.GenerateNodeArgName base).2 ∨ n ∈ g.used_names) := by
  refine ⟨fresh_name_not_mem _ _, rfl, rfl, rfl, rfl, ?_⟩
  intro n
  simp only [Graph.GenerateNodeArgName, Graph.used_names, List.mem_append, List.mem_cons]
  tauto

theorem GenerateNodeName_spec (g : Graph) (base : String) :
    (g.GenerateNodeName base).2 ∉ g.used_names ∧
      (g.GenerateNodeName base).1.nodes = g.nodes ∧
      (g.GenerateNodeName base).1.node_args = g.node_args ∧
      (g.GenerateNodeName base).1.initializers = g.initializers ∧
      (g.GenerateNodeName base).1.domain_to_version = g.domain_to_version ∧
      (∀ n, n ∈ (g.GenerateNodeName base).1.used_names ↔
        n = (g.GenerateNodeName base).2 ∨ n ∈ g.used_names) := by
  refine ⟨fresh_name_not_mem _ _, rfl, rfl, rfl, rfl, ?_⟩
  intro n
  simp only [Graph.GenerateNodeName, Graph.used_names, List.mem_append, List.mem_cons]
  tauto

theorem node_arg_name_mem_used (g : Graph) (a : NodeArg) (h : a ∈ g.node_args) :
    a.name ∈ g.used_names := by
  simp only [Graph.used_names, List.mem_append, List.mem_map]
  exact Or.inl (Or.inl (Or.inl (Or.inr ⟨a, h, rfl⟩)))

theorem GetOrCreateNodeArg_fresh (g : Graph) (name : String) (type : Option TypeProto)
    (h : ∀ a ∈ g.node_args, a.name ≠ name) :
    (g.GetOrCreateNodeArg name type).2 = { name := name, type := type } ∧
      (g.GetOrCreateNodeArg name type).1.nodes = g.nodes ∧
      (g.GetOrCreateNodeArg name type).1.node_args = g.node_args ++ [{ name := name, type := type }] ∧
      (g.GetOrCreateNodeArg name type).1.initializers = g.initializers ∧
      (g.GetOrCreateNodeArg name type).1.domain_to_version = g.domain_to_version ∧
      (∀ n, n ∈ (g.GetOrCreateNodeArg name type).1.used_names ↔ n = name ∨ n ∈ g.used_names) := by
  have hfind : g.node_args.find? (fun a => a.name == name) = none := by
    rw [List.find?_eq_none]
    intro a ha
    simpa using h a ha
  unfold Graph.GetOrCreateNodeArg
  rw [hfind]
  refine ⟨rfl, rfl, rfl, rfl, rfl, ?_⟩
  intro n
  simp only [Graph.used_names, List.mem_append, List.mem_map, List.map_append, List.map_cons,
    List.map_nil, List.mem_singleton]
  constructor
  · rintro ((((h | h | h) | h) | h) | h)
    · exact Or.inr (Or.inl (Or.inl (Or.inl (Or.inl h))))
    · exact Or.inr (Or.inl (Or.inl (Or.inl (Or.inr h))))
    · exact Or.inl h
    · exact Or.inr (Or.inl (Or.inl (Or.inr h)))
    · exact Or.inr (Or.inl (Or.inr h))
    · exact Or.inr (Or.inr h)
  · rintro (h | ((((h | h) | h) | h) | h))
    · exact Or.inl (Or.inl (Or.inl (Or.inr (Or.inr h))))
    · exact Or.inl (Or.inl (Or.inl (Or.inl h)))
    · exact Or.inl (Or.inl (Or.inl (Or.inr (Or.inl h))))
    · exact Or.inl (Or.inl (Or.inr h))
    · exact Or.inl (Or.inr h)
    · exact Or.inr h

/-! ## The Split outputs and the Split node -/

theorem create_split_outputs_spec (type : TypeProto) :
    ∀ (n i : Nat) (g : Graph),
      (create_split_outputs type n i g).2.length = n ∧
      (∀ a ∈ (create_split_outputs type n i g).2,
        a.type = some type ∧ a.name ∉ g.used_names) ∧
      ((create_split_outputs type n i g).2.map fun a => a.name).Nodup ∧
      (create_split_outputs type n i g).1.nodes = g.nodes ∧
      (create_split_outputs type n i g).1.initializers = g.initializers ∧
      (create_split_outputs type n i g).1.domain_to_version = g.domain_to_version ∧
      (create_split_outputs type n i g).1.node_args =
        g.node_args ++ (create_split_outputs type n i g).2 ∧
      (∀ m, m ∈ g.used_names → m ∈ (create_split_outputs type n i g).1.used_names) := by
  intro n
  induction n with
  | zero =>
    intro i g
    simp [create_split_outputs]
  | succ n ih =>
    intro i g
    obtain ⟨hfresh, hn1, hn2, hn3, hn4, hn5⟩ := GenerateNodeArgName_spec g ("split" ++ toString i)
    have hnew : ∀ a ∈ (g.GenerateNodeArgName ("split" ++ toString i)).1.node_args,
        a.name ≠ (g.GenerateNodeArgName ("split" ++ toString i)).2 := by
      intro a ha heq
      rw [hn2] at ha
      exact hfresh (heq ▸ node_arg_name_mem_used g a ha)
    obtain ⟨hc1, hc2, hc3, hc4, hc5, hc6⟩ := GetOrCreateNodeArg_fresh
      (g.GenerateNodeArgName ("split" ++ toString i)).1
      (g.GenerateNodeArgName ("split" ++ toString i)).2 (some type) hnew
    obtain ⟨r1, r2, r3, r4, r5, r6, r7, r8⟩ := ih (i + 1)
      ((g.GenerateNodeArgName ("split" ++ toString i)).1.GetOrCreateNodeArg
        (g.GenerateNodeArgName ("split" ++ toString i)).2 (some type)).1
    have hused : ∀ m, m ∈ g.used_names →
        m ∈ ((g.GenerateNodeArgName ("split" ++ toString i)).1.GetOrCreateNodeArg
          (g.GenerateNodeArgName ("split" ++ toString i)).2 (some type)).1.used_names := by
      intro m hm
      exact (hc6 m).2 (Or.inr ((hn5 m).2 (Or.inr hm)))
    have hname : (g.GenerateNodeArgName ("split" ++ toString i)).2 ∈
        ((g.GenerateNodeArgName ("split" ++ toString i)).1.GetOrCreateNodeArg
          (g.GenerateNodeArgName ("split" ++ toString i)).2 (some type)).1.used_names :=
      (hc6 _).2 (Or.inl rfl)
    simp only [create_split_outputs]
    refine ⟨by simp [r1], ?_, ?_, ?_, ?_, ?_, ?_, ?_⟩
    · intro a ha
      rcases List.mem_cons.1 ha with rfl | ha
      · rw [hc1]
        exact ⟨rfl, hfresh⟩
      · exact ⟨(r2 a ha).1, fun hm => (r2 a ha).2 (hused _ hm)⟩
    · rw [List.map_cons, List.nodup_cons]
      refine ⟨?_, r3⟩
      intro hm
      obtain ⟨a, ha, heq⟩ := List.mem_map.1 hm
      apply (r2 a ha).2
      rw [heq, hc1]
      exact hname
    · rw [r4, hc2, hn1]
    · rw [r5, hc4, hn3]
    · rw [r6, hc5, hn4]
    · rw [r7, hc3, hn2, hc1]
      simp
    · intro m hm
      exact r8 m (hused m hm)

theorem used_names_AddNode (g : Graph) (n : Node) (m : String) (h : m ∈ g.used_names) :
    m ∈ (g.AddNode n).used_names := by
  simp only [Graph.used_names, Graph.AddNode, List.mem_append, List.flatMap_append] at h ⊢
  tauto

theorem add_split_node_spec (graph : Graph) (node : Node) (output : NodeArg)
    (shape : TensorShapeProto) (k : Nat) (split_axis : Int) :
    ∃ name : String,
      (add_split_node graph node output shape k split_axis).1.nodes = graph.nodes ++
        [some (split_node name node.execution_provider_type split_axis output
          (add_split_node graph node output shape k split_axis).2)] ∧
      name ∉ graph.used_names ∧
      (add_split_node graph node output shape k split_axis).2.length = k ∧
      (∀ a ∈ (add_split_node graph node output shape k split_axis).2,
        a.type = some (split_output_type output shape split_axis) ∧
          a.name ∉ graph.used_names) ∧
      ((add_split_node graph node output shape k split_axis).2.map fun a => a.name).Nodup ∧
      (add_split_node graph node output shape k split_axis).1.initializers =
        graph.initializers ∧
      (add_split_node graph node output shape k split_axis).1.domain_to_version =
        graph.domain_to_version ∧
      (add_split_node graph node output shape k split_axis).1.node_args =
        graph.node_args ++ (add_split_node graph node output shape k split_axis).2 ∧
      (∀ m, m ∈ graph.used_names →
        m ∈ (add_split_node graph node output shape k split_axis).1.used_names) := by
  obtain ⟨r1, r2, r3, r4, r5, r6, r7, r8⟩ :=
    create_split_outputs_spec (split_output_type output shape split_axis) k 0 graph
  obtain ⟨hfresh, hn1, hn2, hn3, hn4, hn5⟩ := GenerateNodeName_spec
    (create_split_outputs (split_output_type output shape split_axis) k 0 graph).1 "Split"
  refine ⟨((create_split_outputs (split_output_type output shape split_axis) k 0
    graph).1.GenerateNodeName "Split").2, ?_, ?_, r1, r2, r3, ?_, ?_, ?_, ?_⟩
  · simp only [add_split_node, Graph.AddNode, hn1, r4, Node.Init, Node.AddAttribute,
      Node.SetExecutionProviderType, split_node]
    rfl
  · exact fun hm => hfresh (r8 _ hm)
  · simp only [add_split_node, Graph.AddNode, hn3, r5]
  · simp only [add_split_node, Graph.AddNode, hn4, r6]
  · simp only [add_split_node, Graph.AddNode, hn2, r7]
  · intro m hm
    simp only [add_split_node]
    apply used_names_AddNode
    exact (hn5 m).2 (Or.inr (r8 m hm))

/-! ## The Squeeze nodes -/

theorem add_squeeze_nodes_axes_attribute_spec (provider : String) (split_axis : Int) :
    ∀ (split_outputs : List NodeArg) (gather_outputs : List (Option NodeArg)) (i : Nat)
      (g : Graph),
      (add_squeeze_nodes_axes_attribute provider split_axis i split_outputs gather_outputs
          g).nodes.length = g.nodes.length + min split_outputs.length gather_outputs.length ∧
      (∀ j, j < g.nodes.length →
        (add_squeeze_nodes_axes_attribute provider split_axis i split_outputs gather_outputs
          g).nodes[j]? = g.nodes[j]?) ∧
      (∀ j split_output gather_output, split_outputs[j]? = some split_output →
        gather_outputs[j]? = some gather_output →
        ∃ name, (add_squeeze_nodes_axes_attribute provider split_axis i split_outputs
            gather_outputs g).nodes[g.nodes.length + j]? =
          some (some (squeeze_node_axes_attribute name provider split_axis split_output
            gather_output))) ∧
      (add_squeeze_nodes_axes_attribute provider split_axis i split_outputs gather_outputs
          g).initializers = g.initializers ∧
      (add_squeeze_nodes_axes_attribute provider split_axis i split_outputs gather_outputs
          g).domain_to_version = g.domain_to_version ∧
      (add_squeeze_nodes_axes_attribute provider split_axis i split_outputs gather_outputs
          g).node_args = g.node_args := by
  intro split_outputs
  induction split_outputs with
  | nil =>
    intro gather_outputs i g
    simp [add_squeeze_nodes_axes_attribute]
  | cons so rest ih =>
    intro gather_outputs i g
    cases gather_outputs with
    | nil => simp [add_squeeze_nodes_axes_attribute]
    | cons go gos =>
      simp only [add_squeeze_nodes_axes_attribute]
      obtain ⟨_, hn1, hn2, hn3, hn4, _⟩ := GenerateNodeName_spec g ("Squeeze" ++ toString i)
      obtain ⟨r1, r2, r3, r4, r5, r6⟩ := ih gos (i + 1)
        ((g.GenerateNodeName ("Squeeze" ++ toString i)).1.AddNode
          (((Node.Init (g.GenerateNodeName ("Squeeze" ++ toString i)).2 "Squeeze"
            "Squeeze for Fused Gather nodes" [so] (squeeze_outputs go)).AddAttribute "axes"
            (AttributeProto.ints [split_axis])).SetExecutionProviderType provider))
      have k1 : ∀ sq : Node, ((g.GenerateNodeName ("Squeeze" ++ toString i)).1.AddNode sq).nodes =
          g.nodes ++ [some sq] := by
        intro sq; simp only [Graph.AddNode, hn1]
      have k2 : ∀ sq : Node,
          ((g.GenerateNodeName ("Squeeze" ++ toString i)).1.AddNode sq).node_args =
            g.node_args := by
        intro sq; simp only [Graph.AddNode, hn2]
      have k3 : ∀ sq : Node,
          ((g.GenerateNodeName ("Squeeze" ++ toString i)).1.AddNode sq).initializers =
            g.initializers := by
        intro sq; simp only [Graph.AddNode, hn3]
      have k4 : ∀ sq : Node,
          ((g.GenerateNodeName ("Squeeze" ++ toString i)).1.AddNode sq).domain_to_version =
            g.domain_to_version := by
        intro sq; simp only [Graph.AddNode, hn4]
      rw [k1] at r1 r2 r3
      rw [k3] at r4
      rw [k4] at r5
      rw [k2] at r6
      simp only [List.length_append, List.length_singleton] at r1 r2 r3
      refine ⟨?_, ?_, ?_, r4, r5, r6⟩
      · rw [r1]
        simp only [List.length_cons]
        omega
      · intro j hj
        rw [r2 j (by omega), List.getElem?_append_left hj]
      · intro j split_output gather_output hs hg
        cases j with
        | zero =>
          simp only [List.getElem?_cons_zero, Option.some.injEq] at hs hg
          subst hs
          subst hg
          refine ⟨(g.GenerateNodeName ("Squeeze" ++ toString i)).2, ?_⟩
          rw [Nat.add_zero, r2 _ (by omega)]
          simp [Node.Init, Node.AddAttribute, Node.SetExecutionProviderType,
            squeeze_node_axes_attribute, squeeze_outputs]
        | succ j =>
          simp only [List.getElem?_cons_succ] at hs hg
          obtain ⟨name, hname⟩ := r3 j split_output gather_output hs hg
          refine ⟨name, ?_⟩
          rw [← hname]
          congr 1
          omega

theorem add_squeeze_nodes_axes_input_spec (provider : String) (axes_arg : NodeArg) :
    ∀ (split_outputs : List NodeArg) (gather_outputs : List (Option NodeArg)) (i : Nat)
      (g : Graph),
      (add_squeeze_nodes_axes_input provider axes_arg i split_outputs gather_outputs
          g).nodes.length = g.nodes.length + min split_outputs.length gather_outputs.length ∧
      (∀ j, j < g.nodes.length →
        (add_squeeze_nodes_axes_input provider axes_arg i split_outputs gather_outputs
          g).nodes[j]? = g.nodes[j]?) ∧
      (∀ j split_output gather_output, split_outputs[j]? = some split_output →
        gather_outputs[j]? = some gather_output →
        ∃ name, (add_squeeze_nodes_axes_input provider axes_arg i split_outputs
            gather_outputs g).nodes[g.nodes.length + j]? =
          some (some (squeeze_node_axes_input name provider axes_arg split_output
            gather_output))) ∧
      (add_squeeze_nodes_axes_input provider axes_arg i split_outputs gather_outputs
          g).initializers = g.initializers ∧
      (add_squeeze_nodes_axes_input provider axes_arg i split_outputs gather_outputs
          g).domain_to_version = g.domain_to_version ∧
      (add_squeeze_nodes_axes_input provider axes_arg i split_outputs gather_outputs
          g).node_args = g.node_args := by
  intro split_outputs
  induction split_outputs with
  | nil =>
    intro gather_outputs i g
    simp [add_squeeze_nodes_axes_input]
  | cons so rest ih =>
    intro gather_outputs i g
    cases gather_outputs with
    | nil => simp [add_squeeze_nodes_axes_input]
    | cons go gos =>
      simp only [add_squeeze_nodes_axes_input]
      obtain ⟨_, hn1, hn2, hn3, hn4, _⟩ := GenerateNodeName_spec g ("Squeeze" ++ toString i)
      obtain ⟨r1, r2, r3, r4, r5, r6⟩ := ih gos (i + 1)
        ((g.GenerateNodeName ("Squeeze" ++ toString i)).1.AddNode
          ((Node.Init (g.GenerateNodeName ("Squeeze" ++ toString i)).2 "Squeeze"
            "Squeeze for Fused Gather nodes" [so, axes_arg]
            (squeeze_outputs go)).SetExecutionProviderType provider))
      have k1 : ∀ sq : Node, ((g.GenerateNodeName ("Squeeze" ++ toString i)).1.AddNode sq).nodes =
          g.nodes ++ [some sq] := by
        intro sq; simp only [Graph.AddNode, hn1]
      have k2 : ∀ sq : Node,
          ((g.GenerateNodeName ("Squeeze" ++ toString i)).1.AddNode sq).node_args =
            g.node_args := by
        intro sq; simp only [Graph.AddNode, hn2]
      have k3 : ∀ sq : Node,
          ((g.GenerateNodeName ("Squeeze" ++ toString i)).1.AddNode sq).initializers =
            g.initializers := by
        intro sq; simp only [Graph.AddNode, hn3]
      have k4 : ∀ sq : Node,
          ((g.GenerateNodeName ("Squeeze" ++ toString i)).1.AddNode sq).domain_to_version =
            g.domain_to_version := by
        intro sq; simp only [Graph.AddNode, hn4]
      rw [k1] at r1 r2 r3
      rw [k3] at r4
      rw [k4] at r5
      rw [k2] at r6
      simp only [List.length_append, List.length_singleton] at r1 r2 r3
      refine ⟨?_, ?_, ?_, r4, r5, r6⟩
      · rw [r1]
        simp only [List.length_cons]
        omega
      · intro j hj
        rw [r2 j (by omega), List.getElem?_append_left hj]
      · intro j split_output gather_output hs hg
        cases j with
        | zero =>
          simp only [List.getElem?_cons_zero, Option.some.injEq] at hs hg
          subst hs
          subst hg
          refine ⟨(g.GenerateNodeName ("Squeeze" ++ toString i)).2, ?_⟩
          rw [Nat.add_zero, r2 _ (by omega)]
          simp [Node.Init, Node.SetExecutionProviderType, squeeze_node_axes_input,
            squeeze_outputs]
        | succ j =>
          simp only [List.getElem?_cons_succ] at hs hg
          obtain ⟨name, hname⟩ := r3 j split_output gather_output hs hg
          refine ⟨name, ?_⟩
          rw [← hname]
          congr 1
          omega

/-! ## The removal of the fused nodes -/

theorem Node.detach_detach (n : NodeIndex) (removed : List NodeIndex) (m : Node) :
    Node.detach removed (Node.detach [n] m) = Node.detach (n :: removed) m := by
  simp only [Node.detach, List.filter_filter]
  congr 1
  · apply List.filter_congr
    intro e _
    simp only [List.contains_cons, List.contains_nil, Bool.or_false, Bool.not_or]
    rw [Bool.and_comm]
  · apply List.filter_congr
    intro e _
    simp only [List.contains_cons, List.contains_nil, Bool.or_false, Bool.not_or]
    rw [Bool.and_comm]

theorem remove_one_nodes (g : Graph) (n : NodeIndex) :
    ((graph_utils.RemoveNodeOutputEdges g n).RemoveNode n).nodes =
      g.nodes.mapIdx fun j n? => if j = n then none else n?.map (Node.detach [n]) := by
  apply List.ext_getElem?
  intro j
  simp only [Graph.RemoveNode, graph_utils.RemoveNodeOutputEdges, List.getElem?_mapIdx]
  cases g.nodes[j]? with
  | none => rfl
  | some x =>
    simp only [Option.map_some']
    by_cases hj : j = n
    · simp [hj]
    · simp only [hj, if_false]
      cases x with
      | none => rfl
      | some m =>
        simp only [Option.map_some', Node.detach, List.contains_cons, List.contains_nil,
          Bool.or_false]
        rfl

theorem remove_fused_nodes_spec (removed : List NodeIndex) :
    ∀ g : Graph,
      (remove_fused_nodes removed g).nodes =
        (g.nodes.mapIdx fun j n? => if j ∈ removed then none else n?.map (Node.detach removed)) ∧
      (remove_fused_nodes removed g).node_args = g.node_args ∧
      (remove_fused_nodes removed g).initializers = g.initializers ∧
      (remove_fused_nodes removed g).domain_to_version = g.domain_to_version := by
  induction removed with
  | nil =>
    intro g
    refine ⟨?_, rfl, rfl, rfl⟩
    apply List.ext_getElem?
    intro j
    simp only [remove_fused_nodes, List.getElem?_mapIdx, List.not_mem_nil, if_false]
    cases g.nodes[j]? with
    | none => rfl
    | some x =>
      cases x with
      | none => rfl
      | some m => simp [Node.detach]
  | cons n rest ih =>
    intro g
    obtain ⟨r1, r2, r3, r4⟩ := ih ((graph_utils.RemoveNodeOutputEdges g n).RemoveNode n)
    simp only [remove_fused_nodes]
    refine ⟨?_, r2, r3, r4⟩
    rw [r1, remove_one_nodes]
    apply List.ext_getElem?
    intro j
    simp only [List.getElem?_mapIdx]
    cases g.nodes[j]? with
    | none => rfl
    | some x =>
      simp only [Option.map_some', List.mem_cons]
      by_cases hj : j = n
      · simp [hj]
      · by_cases hr : j ∈ rest
        · simp [hj, hr]
        · simp only [hj, hr, if_false, or_self]
          cases x with
          | none => rfl
          | some m => simp [Node.detach_detach]

/-! ## The rewrite as a whole -/

theorem AddInitializer_axes (g : Graph) (name : String) (split_axis : Int)
    (hfresh : ∀ a ∈ g.node_args, a.name ≠ name) :
    (graph_utils.AddInitializer g (axes_initializer_proto name split_axis)).2 =
        axes_node_arg name ∧
      (graph_utils.AddInitializer g (axes_initializer_proto name split_axis)).1.nodes =
        g.nodes ∧
      (graph_utils.AddInitializer g (axes_initializer_proto name split_axis)).1.initializers =
        g.initializers ++ [axes_initializer_proto name split_axis] ∧
      (graph_utils.AddInitializer g (axes_initializer_proto name split_axis)).1.node_args =
        g.node_args ++ [axes_node_arg name] ∧
      (graph_utils.AddInitializer g
        (axes_initializer_proto name split_axis)).1.domain_to_version = g.domain_to_version := by
  have hnew : ∀ a ∈ ({ g with initializers := g.initializers ++
      [axes_initializer_proto name split_axis] } : Graph).node_args, a.name ≠ name := by
    intro a ha
    exact hfresh a ha
  obtain ⟨c1, c2, c3, c4, c5, _⟩ := GetOrCreateNodeArg_fresh
    ({ g with initializers := g.initializers ++ [axes_initializer_proto name split_axis] } : Graph)
    name (some { elem_type := TensorProto_DataType_INT64
                 shape := some ⟨[Dimension.dim_value 1], by decide⟩ }) hnew
  have hunfold : graph_utils.AddInitializer g (axes_initializer_proto name split_axis) =
      ({ g with initializers := g.initializers ++
        [axes_initializer_proto name split_axis] } : Graph).GetOrCreateNodeArg name
        (some { elem_type := TensorProto_DataType_INT64
                shape := some ⟨[Dimension.dim_value 1], by decide⟩ }) := by
    simp [graph_utils.AddInitializer, axes_initializer_proto]
  rw [hunfold]
  exact ⟨c1, c2, c4, c3, c5⟩

theorem add_squeeze_nodes_spec (g : Graph) (node : Node) (split_outputs : List NodeArg)
    (s : LoopState) :
    (add_squeeze_nodes g node split_outputs s).nodes.length =
        g.nodes.length + min split_outputs.length s.gather_outputs.length ∧
      (∀ j, j < g.nodes.length →
        (add_squeeze_nodes g node split_outputs s).nodes[j]? = g.nodes[j]?) ∧
      (add_squeeze_nodes g node split_outputs s).domain_to_version = g.domain_to_version ∧
      (onnx_opset_version g < 13 →
        (add_squeeze_nodes g node split_outputs s).initializers = g.initializers ∧
        (add_squeeze_nodes g node split_outputs s).node_args = g.node_args ∧
        ∀ j split_output gather_output, split_outputs[j]? = some split_output →
          s.gather_outputs[j]? = some gather_output →
          ∃ name, (add_squeeze_nodes g node split_outputs s).nodes[g.nodes.length + j]? =
            some (some (squeeze_node_axes_attribute name node.execution_provider_type
              s.split_axis split_output gather_output))) ∧
      (13 ≤ onnx_opset_version g →
        ∃ axes_name, axes_name ∉ g.used_names ∧
          (add_squeeze_nodes g node split_outputs s).initializers =
            g.initializers ++ [axes_initializer_proto axes_name s.split_axis] ∧
          (add_squeeze_nodes g node split_outputs s).node_args =
            g.node_args ++ [axes_node_arg axes_name] ∧
          ∀ j split_output gather_output, split_outputs[j]? = some split_output →
            s.gather_outputs[j]? = some gather_output →
            ∃ name, (add_squeeze_nodes g node split_outputs s).nodes[g.nodes.length + j]? =
              some (some (squeeze_node_axes_input name node.execution_provider_type
                (axes_node_arg axes_name) split_output gather_output))) := by
  unfold add_squeeze_nodes
  by_cases hv : onnx_opset_version g < 13
  · simp only [hv, if_true]
    obtain ⟨r1, r2, r3, r4, r5, r6⟩ := add_squeeze_nodes_axes_attribute_spec
      node.execution_provider_type s.split_axis split_outputs s.gather_outputs 0 g
    exact ⟨r1, r2, r5, fun _ => ⟨r4, r6, r3⟩, fun h => absurd hv (by omega)⟩
  · simp only [hv, if_false]
    obtain ⟨hfresh, hn1, hn2, hn3, hn4, hn5⟩ := GenerateNodeName_spec g "SqueezeAxesInitializer"
    have hargs : ∀ a ∈ (g.GenerateNodeName "SqueezeAxesInitializer").1.node_args,
        a.name ≠ (g.GenerateNodeName "SqueezeAxesInitializer").2 := by
      intro a ha heq
      rw [hn2] at ha
      exact hfresh (heq ▸ node_arg_name_mem_used g a ha)
    obtain ⟨a1, a2, a3, a4, a5⟩ := AddInitializer_axes
      (g.GenerateNodeName "SqueezeAxesInitializer").1
      (g.GenerateNodeName "SqueezeAxesInitializer").2 s.split_axis hargs
    obtain ⟨r1, r2, r3, r4, r5, r6⟩ := add_squeeze_nodes_axes_input_spec
      node.execution_provider_type
      (graph_utils.AddInitializer (g.GenerateNodeName "SqueezeAxesInitializer").1
        (axes_initializer_proto (g.GenerateNodeName "SqueezeAxesInitializer").2 s.split_axis)).2
      split_outputs s.gather_outputs 0
      (graph_utils.AddInitializer (g.GenerateNodeName "SqueezeAxesInitializer").1
        (axes_initializer_proto (g.GenerateNodeName "SqueezeAxesInitializer").2 s.split_axis)).1
    rw [a2, hn1] at r1 r2 r3
    rw [a3, hn3] at r4
    rw [a5, hn4] at r5
    rw [a4, hn2] at r6
    refine ⟨r1, r2, r5, fun h => h.elim, fun _ =>
      ⟨(g.GenerateNodeName "SqueezeAxesInitializer").2, hfresh, r4, r6, ?_⟩⟩
    intro j split_output gather_output hs hg
    obtain ⟨name, hname⟩ := r3 j split_output gather_output hs hg
    rw [a1] at hname ⊢
    exact ⟨name, hname⟩

theorem Node.detach_of_no_edges (removed : List NodeIndex) (n : Node)
    (h1 : n.input_edges = []) (h2 : n.output_edges = []) : Node.detach removed n = n := by
  cases n
  simp only [Node.detach] at *
  subst h1
  subst h2
  rfl

theorem onnx_opset_version_congr (g1 g2 : Graph)
    (h : g1.domain_to_version = g2.domain_to_version) :
    onnx_opset_version g1 = onnx_opset_version g2 := by
  simp only [onnx_opset_version, Graph.DomainToVersion, h]

/-- The graph after the rewrite of lines 115-171, slot by slot. -/
theorem rewrite_spec (graph : Graph) (node : Node) (output : NodeArg) (shape : TensorShapeProto)
    (k : Nat) (s : LoopState) (hlen : s.gather_outputs.length = k)
    (hlive : ∀ i ∈ s.nodes_to_fuse, i < graph.nodes.length) :
    ∃ (split_name : String) (split_outputs : List NodeArg),
      split_name ∉ graph.used_names ∧ split_outputs.length = k ∧
      (∀ a ∈ split_outputs, a.type = some (split_output_type output shape s.split_axis) ∧
        a.name ∉ graph.used_names) ∧
      (split_outputs.map fun a => a.name).Nodup ∧
      (GatherToSplitFusion.rewrite graph node output shape k s).nodes.length =
        graph.nodes.length + 1 + k ∧
      (GatherToSplitFusion.rewrite graph node output shape k s).domain_to_version =
        graph.domain_to_version ∧
      (∀ j, j < graph.nodes.length →
        (GatherToSplitFusion.rewrite graph node output shape k s).nodes[j]? =
          (graph.nodes[j]?).map fun n? =>
            if j ∈ s.nodes_to_fuse then none else n?.map (Node.detach s.nodes_to_fuse)) ∧
      (GatherToSplitFusion.rewrite graph node output shape k s).nodes[graph.nodes.length]? =
        some (some (split_node split_name node.execution_provider_type s.split_axis output
          split_outputs)) ∧
      (onnx_opset_version graph < 13 →
        (GatherToSplitFusion.rewrite graph node output shape k s).initializers =
          graph.initializers ∧
        (GatherToSplitFusion.rewrite graph node output shape k s).node_args =
          graph.node_args ++ split_outputs ∧
        ∀ j split_output gather_output, split_outputs[j]? = some split_output →
          s.gather_outputs[j]? = some gather_output →
          ∃ name, (GatherToSplitFusion.rewrite graph node output shape k
              s).nodes[graph.nodes.length + 1 + j]? =
            some (some (squeeze_node_axes_attribute name node.execution_provider_type
              s.split_axis split_output gather_output))) ∧
      (13 ≤ onnx_opset_version graph →
        ∃ axes_name, axes_name ∉ graph.used_names ∧
          (GatherToSplitFusion.rewrite graph node output shape k s).initializers =
            graph.initializers ++ [axes_initializer_proto axes_name s.split_axis] ∧
          (GatherToSplitFusion.rewrite graph node output shape k s).node_args =
            graph.node_args ++ split_outputs ++ [axes_node_arg axes_name] ∧
          ∀ j split_output gather_output, split_outputs[j]? = some split_output →
            s.gather_outputs[j]? = some gather_output →
            ∃ name, (GatherToSplitFusion.rewrite graph node output shape k
                s).nodes[graph.nodes.length + 1 + j]? =
              some (some (squeeze_node_axes_input name node.execution_provider_type
                (axes_node_arg axes_name) split_output gather_output))) := by
  obtain ⟨split_name, p1, p2, p3, p4, p5, p6, p7, p8, p9⟩ :=
    add_split_node_spec graph node output shape k s.split_axis
  obtain ⟨q1, q2, q3, q4, q5⟩ := add_squeeze_nodes_spec
    (add_split_node graph node output shape k s.split_axis).1 node
    (add_split_node graph node output shape k s.split_axis).2 s
  obtain ⟨t1, t2, t3, t4⟩ := remove_fused_nodes_spec s.nodes_to_fuse
    (add_squeeze_nodes (add_split_node graph node output shape k s.split_axis).1 node
      (add_split_node graph node output shape k s.split_axis).2 s)
  have hv := onnx_opset_version_congr _ _ p7
  have hg1len : (add_split_node graph node output shape k s.split_axis).1.nodes.length =
      graph.nodes.length + 1 := by
    rw [p1]; simp
  rw [hg1len, p3, hlen, Nat.min_self] at q1
  rw [hg1len] at q2 q4 q5
  have hnew : ∀ j n, graph.nodes.length ≤ j → n.input_edges = [] → n.output_edges = [] →
      (add_squeeze_nodes (add_split_node graph node output shape k s.split_axis).1 node
        (add_split_node graph node output shape k s.split_axis).2 s).nodes[j]? =
        some (some n) →
      (GatherToSplitFusion.rewrite graph node output shape k s).nodes[j]? = some (some n) := by
    intro j n hj h1 h2 hget
    have hnot : j ∉ s.nodes_to_fuse := fun hm => absurd (hlive j hm) (Nat.not_lt.2 hj)
    simp only [GatherToSplitFusion.rewrite, t1, List.getElem?_mapIdx, hget, Option.map_some',
      hnot, if_false, Node.detach_of_no_edges _ n h1 h2]
  refine ⟨split_name, (add_split_node graph node output shape k s.split_axis).2, p2, p3, p4, p5,
    ?_, ?_, ?_, ?_, ?_, ?_⟩
  · simp only [GatherToSplitFusion.rewrite, t1, List.length_mapIdx, q1]
  · simp only [GatherToSplitFusion.rewrite, t4, q3, p7]
  · intro j hj
    simp only [GatherToSplitFusion.rewrite, t1, List.getElem?_mapIdx]
    rw [q2 j (by omega), p1, List.getElem?_append_left hj]
  · apply hnew _ _ (le_refl _) rfl rfl
    rw [q2 _ (by omega), p1]
    simp
  · intro hlt
    obtain ⟨u1, u2, u3⟩ := q4 (hv ▸ hlt)
    refine ⟨?_, ?_, ?_⟩
    · simp only [GatherToSplitFusion.rewrite, t3, u1, p6]
    · simp only [GatherToSplitFusion.rewrite, t2, u2, p8]
    · intro j so go hs hg
      obtain ⟨name, hname⟩ := u3 j so go hs hg
      exact ⟨name, hnew _ _ (by omega) rfl rfl hname⟩
  · intro hge
    obtain ⟨axes_name, u0, u1, u2, u3⟩ := q5 (hv ▸ hge)
    refine ⟨axes_name, fun hm => u0 (p9 _ hm), ?_, ?_, ?_⟩
    · simp only [GatherToSplitFusion.rewrite, t3, u1, p6]
    · simp only [GatherToSplitFusion.rewrite, t2, u2, p8]
    · intro j so go hs hg
      obtain ⟨name, hname⟩ := u3 j so go hs hg
      exact ⟨name, hnew _ _ (by omega) rfl rfl hname⟩

/-! ## From the premises of a match to the rewritten graph -/

theorem visit_of_fuse (self : GatherToSplitFusion) (graph : Graph) (modified : Bool)
    (node_index : NodeIndex) (node : Node) (output : NodeArg) (shape : TensorShapeProto)
    (k : Nat) (s : LoopState) (hget : graph.GetNode node_index = some node)
    (hrec : (self.Recurse node modified).1 = Status.OK)
    (hm : self.match_node graph node = .fuse output shape k s) :
    self.visit graph modified node_index =
      { exit := none
        graph := GatherToSplitFusion.rewrite graph node output shape k s
        modified := true } := by
  unfold GatherToSplitFusion.visit
  rw [hget]
  simp only []
  rcases hr : self.Recurse node modified with ⟨status, m⟩
  rw [hr] at hrec
  simp only [] at hrec
  subst hrec
  simp only [hm]

theorem TensorShapeProto.dim_of_getElem? (shape : TensorShapeProto) (a : Nat) (d : Dimension)
    (h : shape.dims[a]? = some d) : shape.dim (static_cast_int (a : Int)) = some d := by
  have hlt : a < shape.dims.length := (List.getElem?_eq_some.1 h).1
  have hfit := shape.dim_size_fits
  rw [static_cast_int_of_fits _ (by omega) (by omega)]
  unfold TensorShapeProto.dim
  simp [h]

/-- The premises of a match, stated on the output edges of the node, make
lines 62-113 end in a match. -/
theorem match_node_fuse_complete (self : GatherToSplitFusion) (graph : Graph) (node : Node)
    (output : NodeArg) (shape : TensorShapeProto) (a : Nat)
    (hop : node.op_type ≠ "Shape") (hout : node.output_defs = [output])
    (hshape : output.Shape = some shape) (hk : 2 ≤ node.output_edges.length)
    (hcons : ∀ edge ∈ node.output_edges, ∃ c index axis out,
      graph.GetNode edge.node_index = some c ∧
      self.IsSupportedGather graph c = .supported index axis ∧
      normalize_axis axis shape.dim_size = (a : Int) ∧
      0 ≤ normalize_index index node.output_edges.length ∧
      normalize_index index node.output_edges.length < (node.output_edges.length : Int) ∧
      c.output_defs[0]? = some out)
    (hdistinct :
      (node.output_edges.map (self.normalized_index_at graph node.output_edges.length)).Nodup)
    (hdim : shape.dims[a]? = some (Dimension.dim_value (node.output_edges.length : Int))) :
    ∃ s, self.match_node graph node = .fuse output shape node.output_edges.length s := by
  obtain ⟨s, hs⟩ := consumer_loop_complete shape shape.dim_size node.output_edges.length (a : Int)
    (self.OutputNodes graph node) (LoopState.init node.output_edges.length)
    (LoopState.init_length _)
    (by
      intro x hx
      unfold GatherToSplitFusion.OutputNodes at hx
      obtain ⟨edge, he, rfl⟩ := List.mem_map.1 hx
      obtain ⟨c, index, axis, out, hg, hsup, hax, h0, h1, ho⟩ := hcons edge he
      refine ⟨{ supported := some (index, axis), node_index := edge.node_index,
                output := c.output_defs[0]? },
        normalize_index index node.output_edges.length, out,
        by simp [GatherToSplitFusion.consumer_edge, hg, hsup], ?_, ?_, ho, h0, h1,
        slot_taken_replicate _ _⟩
      · simp [ConsumerEdge.index]
      · simp [ConsumerEdge.axis, hax])
    (by rw [OutputNodes_index]; exact hdistinct)
    (fun _ => TensorShapeProto.dim_of_getElem? shape a _ hdim)
    (by intro h; simp [LoopState.init] at h)
  refine ⟨s, ?_⟩
  rw [match_node_fuse_iff]
  refine ⟨hop, by rw [hout]; simp, by omega, by rw [hout]; simp, hshape, rfl, hs⟩

theorem GetNode_of_getElem? (g : Graph) (j : Nat) (n : Node) (h : g.nodes[j]? = some (some n)) :
    g.GetNode j = some n := by
  unfold Graph.GetNode
  rw [h]

theorem GetNode_lt (g : Graph) (j : Nat) (n : Node) (h : g.GetNode j = some n) :
    j < g.nodes.length ∧ g.nodes[j]? = some (some n) := by
  unfold Graph.GetNode at h
  split at h
  · rename_i m hm
    simp only [Option.some.injEq] at h
    subst h
    exact ⟨(List.getElem?_eq_some.1 hm).1, hm⟩
  · cases h

theorem squeeze_node_axes_attribute_fields (name provider : String) (split_axis : Int)
    (split_output : NodeArg) (gather_output : Option NodeArg) :
    (squeeze_node_axes_attribute name provider split_axis split_output gather_output).op_type =
        "Squeeze" ∧
      (squeeze_node_axes_attribute name provider split_axis split_output
        gather_output).input_defs[0]? = some split_output ∧
      (squeeze_node_axes_attribute name provider split_axis split_output
        gather_output).output_defs = gather_output.toList :=
  ⟨rfl, rfl, rfl⟩

theorem squeeze_node_axes_input_fields (name provider : String) (axes_arg : NodeArg)
    (split_output : NodeArg) (gather_output : Option NodeArg) :
    (squeeze_node_axes_input name provider axes_arg split_output gather_output).op_type =
        "Squeeze" ∧
      (squeeze_node_axes_input name provider axes_arg split_output
        gather_output).input_defs[0]? = some split_output ∧
      (squeeze_node_axes_input name provider axes_arg split_output
        gather_output).output_defs = gather_output.toList :=
  ⟨rfl, rfl, rfl⟩

/-- The Squeeze node at slot `j` of a rewritten graph, whatever the opset. -/
theorem rewrite_squeeze_node (graph : Graph) (node : Node) (output : NodeArg)
    (shape : TensorShapeProto) (k : Nat) (s : LoopState)
    (h12 : onnx_opset_version graph < 13 →
      ∀ j split_output gather_output, (split_outputs : List NodeArg)[j]? = some split_output →
        s.gather_outputs[j]? = some gather_output →
        ∃ name, (GatherToSplitFusion.rewrite graph node output shape k
            s).nodes[graph.nodes.length + 1 + j]? =
          some (some (squeeze_node_axes_attribute name node.execution_provider_type
            s.split_axis split_output gather_output)))
    (h13 : 13 ≤ onnx_opset_version graph →
      ∃ axes_name : String,
        ∀ j split_output gather_output, split_outputs[j]? = some split_output →
          s.gather_outputs[j]? = some gather_output →
          ∃ name, (GatherToSplitFusion.rewrite graph node output shape k
              s).nodes[graph.nodes.length + 1 + j]? =
            some (some (squeeze_node_axes_input name node.execution_provider_type
              (axes_node_arg axes_name) split_output gather_output)))
    (j : Nat) (split_output : NodeArg) (gather_output : Option NodeArg)
    (hs : split_outputs[j]? = some split_output)
    (hg : s.gather_outputs[j]? = some gather_output) :
    ∃ sq, (GatherToSplitFusion.rewrite graph node output shape k s).GetNode
        (graph.nodes.length + 1 + j) = some sq ∧
      sq.op_type = "Squeeze" ∧ sq.input_defs[0]? = some split_output ∧
      sq.output_defs = gather_output.toList := by
  by_cases hv : onnx_opset_version graph < 13
  · obtain ⟨name, hname⟩ := h12 hv j split_output gather_output hs hg
    exact ⟨_, GetNode_of_getElem? _ _ _ hname,
      squeeze_node_axes_attribute_fields name _ _ _ _⟩
  · obtain ⟨axes_name, h⟩ := h13 (by omega)
    obtain ⟨name, hname⟩ := h j split_output gather_output hs hg
    exact ⟨_, GetNode_of_getElem? _ _ _ hname, squeeze_node_axes_input_fields name _ _ _ _⟩

/-! ## The type of the Split outputs -/

theorem split_output_type_spec (output : NodeArg) (shape : TensorShapeProto) (split_axis : Int)
    (hshape : output.Shape = some shape) :
    ∃ t0 sh, output.type = some t0 ∧
      split_output_type output shape split_axis =
        { elem_type := t0.elem_type, shape := some sh } ∧
      sh.dims.length = shape.dims.length ∧
      (∀ (i : Nat) (d : Dimension), shape.dims[i]? = some d →
        sh.dims[i]? = some (if (i : Int) = split_axis then Dimension.dim_value 1 else d)) ∧
      (∀ an : Nat, split_axis = (an : Int) → an < shape.dims.length →
        sh.dims = shape.dims.take an ++ [Dimension.dim_value 1] ++ shape.dims.drop (an + 1)) := by
  unfold NodeArg.Shape at hshape
  cases ht : output.type with
  | none => rw [ht] at hshape; cases hshape
  | some t0 =>
    have hpoint : ∀ (i : Nat) (d : Dimension), shape.dims[i]? = some d →
        (shape.dims.mapIdx fun i d =>
          if (i : Int) = split_axis then Dimension.dim_value 1 else d)[i]? =
          some (if (i : Int) = split_axis then Dimension.dim_value 1 else d) := by
      intro i d hd
      rw [List.getElem?_mapIdx, hd]
      rfl
    refine ⟨t0, ⟨shape.dims.mapIdx fun i d =>
        if (i : Int) = split_axis then Dimension.dim_value 1 else d,
      by simpa using shape.dim_size_fits⟩, rfl, ?_, by simp, hpoint, ?_⟩
    · simp only [split_output_type, ht]
    · intro an ha hlt
      subst ha
      apply List.ext_getElem?
      intro i
      simp only [List.getElem?_mapIdx]
      by_cases h1 : i < an
      · have hi : i < shape.dims.length := by omega
        rw [List.append_assoc, List.getElem?_append_left (by simp; omega),
          List.getElem?_take_of_lt h1, List.getElem?_eq_getElem hi]
        have : ¬ ((i : Int) = (an : Int)) := by omega
        simp [this]
      · by_cases h2 : i = an
        · subst h2
          rw [List.append_assoc, List.getElem?_append_right (by simp),
            List.getElem?_eq_getElem hlt]
          simp [List.length_take, Nat.min_eq_left (Nat.le_of_lt hlt)]
        · have h3 : an < i := by omega
          rw [List.getElem?_append_right (by simp; omega)]
          simp only [List.length_append, List.length_take, List.length_singleton,
            Nat.min_eq_left (Nat.le_of_lt hlt), List.getElem?_drop]
          have e1 : an + 1 + (i - (an + 1)) = i := by omega
          rw [e1]
          cases hd : shape.dims[i]? with
          | none => rfl
          | some d =>
            have : ¬ ((i : Int) = (an : Int)) := by omega
            simp [this]

theorem match_node_fuse_live (self : GatherToSplitFusion) (graph : Graph) (node : Node)
    (output : NodeArg) (shape : TensorShapeProto) (k : Nat) (s : LoopState)
    (hm : self.match_node graph node = .fuse output shape k s) :
    s.gather_outputs.length = k ∧ ∀ i ∈ s.nodes_to_fuse, i < graph.nodes.length := by
  obtain ⟨_, _, _, _, _, hedges, _, _, hfuse, hlen, _⟩ :=
    match_node_fuse_sound self graph node output shape k s hm
  refine ⟨hlen, ?_⟩
  intro i hi
  rw [hfuse] at hi
  obtain ⟨edge, he, rfl⟩ := List.mem_map.1 hi
  obtain ⟨c, _, _, _, hg, _⟩ := hedges edge he
  exact (GetNode_lt graph _ c hg).1

/-! ## The opset of the graph -/

theorem onnx_opset_version_lt_iff (graph : Graph) :
    onnx_opset_version graph < 13 ↔
      ∀ v, graph.DomainToVersion kOnnxDomain = some v → v < 13 := by
  unfold onnx_opset_version
  cases graph.DomainToVersion kOnnxDomain with
  | none => simp
  | some v => simp

theorem find_initializer_append (initializers : List TensorProto) (t : TensorProto)
    (h : ∀ u ∈ initializers, u.name ≠ t.name) :
    (initializers ++ [t]).find? (fun u => u.name == t.name) = some t := by
  induction initializers with
  | nil => simp
  | cons u rest ih =>
    have hu : (u.name == t.name) = false := by
      simpa using h u (List.mem_cons_self _ _)
    rw [List.cons_append, List.find?_cons, hu]
    exact ih fun v hv => h v (List.mem_cons_of_mem _ hv)

theorem initializer_name_mem_used (g : Graph) (t : TensorProto) (h : t ∈ g.initializers) :
    t.name ∈ g.used_names := by
  simp only [Graph.used_names, List.mem_append, List.mem_map]
  exact Or.inl (Or.inl (Or.inr ⟨t, h, rfl⟩))

/-! ## The node loop -/

theorem visit_cases (self : GatherToSplitFusion) (graph : Graph) (modified : Bool)
    (node_index : NodeIndex)
    (hrec : ∀ node m, self.Recurse node m = (Status.OK, m)) :
    (self.fuses_at graph modified node_index = true ∧
        (self.visit graph modified node_index).exit = none ∧
        (self.visit graph modified node_index).modified = true) ∨
      (self.fuses_at graph modified node_index = false ∧
        (self.visit graph modified node_index).graph = graph ∧
        (self.visit graph modified node_index).modified = modified ∧
        ((self.visit graph modified node_index).exit = none ∨
          ((self.visit graph modified node_index).exit = some Exit.undefined ∧
            ∃ node, graph.GetNode node_index = some node ∧
              self.match_node graph node = .undefined))) := by
  unfold GatherToSplitFusion.fuses_at GatherToSplitFusion.visit
  cases hg : graph.GetNode node_index with
  | none => simp
  | some node =>
    simp only [hrec node modified]
    cases hm : self.match_node graph node with
    | skip => simp
    | undefined => simp [hm]
    | fuse output shape k s => simp

theorem Example.graph_B4H_no_match (node_index : NodeIndex)
    (hmem : node_index ∈ [0, 1, 2, 3]) (node : Node)
    (hg : Example.graph_B4H.GetNode node_index = some node) :
    Example.pass.match_node Example.graph_B4H node = .skip := by
  simp only [List.mem_cons, List.mem_singleton, List.not_mem_nil, or_false] at hmem
  rcases hmem with rfl | rfl | rfl | rfl
  · have h0 : Example.graph_B4H.GetNode 0 =
        some (Example.producer "Relu" Example.shape_B4H 3) := by decide
    rw [h0, Option.some.injEq] at hg
    subst hg
    decide
  · have h0 : Example.graph_B4H.GetNode 1 =
        some (Example.gather TensorProto_DataType_INT64 Example.shape_B4H 0 1) := by decide
    rw [h0, Option.some.injEq] at hg
    subst hg
    decide
  · have h0 : Example.graph_B4H.GetNode 2 =
        some (Example.gather TensorProto_DataType_INT64 Example.shape_B4H 1 1) := by decide
    rw [h0, Option.some.injEq] at hg
    subst hg
    decide
  · have h0 : Example.graph_B4H.GetNode 3 =
        some (Example.gather TensorProto_DataType_INT64 Example.shape_B4H 2 1) := by decide
    rw [h0, Option.some.injEq] at hg
    subst hg
    decide

theorem ApplyLoop_cons_of_exit_none (self : GatherToSplitFusion) (n : NodeIndex)
    (rest : List NodeIndex) (g : Graph) (m : Bool) (h : (self.visit g m n).exit = none) :
    self.ApplyLoop (n :: rest) g m =
      self.ApplyLoop rest (self.visit g m n).graph (self.visit g m n).modified := by
  rw [GatherToSplitFusion.ApplyLoop]
  simp only [h]

/-- The node loop over a list goes on, after the first entries, from the graph
and the flag it has reached. -/
theorem ApplyLoop_of_reach (self : GatherToSplitFusion) (pre rest : List NodeIndex) :
    ∀ (g : Graph) (m : Bool) (g1 : Graph) (m1 : Bool),
      self.reach pre g m = some (g1, m1) →
      self.ApplyLoop (pre ++ rest) g m = self.ApplyLoop rest g1 m1 := by
  induction pre with
  | nil =>
    intro g m g1 m1 h
    simp only [GatherToSplitFusion.reach, Option.some.injEq, Prod.mk.injEq] at h
    rw [List.nil_append, h.1, h.2]
  | cons n pre ih =>
    intro g m g1 m1 h
    unfold GatherToSplitFusion.reach at h
    rw [List.cons_append]
    cases hx : (self.visit g m n).exit with
    | none =>
      rw [hx] at h
      rw [ApplyLoop_cons_of_exit_none self n _ g m hx]
      exact ih _ _ g1 m1 h
    | some x =>
      rw [hx] at h
      cases h

/-! ## C1: the successful rewrite -/

/-- The iteration of the node loop at a node that shows the pattern. Let `N`
be a node of the graph that is not a "Shape", with exactly one output tensor
`output` of static shape `shape`, and `k >= 2` output edges. Suppose every
consumer is a supported Gather with an output, all with the same normalized
axis `a`, that the normalized indices are pairwise distinct elements of
`[0, k)`, and that dimension `a` of `shape` is the concrete value `k` (and
that the recursion into `N` reports no error). Then the iteration for `N`
goes on to the next node with `modified = true`, and in the graph it leaves:
`1 + k` nodes have been appended, one Split node and `k` Squeeze nodes, and
every consumer has been removed. -/
theorem visit_successful_rewrite (self : GatherToSplitFusion) (graph : Graph) (modified : Bool)
    (node_index : NodeIndex) (node : Node) (output : NodeArg) (shape : TensorShapeProto)
    (a : Nat) (hget : graph.GetNode node_index = some node)
    (hrec : (self.Recurse node modified).1 = Status.OK)
    (hop : node.op_type ≠ "Shape") (hout : node.output_defs = [output])
    (hshape : output.Shape = some shape) (hk : 2 ≤ node.output_edges.length)
    (hcons : ∀ edge ∈ node.output_edges, ∃ c index axis out,
      graph.GetNode edge.node_index = some c ∧
      self.IsSupportedGather graph c = .supported index axis ∧
      normalize_axis axis shape.dim_size = (a : Int) ∧
      0 ≤ normalize_index index node.output_edges.length ∧
      normalize_index index node.output_edges.length < (node.output_edges.length : Int) ∧
      c.output_defs[0]? = some out)
    (hdistinct :
      (node.output_edges.map (self.normalized_index_at graph node.output_edges.length)).Nodup)
    (hdim : shape.dims[a]? = some (Dimension.dim_value (node.output_edges.length : Int))) :
    ∃ (split_name : String) (split_outputs : List NodeArg),
      (self.visit graph modified node_index).exit = none ∧
      (self.visit graph modified node_index).modified = true ∧
      split_outputs.length = node.output_edges.length ∧
      (∀ o ∈ split_outputs, o.name ∉ graph.used_names) ∧
      (split_outputs.map fun o => o.name).Nodup ∧
      (self.visit graph modified node_index).graph.nodes.length =
        graph.nodes.length + 1 + node.output_edges.length ∧
      (self.visit graph modified node_index).graph.GetNode graph.nodes.length =
        some (split_node split_name node.execution_provider_type (a : Int) output
          split_outputs) ∧
      (∀ i, i < node.output_edges.length →
        ∃ sq, (self.visit graph modified node_index).graph.GetNode
            (graph.nodes.length + 1 + i) = some sq ∧
          sq.op_type = "Squeeze" ∧ sq.input_defs[0]? = split_outputs[i]?) ∧
      (∀ edge ∈ node.output_edges, ∀ c index axis out,
        graph.GetNode edge.node_index = some c →
        self.IsSupportedGather graph c = .supported index axis →
        c.output_defs[0]? = some out →
        ∃ sq, (self.visit graph modified node_index).graph.GetNode
            (graph.nodes.length + 1 +
              (normalize_index index node.output_edges.length).toNat) = some sq ∧
          sq.op_type = "Squeeze" ∧
          sq.input_defs[0]? =
            split_outputs[(normalize_index index node.output_edges.length).toNat]? ∧
          sq.output_defs = [out]) ∧
      (∀ edge ∈ node.output_edges,
        (self.visit graph modified node_index).graph.GetNode edge.node_index = none) ∧
      (∀ j, j < graph.nodes.length → (∀ edge ∈ node.output_edges, edge.node_index ≠ j) →
        (self.visit graph modified node_index).graph.GetNode j =
          (graph.GetNode j).map
            (Node.detach (node.output_edges.map fun edge => edge.node_index))) := by
  obtain ⟨s, hm⟩ := match_node_fuse_complete self graph node output shape a hop hout hshape hk
    hcons hdistinct hdim
  obtain ⟨_, _, _, _, _, hedges, _, _, hfuse, hlen, _⟩ :=
    match_node_fuse_sound self graph node output shape _ s hm
  have haxis : s.split_axis = (a : Int) := by
    obtain ⟨edge, he⟩ := List.exists_mem_of_length_pos (show 0 < node.output_edges.length by omega)
    obtain ⟨c, index, axis, out, hg, hsup, hax, _⟩ := hedges edge he
    obtain ⟨c1, index1, axis1, out1, hg1, hsup1, hax1, _⟩ := hcons edge he
    rw [hg, Option.some.injEq] at hg1
    subst hg1
    rw [hsup, GatherSupport.supported.injEq] at hsup1
    obtain ⟨_, rfl⟩ := hsup1
    rw [← hax, hax1]
  have hlive : ∀ i ∈ s.nodes_to_fuse, i < graph.nodes.length := by
    intro i hi
    rw [hfuse] at hi
    obtain ⟨edge, he, rfl⟩ := List.mem_map.1 hi
    obtain ⟨c, _, _, _, hg, _⟩ := hcons edge he
    exact (GetNode_lt graph _ c hg).1
  obtain ⟨split_name, split_outputs, w1, w2, w3, w4, w5, _, w7, w8, w9, w10⟩ :=
    rewrite_spec graph node output shape _ s hlen hlive
  have hsq := rewrite_squeeze_node graph node output shape _ s (fun h => (w9 h).2.2)
    (fun h => by
      obtain ⟨axes_name, _, _, _, h4⟩ := w10 h
      exact ⟨axes_name, h4⟩)
  rw [visit_of_fuse self graph modified node_index node output shape _ s hget hrec hm]
  simp only []
  rw [haxis] at w8
  refine ⟨split_name, split_outputs, trivial, trivial, w2, fun o ho => (w3 o ho).2, w4, w5,
    GetNode_of_getElem? _ _ _ w8, ?_, ?_, ?_, ?_⟩
  · intro i hi
    have hso : i < split_outputs.length := by omega
    have hgo : i < s.gather_outputs.length := by omega
    obtain ⟨sq, h1, h2, h3, _⟩ := hsq i split_outputs[i] s.gather_outputs[i]
      (List.getElem?_eq_getElem hso) (List.getElem?_eq_getElem hgo)
    exact ⟨sq, h1, h2, by rw [h3, List.getElem?_eq_getElem hso]⟩
  · intro edge he c index axis out hg hsup ho
    obtain ⟨c1, index1, axis1, out1, hg1, hsup1, _, h0, h1, ho1, hslot⟩ := hedges edge he
    rw [hg, Option.some.injEq] at hg1
    subst hg1
    rw [hsup, GatherSupport.supported.injEq] at hsup1
    obtain ⟨rfl, rfl⟩ := hsup1
    rw [ho, Option.some.injEq] at ho1
    subst ho1
    have hso : (normalize_index index node.output_edges.length).toNat < split_outputs.length := by
      omega
    obtain ⟨sq, q1, q2, q3, q4⟩ := hsq _ split_outputs[(normalize_index index
      node.output_edges.length).toNat] (some out) (List.getElem?_eq_getElem hso) hslot
    exact ⟨sq, q1, q2, by rw [q3, List.getElem?_eq_getElem hso], by rw [q4]; rfl⟩
  · intro edge he
    obtain ⟨c, _, _, _, hg, _⟩ := hcons edge he
    obtain ⟨hlt, hn⟩ := GetNode_lt graph _ c hg
    have hmem : edge.node_index ∈ s.nodes_to_fuse := by
      rw [hfuse]; exact List.mem_map.2 ⟨edge, he, rfl⟩
    unfold Graph.GetNode
    rw [w7 _ hlt, hn]
    simp [hmem]
  · intro j hj hne
    have hnot : j ∉ s.nodes_to_fuse := by
      rw [hfuse]
      intro hmem
      obtain ⟨edge, he, rfl⟩ := List.mem_map.1 hmem
      exact hne edge he rfl
    unfold Graph.GetNode
    rw [w7 j hj, ← hfuse]
    cases hx : graph.nodes[j]? with
    | none => rfl
    | some x =>
      cases x with
      | none => simp [hnot]
      | some n => simp [hnot]

/-- C1 does not hold of every graph that contains such a node. In the nested
graph `M -> {G0, G1}`, `G0 -> {H0, H1}` the node `G0` shows the pattern (one
output `y0` of shape `[B, 2]`, two consumers that are supported Gathers on
axis 1 with the indices 0 and 1), yet the pass, which returns OK, performs one
fusion only, at `M`: that fusion removes `G0`, the iteration for `G0` is
skipped, `H0` stays a Gather, and the one Split node of the graph reads `x`,
not the output `y0` of `G0`. -/
theorem C1_nested_consumer_not_rewritten :
    Example.graph_nested.GetNode 1 = some Example.nested_G0 ∧
      Example.pass.match_node Example.graph_nested Example.nested_G0 =
        Match.fuse Example.y0_B2 Example.shape_B2 2
          { first_edge := false
            split_axis := 1
            gather_outputs :=
              [some { name := "z0", type := Example.float_tensor Example.shape_B1 },
                some { name := "z1", type := Example.float_tensor Example.shape_B1 }]
            nodes_to_fuse := [3, 4] } ∧
      (Example.pass.ApplyImpl Example.graph_nested false [0, 1, 2, 3, 4]).exit =
        Exit.returned Status.OK ∧
      Example.pass.fusions [0, 1, 2, 3, 4] Example.graph_nested false = [0] ∧
      (Example.pass.ApplyImpl Example.graph_nested false [0, 1, 2, 3, 4]).graph.GetNode 1 =
        none ∧
      ((Example.pass.ApplyImpl Example.graph_nested false [0, 1, 2, 3, 4]).graph.GetNode 3).map
        (fun n => n.op_type) = some "Gather" ∧
      ((Example.pass.ApplyImpl Example.graph_nested false [0, 1, 2, 3, 4]).graph.nodes.filterMap
        fun n => n.bind fun n => if n.op_type = "Split" then some n.input_defs else none) =
        [[Example.x Example.shape_B22]] := by
  decide

/-- C1, amended: let the node loop of `ApplyImpl`, called on `graph0`, reach
the entry `node_index` of `node_topology_list` with the graph `graph` and the
flag `modified`, and let `N`, the node at `node_index`, be in `graph` then (no
earlier fusion of the pass has removed it). Let `N` be not a "Shape", with
exactly one output tensor `output` of static shape `shape`, and `k >= 2`
output edges. Suppose, in `graph`, every consumer is a supported Gather with
an output, all with the same normalized axis `a`, that the normalized indices
are pairwise distinct elements of `[0, k)`, and that dimension `a` of `shape`
is the concrete value `k` (and that the recursion into `N` reports no error).
Then the iteration for `N` goes on to the next node with `modified = true`,
the pass continues with the remaining entries from the graph this iteration
leaves, and in that graph: (1) `1 + k` nodes have been appended; the first is
one Split node whose only input is `output` and whose `k` outputs carry
pairwise different names that occur nowhere in the graph before; (2) the `k`
others are Squeeze nodes, the `i`-th consuming Split output `i`, and the
Squeeze node at the normalized index of a consumer produces the very NodeArg
that this consumer produced; (3) every consumer has been removed, and every
other node is still there, unchanged but for its edges from and to the
removed nodes. -/
theorem successful_rewrite (self : GatherToSplitFusion) (graph0 : Graph) (modified0 : Bool)
    (pre post : List NodeIndex) (graph : Graph) (modified : Bool)
    (node_index : NodeIndex) (node : Node) (output : NodeArg) (shape : TensorShapeProto)
    (a : Nat) (hreach : self.reach pre graph0 modified0 = some (graph, modified))
    (hget : graph.GetNode node_index = some node)
    (hrec : (self.Recurse node modified).1 = Status.OK)
    (hop : node.op_type ≠ "Shape") (hout : node.output_defs = [output])
    (hshape : output.Shape = some shape) (hk : 2 ≤ node.output_edges.length)
    (hcons : ∀ edge ∈ node.output_edges, ∃ c index axis out,
      graph.GetNode edge.node_index = some c ∧
      self.IsSupportedGather graph c = .supported index axis ∧
      normalize_axis axis shape.dim_size = (a : Int) ∧
      0 ≤ normalize_index index node.output_edges.length ∧
      normalize_index index node.output_edges.length < (node.output_edges.length : Int) ∧
      c.output_defs[0]? = some out)
    (hdistinct :
      (node.output_edges.map (self.normalized_index_at graph node.output_edges.length)).Nodup)
    (hdim : shape.dims[a]? = some (Dimension.dim_value (node.output_edges.length : Int))) :
    self.ApplyImpl graph0 modified0 (pre ++ node_index :: post) =
      self.ApplyLoop post (self.visit graph modified node_index).graph true ∧
    ∃ (split_name : String) (split_outputs : List NodeArg),
      (self.visit graph modified node_index).exit = none ∧
      (self.visit graph modified node_index).modified = true ∧
      split_outputs.length = node.output_edges.length ∧
      (∀ o ∈ split_outputs, o.name ∉ graph.used_names) ∧
      (split_outputs.map fun o => o.name).Nodup ∧
      (self.visit graph modified node_index).graph.nodes.length =
        graph.nodes.length + 1 + node.output_edges.length ∧
      (self.visit graph modified node_index).graph.GetNode graph.nodes.length =
        some (split_node split_name node.execution_provider_type (a : Int) output
          split_outputs) ∧
      (∀ i, i < node.output_edges.length →
        ∃ sq, (self.visit graph modified node_index).graph.GetNode
            (graph.nodes.length + 1 + i) = some sq ∧
          sq.op_type = "Squeeze" ∧ sq.input_defs[0]? = split_outputs[i]?) ∧
      (∀ edge ∈ node.output_edges, ∀ c index axis out,
        graph.GetNode edge.node_index = some c →
        self.IsSupportedGather graph c = .supported index axis →
        c.output_defs[0]? = some out →
        ∃ sq, (self.visit graph modified node_index).graph.GetNode
            (graph.nodes.length + 1 +
              (normalize_index index node.output_edges.length).toNat) = some sq ∧
          sq.op_type = "Squeeze" ∧
          sq.input_defs[0]? =
            split_outputs[(normalize_index index node.output_edges.length).toNat]? ∧
          sq.output_defs = [out]) ∧
      (∀ edge ∈ node.output_edges,
        (self.visit graph modified node_index).graph.GetNode edge.node_index = none) ∧
      (∀ j, j < graph.nodes.length → (∀ edge ∈ node.output_edges, edge.node_index ≠ j) →
        (self.visit graph modified node_index).graph.GetNode j =
          (graph.GetNode j).map
            (Node.detach (node.output_edges.map fun edge => edge.node_index))) := by
  have hv := visit_successful_rewrite self graph modified node_index node output shape a hget
    hrec hop hout hshape hk hcons hdistinct hdim
  refine ⟨?_, hv⟩
  obtain ⟨_, _, hexit, hmod, _⟩ := hv
  unfold GatherToSplitFusion.ApplyImpl
  rw [ApplyLoop_of_reach self pre (node_index :: post) graph0 modified0 graph modified hreach]
  rw [ApplyLoop_cons_of_exit_none self node_index post graph modified hexit, hmod]

/-- Witness of C1: the graph `N -> {G0, G1, G2}` with indices 0, 1, 2 on axis
1 of `[B, 3, H]` meets the premises at `N`, the first node of the topological
order; the iteration for `N` sets `modified`, leaves 8 node slots (4 old, 1
Split, 3 Squeeze) and removes the consumers, and the pass goes on from there
with the entries 1, 2, 3. -/
theorem successful_rewrite_witness :
    Example.pass.ApplyImpl (Example.graph_B3H 12) false ([] ++ 0 :: [1, 2, 3]) =
        Example.pass.ApplyLoop [1, 2, 3]
          (Example.pass.visit (Example.graph_B3H 12) false 0).graph true ∧
      (Example.pass.visit (Example.graph_B3H 12) false 0).modified = true ∧
      (Example.pass.visit (Example.graph_B3H 12) false 0).graph.nodes.length =
        (Example.graph_B3H 12).nodes.length + 1 +
          (Example.producer "Relu" Example.shape_B3H 3).output_edges.length ∧
      ∀ edge ∈ (Example.producer "Relu" Example.shape_B3H 3).output_edges,
        (Example.pass.visit (Example.graph_B3H 12) false 0).graph.GetNode edge.node_index =
          none :=
  match successful_rewrite Example.pass (Example.graph_B3H 12) false [] [1, 2, 3]
      (Example.graph_B3H 12) false 0
      (Example.producer "Relu" Example.shape_B3H 3) (Example.x Example.shape_B3H)
      Example.shape_B3H 1 rfl (by decide) (by decide) (by decide) (by decide) (by decide)
      (by decide)
      (by
        intro edge he
        have he1 : edge ∈ [(⟨1, 0, 0⟩ : EdgeEnd), ⟨2, 0, 0⟩, ⟨3, 0, 0⟩] := he
        simp only [List.mem_cons, List.mem_singleton, List.not_mem_nil, or_false] at he1
        rcases he1 with rfl | rfl | rfl
        · exact ⟨Example.gather TensorProto_DataType_INT64 Example.shape_B3H 0 1, 0, 1,
            Example.y 0, by decide, by decide, by decide, by decide, by decide, by decide⟩
        · exact ⟨Example.gather TensorProto_DataType_INT64 Example.shape_B3H 1 1, 1, 1,
            Example.y 1, by decide, by decide, by decide, by decide, by decide, by decide⟩
        · exact ⟨Example.gather TensorProto_DataType_INT64 Example.shape_B3H 2 1, 2, 1,
            Example.y 2, by decide, by decide, by decide, by decide, by decide, by decide⟩)
      (by decide) (by decide) with
  | ⟨h0, _, _, _, h2, _, _, _, h6, _, _, _, h10, _⟩ => ⟨h0, h2, h6, h10⟩

/-! ## C7: `IsSupportedGather` -/

/-- C7, as stated, fails: a Gather of the ONNX domain and opset 13, on a
compatible provider, whose second input is a constant scalar INT32 tensor, is
a candidate in the words of the claim ("scalar integer tensor"), and
`IsSupportedGather` returns false for it. -/
theorem C7_int32_index_rejected :
    candidate_as_specified Example.pass
        (Example.fan_out_graph 13 "Relu" TensorProto_DataType_INT32 Example.shape_B3H [(0, 1)])
        (Example.gather TensorProto_DataType_INT32 Example.shape_B3H 0 1) = true ∧
      Example.pass.IsSupportedGather
        (Example.fan_out_graph 13 "Relu" TensorProto_DataType_INT32 Example.shape_B3H [(0, 1)])
        (Example.gather TensorProto_DataType_INT32 Example.shape_B3H 0 1) =
        GatherSupport.unsupported := by
  decide

/-- C7, amended: `IsSupportedGather` returns true with the outputs `index` and
`axis` exactly when the node is an ONNX-domain Gather of opset 1, 11 or 13, is
assigned to one of the compatible execution providers, its second input is a
scalar whose name is a constant initializer of element type INT64, `index` is
the value stored in that tensor, and `axis` is the integer attribute "axis" of
the node when it has one and 0 otherwise. -/
theorem IsSupportedGather_eq_some_iff (self : GatherToSplitFusion) (graph : Graph) (node : Node)
    (index axis : Int) :
    self.IsSupportedGather graph node = .supported index axis ↔
      (node.op_type = "Gather" ∧ node.domain = kOnnxDomain ∧
        (node.since_version = 1 ∨ node.since_version = 11 ∨ node.since_version = 13)) ∧
      node.execution_provider_type ∈ self.compatible_execution_providers ∧
      ∃ input_arg tensor_proto,
        node.input_defs[1]? = some input_arg ∧
        (∃ shape, input_arg.Shape = some shape ∧ shape.dims = []) ∧
        graph.initializers.find? (fun t => t.name == input_arg.name) = some tensor_proto ∧
        tensor_proto.data_type = TensorProto_DataType_INT64 ∧
        index = tensor_proto.int64_data.headD 0 ∧
        axis = (match node.GetAttribute "axis" with
          | some (AttributeProto.i v) => v
          | _ => 0) := by
  have hattr : (match node.GetAttribute "axis" with
      | none => 0
      | some axis_attr => if utils.HasInt axis_attr = true then axis_attr.get_i else 0) =
      (match node.GetAttribute "axis" with
        | some (AttributeProto.i v) => v
        | _ => 0) := by
    cases node.GetAttribute "axis" with
    | none => rfl
    | some a => cases a <;> rfl
  have hop : (graph_utils.IsSupportedOptypeVersionAndDomain node "Gather" [1, 11, 13] = true) ↔
      (node.op_type = "Gather" ∧ node.domain = kOnnxDomain ∧
        (node.since_version = 1 ∨ node.since_version = 11 ∨ node.since_version = 13)) := by
    simp [graph_utils.IsSupportedOptypeVersionAndDomain, and_assoc]
  have hep : (graph_utils.IsSupportedProvider node self.GetCompatibleExecutionProviders = true) ↔
      node.execution_provider_type ∈ self.compatible_execution_providers := by
    simp [graph_utils.IsSupportedProvider, GatherToSplitFusion.GetCompatibleExecutionProviders]
  have hsc : ∀ a : NodeArg, optimizer_utils.IsScalar a = true ↔
      ∃ shape, a.Shape = some shape ∧ shape.dims = [] := by
    intro a
    unfold optimizer_utils.IsScalar
    cases a.Shape with
    | none => simp
    | some shape => simp
  unfold GatherToSplitFusion.IsSupportedGather
  constructor
  · intro h
    split at h
    · cases h
    rename_i hc
    simp only [Bool.or_eq_true, Bool.not_eq_true', not_or, Bool.not_eq_false] at hc
    split at h
    · cases h
    rename_i input_arg hin
    split at h
    · cases h
    rename_i hscalar
    simp only [Bool.not_eq_true', Bool.not_eq_false] at hscalar
    split at h
    · cases h
    rename_i tensor_proto hini
    split at h
    · cases h
    rename_i hty
    simp only [bne_iff_ne, ne_eq, not_not] at hty
    simp only [GatherSupport.supported.injEq] at h
    refine ⟨hop.1 hc.1, hep.1 hc.2, input_arg, tensor_proto, hin, (hsc _).1 hscalar, hini, hty,
      h.1.symm, ?_⟩
    rw [← hattr]
    exact h.2.symm
  · rintro ⟨h1, h2, input_arg, tensor_proto, hin, hscalar, hini, hty, rfl, rfl⟩
    have h1b := hop.2 h1
    have h2b := hep.2 h2
    have h3b := (hsc _).2 hscalar
    have hini2 : graph_utils.GetConstantInitializer graph input_arg.name = some tensor_proto :=
      hini
    simp only [h1b, h2b, hin, h3b, hini2, hty, Bool.not_true, Bool.or_self, Bool.false_eq_true,
      if_false, bne_self_eq_false, hattr, Initializer.data]

/-! ## C8: producer-side skips -/

/-- C8: if the operator type of a node `N` is "Shape", or `N` has more than
one output tensor, or `N` has at most one output edge, lines 62-113 end in a
`continue` whatever the consumers are; the iteration of the node loop for `N`
leaves the graph exactly as it was (no node added, none removed) and leaves
the `modified` flag at the value it had after the recursion into `N`. -/
theorem producer_side_skip (self : GatherToSplitFusion) (graph : Graph) (modified : Bool)
    (node_index : NodeIndex) (node : Node) (hget : graph.GetNode node_index = some node)
    (hskip : node.op_type = "Shape" ∨ 1 < node.output_defs.length ∨
      node.GetOutputEdgesCount ≤ 1) :
    self.match_node graph node = .skip ∧
      (self.visit graph modified node_index).graph = graph ∧
      (self.visit graph modified node_index).modified = (self.Recurse node modified).2 := by
  have hm : self.match_node graph node = .skip := by
    unfold GatherToSplitFusion.match_node
    by_cases h1 : node.op_type = "Shape"
    · simp [h1]
    by_cases h2 : 1 < node.output_defs.length
    · simp [h1, h2]
    have h3 : node.GetOutputEdgesCount ≤ 1 := by
      rcases hskip with h | h | h
      · exact absurd h h1
      · exact absurd h h2
      · exact h
    simp [h1, h2, h3]
  exact ⟨hm, visit_of_skip self graph modified node_index node hget hm⟩

/-- Witness of C8: a "Shape" producer whose three consumers would otherwise
match (indices 0, 1, 2 on axis 1 of a dimension of size 3) is skipped. -/
theorem producer_side_skip_witness :
    (Example.fan_out_graph 12 "Shape" TensorProto_DataType_INT64 Example.shape_B3H
        [(0, 1), (1, 1), (2, 1)]).GetNode 0 =
        some (Example.producer "Shape" Example.shape_B3H 3) ∧
      (Example.pass.match_node
        (Example.fan_out_graph 12 "Shape" TensorProto_DataType_INT64 Example.shape_B3H
          [(0, 1), (1, 1), (2, 1)])
        (Example.producer "Shape" Example.shape_B3H 3) = .skip ∧
      (Example.pass.visit
        (Example.fan_out_graph 12 "Shape" TensorProto_DataType_INT64 Example.shape_B3H
          [(0, 1), (1, 1), (2, 1)]) false 0).graph =
        Example.fan_out_graph 12 "Shape" TensorProto_DataType_INT64 Example.shape_B3H
          [(0, 1), (1, 1), (2, 1)] ∧
      (Example.pass.visit
        (Example.fan_out_graph 12 "Shape" TensorProto_DataType_INT64 Example.shape_B3H
          [(0, 1), (1, 1), (2, 1)]) false 0).modified =
        (Example.pass.Recurse (Example.producer "Shape" Example.shape_B3H 3) false).2) :=
  ⟨by decide, producer_side_skip Example.pass _ false 0 _ (by decide) (Or.inl (by decide))⟩

/-! ## C2: all-or-nothing on the indices -/

/-- C2: let `N` be a node with `k` output edges. If two of its consumers have
the same normalized index, or the normalized index of some consumer lies
outside `[0, k)`, then lines 62-113 do not end in a match, wherever in the
edge order the offending consumer stands, and the iteration of the node loop
for `N` leaves the graph exactly as it was: no node is added, none is removed
and no edge is changed. -/
theorem all_or_nothing_on_indices (self : GatherToSplitFusion) (graph : Graph) (modified : Bool)
    (node_index : NodeIndex) (node : Node) (hget : graph.GetNode node_index = some node)
    (hbad :
      (∃ (i j : Nat) (v : Int), i < j ∧
        (node.output_edges[i]?).bind
          (self.normalized_index_at graph node.output_edges.length) = some v ∧
        (node.output_edges[j]?).bind
          (self.normalized_index_at graph node.output_edges.length) = some v) ∨
      (∃ (i : Nat) (v : Int),
        (node.output_edges[i]?).bind
          (self.normalized_index_at graph node.output_edges.length) = some v ∧
        (v < 0 ∨ (node.output_edges.length : Int) ≤ v))) :
    (∀ output shape k s, self.match_node graph node ≠ .fuse output shape k s) ∧
      (self.visit graph modified node_index).graph = graph := by
  have hno := no_fuse_of_bad_index self graph node hbad
  exact ⟨hno, (visit_of_no_fuse self graph modified node_index node hget hno).1⟩

/-- Witness of C2: three consumers on axis 1 of `[B, 3, H]` with the raw
indices 0, 1 and -2. The first two pass every check; the third normalizes to
1, the index of the second, and the graph stays as it was. -/
theorem all_or_nothing_on_indices_witness :
    (Example.pass.visit
        (Example.fan_out_graph 12 "Relu" TensorProto_DataType_INT64 Example.shape_B3H
          [(0, 1), (1, 1), (-2, 1)]) false 0).graph =
      Example.fan_out_graph 12 "Relu" TensorProto_DataType_INT64 Example.shape_B3H
        [(0, 1), (1, 1), (-2, 1)] :=
  (all_or_nothing_on_indices Example.pass
    (Example.fan_out_graph 12 "Relu" TensorProto_DataType_INT64 Example.shape_B3H
      [(0, 1), (1, 1), (-2, 1)]) false 0
    (Example.producer "Relu" Example.shape_B3H 3) (by decide)
    (Or.inl ⟨1, 2, 1, by decide, by decide, by decide⟩)).2

/-! ## C3: axis agreement -/

/-- C3: let `N` be a node whose output has rank `r`. If two of its Gather
consumers have different axes after normalization (`axis + r` when
`axis < 0`, `axis` otherwise), lines 62-113 do not end in a match and the
iteration for `N` leaves the graph as it was. Conversely the loop body treats
two consumers alike when their raw axes differ and their normalized axes are
equal: the raw value of the axis is not what the comparison reads. -/
theorem axis_agreement (self : GatherToSplitFusion) (graph : Graph) (modified : Bool)
    (node_index : NodeIndex) (node : Node) (output : NodeArg) (shape : TensorShapeProto)
    (hget : graph.GetNode node_index = some node)
    (hout : node.output_defs[0]? = some output) (hshape : output.Shape = some shape) :
    ((∃ (i j : Nat) (a b : Int),
        (node.output_edges[i]?).bind (self.normalized_axis_at graph shape.dim_size) = some a ∧
        (node.output_edges[j]?).bind (self.normalized_axis_at graph shape.dim_size) = some b ∧
        a ≠ b) →
      (∀ output1 shape1 k s, self.match_node graph node ≠ .fuse output1 shape1 k s) ∧
        (self.visit graph modified node_index).graph = graph) ∧
    (∀ (k : Nat) (s : LoopState) (e : ConsumerEdge) (index axis1 axis2 : Int),
      e.supported = some (index, axis1) →
      normalize_axis axis1 shape.dim_size = normalize_axis axis2 shape.dim_size →
      loop_body shape shape.dim_size k s { e with supported := some (index, axis2) } =
        loop_body shape shape.dim_size k s e) := by
  constructor
  · intro hdiff
    have hno := no_fuse_of_axis_mismatch self graph node output shape hout hshape hdiff
    exact ⟨hno, (visit_of_no_fuse self graph modified node_index node hget hno).1⟩
  · intro k s e index axis1 axis2 hsup hax
    apply loop_body_congr
    refine ⟨rfl, rfl, ?_, ?_⟩
    · simp [ConsumerEdge.index, hsup]
    · simp [ConsumerEdge.axis, hsup, hax]

/-- Witness of C3: on `[B, 3, H]` the consumers with axes 1, 1 and 0 disagree
and the graph stays as it was; on `[B, 2]` the consumers with raw axes -1 and
1 agree after normalization and are fused. -/
theorem axis_agreement_witness :
    (Example.pass.visit
        (Example.fan_out_graph 12 "Relu" TensorProto_DataType_INT64 Example.shape_B3H
          [(0, 1), (1, 1), (2, 0)]) false 0).graph =
        Example.fan_out_graph 12 "Relu" TensorProto_DataType_INT64 Example.shape_B3H
          [(0, 1), (1, 1), (2, 0)] ∧
      (Example.pass.visit
        (Example.fan_out_graph 12 "Relu" TensorProto_DataType_INT64 Example.shape_B2
          [(0, -1), (1, 1)]) false 0).modified = true :=
  ⟨((axis_agreement Example.pass
      (Example.fan_out_graph 12 "Relu" TensorProto_DataType_INT64 Example.shape_B3H
        [(0, 1), (1, 1), (2, 0)]) false 0
      (Example.producer "Relu" Example.shape_B3H 3) (Example.x Example.shape_B3H)
      Example.shape_B3H (by decide) (by decide) (by decide)).1
      ⟨0, 2, 1, 0, by decide, by decide, by decide⟩).2, by decide⟩

/-! ## C4: normalization of negative indices and axes -/

/-- C4: for a consumer for which `IsSupportedGather` reports the raw values
`index` and `axis`, at a node with `k` output edges and output rank `rank`:
(1) an iteration of the consumer loop accepts the consumer exactly when the
axis test holds for `axis + rank` if `axis < 0` and for `axis` otherwise, and
the value `index + k` if `index < 0`, `index` otherwise, lies in `[0, k)` and
names a free slot; the accepted state records these normalized values;
(2) the loop gives the same result when a consumer of raw index `-1` is
replaced by one of raw index `k - 1`, so the raw indices `0, ..., k-2, -1`
fuse exactly like `0, ..., k-1`;
(3) a consumer of raw index `-(k+1)` is never accepted. -/
theorem negative_normalization (shape : TensorShapeProto) (rank : Int) (k : Nat) (s : LoopState)
    (e : ConsumerEdge) (index axis : Int) (hsup : e.supported = some (index, axis)) :
    (∀ s1, loop_body shape rank k s e = .next s1 ↔
      ∃ out, e.output = some out ∧
        axis_accepted shape k s (if axis < 0 then axis + rank else axis) ∧
        0 ≤ (if index < 0 then index + (k : Int) else index) ∧
        (if index < 0 then index + (k : Int) else index) < (k : Int) ∧
        slot_taken s.gather_outputs (if index < 0 then index + (k : Int) else index) = false ∧
        s1 = s.accept (if axis < 0 then axis + rank else axis)
          (if index < 0 then index + (k : Int) else index) out e.node_index) ∧
    (index = -1 → 1 ≤ k → ∀ (before after : List (Option ConsumerEdge)) (s0 : LoopState),
      consumer_loop shape rank k s0 (before ++ some e :: after) =
        consumer_loop shape rank k s0
          (before ++ some { e with supported := some ((k : Int) - 1, axis) } :: after)) ∧
    (index = -((k : Int) + 1) → ∀ s1, loop_body shape rank k s e ≠ .next s1) := by
  refine ⟨?_, ?_, ?_⟩
  · intro s1
    rw [loop_body_next]
    constructor
    · rintro ⟨i, a, out, h1, h2, h3, h4, h5, h6, h7⟩
      rw [hsup] at h1
      simp only [Option.some.injEq, Prod.mk.injEq] at h1
      obtain ⟨rfl, rfl⟩ := h1
      exact ⟨out, h2, h3, h4, h5, h6, h7⟩
    · rintro ⟨out, h2, h3, h4, h5, h6, h7⟩
      exact ⟨index, axis, out, hsup, h2, h3, h4, h5, h6, h7⟩
  · intro hi hk before after s0
    subst hi
    apply consumer_loop_congr_option
    apply List.rel_append (forall₂_refl_or _ before)
    refine List.Forall₂.cons (Or.inr ⟨_, _, rfl, rfl, rfl, rfl, ?_, ?_⟩) (forall₂_refl_or _ after)
    · simp only [ConsumerEdge.index, hsup, Option.map_some', normalize_index]
      have h1 : ¬ ((k : Int) - 1 < 0) := by omega
      simp [h1]
      omega
    · simp [ConsumerEdge.axis, hsup]
  · intro hi s1 h
    rw [loop_body_next] at h
    obtain ⟨i, a, out, h1, _, _, h4, _⟩ := h
    rw [hsup] at h1
    simp only [Option.some.injEq, Prod.mk.injEq] at h1
    obtain ⟨rfl, rfl⟩ := h1
    subst hi
    simp only [normalize_index] at h4
    split at h4 <;> omega

/-- Witness of C4: on axis 1 of `[B, 3, H]` the raw indices 0, 1, -1 lead to
the very match that 0, 1, 2 lead to, and with the raw indices 0, 1, -4 the
node is skipped. -/
theorem negative_normalization_witness :
    (∀ s1, loop_body Example.shape_B3H 3 3 (LoopState.init 3)
          { supported := some (-1, 1), node_index := 3, output := some (Example.y 2) } =
          .next s1 ↔
        s1 = (LoopState.init 3).accept 1 2 (Example.y 2) 3) ∧
      Example.pass.match_node
          (Example.fan_out_graph 12 "Relu" TensorProto_DataType_INT64 Example.shape_B3H
            [(0, 1), (1, 1), (-1, 1)])
          (Example.producer "Relu" Example.shape_B3H 3) =
        Example.pass.match_node
          (Example.fan_out_graph 12 "Relu" TensorProto_DataType_INT64 Example.shape_B3H
            [(0, 1), (1, 1), (2, 1)])
          (Example.producer "Relu" Example.shape_B3H 3) ∧
      Example.pass.match_node
          (Example.fan_out_graph 12 "Relu" TensorProto_DataType_INT64 Example.shape_B3H
            [(0, 1), (1, 1), (-4, 1)])
          (Example.producer "Relu" Example.shape_B3H 3) = .skip := by
  refine ⟨?_, by decide, by decide⟩
  intro s1
  rw [(negative_normalization Example.shape_B3H 3 3 (LoopState.init 3)
    { supported := some (-1, 1), node_index := 3, output := some (Example.y 2) } (-1) 1 rfl).1 s1]
  constructor
  · rintro ⟨out, h1, _, _, _, _, h6⟩
    simp only [Option.some.injEq] at h1
    subst h1
    exact h6
  · intro h
    exact ⟨Example.y 2, rfl, by decide, by decide, by decide, by decide, h⟩

/-! ## The dimension at the split axis -/

/-- The dimension that the pass reads. Let `N` be a node with `k` output
edges. (1) If lines 62-113 end in a match, the output of `N` has a static shape, every consumer has the normalized
axis `split_axis`, and the dimension that the pass reads for that axis,
`shape->dim(static_cast<int>(split_axis))`, is the concrete value `k`; for
a `split_axis` that fits in an `int` this is dimension `split_axis` of the
shape. (2) If
the output of `N` has no static shape, the iteration for `N` leaves the graph
as it was. (3) If the dimension read for the normalized axis of the first
consumer is not the concrete value `k` (it is symbolic, unset or another
value), the iteration for `N` leaves the graph as it was. -/
theorem dimension_size_requirement (self : GatherToSplitFusion) (graph : Graph) (modified : Bool)
    (node_index : NodeIndex) (node : Node) (hget : graph.GetNode node_index = some node) :
    (∀ output shape k s, self.match_node graph node = .fuse output shape k s →
      node.output_defs = [output] ∧ output.Shape = some shape ∧ k = node.output_edges.length ∧
      shape.dim (static_cast_int s.split_axis) =
        some (Dimension.dim_value (node.output_edges.length : Int)) ∧
      (∀ edge ∈ node.output_edges,
        self.normalized_axis_at graph shape.dim_size edge = some s.split_axis) ∧
      (-2147483648 ≤ s.split_axis → s.split_axis < 2147483648 →
        0 ≤ s.split_axis ∧ s.split_axis < shape.dim_size ∧
        shape.dims[s.split_axis.toNat]? =
          some (Dimension.dim_value (node.output_edges.length : Int)))) ∧
    (∀ output, node.output_defs[0]? = some output → output.Shape = none →
      (self.visit graph modified node_index).graph = graph) ∧
    (∀ output shape a, node.output_defs[0]? = some output → output.Shape = some shape →
      (node.output_edges[0]?).bind (self.normalized_axis_at graph shape.dim_size) = some a →
      shape.dim (static_cast_int a) ≠
        some (Dimension.dim_value (node.output_edges.length : Int)) →
      (self.visit graph modified node_index).graph = graph) := by
  have hA : ∀ output shape k s, self.match_node graph node = .fuse output shape k s →
      node.output_defs = [output] ∧ output.Shape = some shape ∧ k = node.output_edges.length ∧
      shape.dim (static_cast_int s.split_axis) =
        some (Dimension.dim_value (node.output_edges.length : Int)) ∧
      (∀ edge ∈ node.output_edges,
        self.normalized_axis_at graph shape.dim_size edge = some s.split_axis) ∧
      (-2147483648 ≤ s.split_axis → s.split_axis < 2147483648 →
        0 ≤ s.split_axis ∧ s.split_axis < shape.dim_size ∧
        shape.dims[s.split_axis.toNat]? =
          some (Dimension.dim_value (node.output_edges.length : Int))) := by
    intro output shape k s hm
    obtain ⟨_, h2, h3, h4, _, h6, _, h8, _⟩ :=
      match_node_fuse_sound self graph node output shape k s hm
    subst h4
    refine ⟨h2, h3, rfl, h8, ?_, ?_⟩
    · intro edge he
      obtain ⟨c, index, axis, out, hg, hsup, hax, _⟩ := h6 edge he
      simp [GatherToSplitFusion.normalized_axis_at, GatherToSplitFusion.gather_at,
      GatherSupport.values, hg, hsup, hax]
    · intro hlo hhi
      rw [static_cast_int_of_fits _ hlo hhi] at h8
      exact TensorShapeProto.dim_eq_some shape _ _ h8
  refine ⟨hA, ?_, ?_⟩
  · intro output hout hnone
    apply (visit_of_no_fuse self graph modified node_index node hget _).1
    intro output1 shape1 k s hm
    obtain ⟨h2, h3, _⟩ := hA _ _ _ _ hm
    rw [h2] at hout
    simp only [List.getElem?_cons_zero, Option.some.injEq] at hout
    subst hout
    rw [hnone] at h3
    cases h3
  · intro output shape a hout hshape ha hdim
    apply (visit_of_no_fuse self graph modified node_index node hget _).1
    intro output1 shape1 k s hm
    obtain ⟨h2, h3, _, h5, h6, _⟩ := hA _ _ _ _ hm
    rw [h2] at hout
    simp only [List.getElem?_cons_zero, Option.some.injEq] at hout
    subst hout
    rw [hshape, Option.some.injEq] at h3
    subst h3
    obtain ⟨_, _, edge, he, _, hf⟩ := getElem_map_of_bind _ _ 0 a ha
    rw [h6 edge he, Option.some.injEq] at hf
    subst hf
    exact hdim h5

/-- Example of the dimension test: a producer of shape `[B, 4, H]` with only three Gather
consumers (indices 0, 1, 2 on axis 1) is left alone: the dimension is 4 and
the fan-out is 3. -/
theorem dimension_size_requirement_witness :
    (Example.pass.visit
        (Example.fan_out_graph 12 "Relu" TensorProto_DataType_INT64 Example.shape_B4H
          [(0, 1), (1, 1), (2, 1)]) false 0).graph =
      Example.fan_out_graph 12 "Relu" TensorProto_DataType_INT64 Example.shape_B4H
        [(0, 1), (1, 1), (2, 1)] :=
  (dimension_size_requirement Example.pass
    (Example.fan_out_graph 12 "Relu" TensorProto_DataType_INT64 Example.shape_B4H
      [(0, 1), (1, 1), (2, 1)]) false 0
    (Example.producer "Relu" Example.shape_B4H 3) (by decide)).2.2
    (Example.x Example.shape_B4H) Example.shape_B4H 1 (by decide) (by decide) (by decide)
    (by decide)

/-! ## The shape of the rewritten subgraph -/

/-- The type of the Split outputs, dimension by dimension. On every
successful fusion at a node `N` whose output has the shape
`[d_0, ..., d_{r-1}]` and the element type `t`, with matched axis `a` and
fan-out `k`, the node appended first is the Split node; it carries the
attribute `axis = a`, and each of its `k` outputs has the element type `t` and
a shape of rank `r` whose dimension `i` is `1` when `i = a` and `d_i`
otherwise (symbolic dimensions included): the shape
`[d_0, ..., d_{a-1}, 1, d_{a+1}, ..., d_{r-1}]` when `0 <= a < r`. -/
theorem split_output_shape (self : GatherToSplitFusion) (graph : Graph) (modified : Bool)
    (node_index : NodeIndex) (node : Node) (output : NodeArg) (shape : TensorShapeProto)
    (k : Nat) (s : LoopState) (hget : graph.GetNode node_index = some node)
    (hrec : (self.Recurse node modified).1 = Status.OK)
    (hm : self.match_node graph node = .fuse output shape k s) :
    ∃ (split : Node) (t0 : TypeProto) (sh : TensorShapeProto),
      (self.visit graph modified node_index).graph.GetNode graph.nodes.length = some split ∧
      split.op_type = "Split" ∧
      split.GetAttribute "axis" = some (AttributeProto.i s.split_axis) ∧
      split.output_defs.length = k ∧
      output.type = some t0 ∧
      (∀ o ∈ split.output_defs,
        o.type = some { elem_type := t0.elem_type, shape := some sh }) ∧
      sh.dims.length = shape.dims.length ∧
      (∀ (i : Nat) (d : Dimension), shape.dims[i]? = some d →
        sh.dims[i]? = some (if (i : Int) = s.split_axis then Dimension.dim_value 1 else d)) ∧
      (∀ an : Nat, s.split_axis = (an : Int) → an < shape.dims.length →
        sh.dims = shape.dims.take an ++ [Dimension.dim_value 1] ++
          shape.dims.drop (an + 1)) := by
  obtain ⟨hlen, hlive⟩ := match_node_fuse_live self graph node output shape k s hm
  obtain ⟨_, _, hshape, _⟩ := match_node_fuse_sound self graph node output shape k s hm
  obtain ⟨split_name, split_outputs, _, w2, w3, _, _, _, _, w8, _⟩ :=
    rewrite_spec graph node output shape k s hlen hlive
  obtain ⟨t0, sh, q1, q2, q3, q4, q5⟩ := split_output_type_spec output shape s.split_axis hshape
  rw [visit_of_fuse self graph modified node_index node output shape k s hget hrec hm]
  refine ⟨_, t0, sh, GetNode_of_getElem? _ _ _ w8, rfl, rfl, w2, q1, ?_, q3, q4, q5⟩
  intro o ho
  rw [(w3 o ho).1, q2]

/-- The end-to-end example: `N -> {G0(idx=0), G1(idx=1),
G2(idx=2)}` on axis 1 of `[B, 3, H]`. The pass returns OK with `modified`
set; the consumers are gone; node 4 is `Split(axis=1)` with the three outputs
`split0`, `split1`, `split2` of shape `[B, 1, H]`; nodes 5, 6, 7 are
`Squeeze0`, `Squeeze1`, `Squeeze2`, each reading one Split output and
producing the NodeArg `y0`, `y1`, `y2` of shape `[B, H]` that the Gather of
that index produced. -/
theorem split_output_shape_witness :
    (∃ (split : Node) (t0 : TypeProto) (sh : TensorShapeProto),
      (Example.pass.visit (Example.graph_B3H 12) false 0).graph.GetNode
        (Example.graph_B3H 12).nodes.length = some split ∧
      split.op_type = "Split" ∧
      split.GetAttribute "axis" = some (AttributeProto.i 1) ∧
      split.output_defs.length = 3 ∧
      (Example.x Example.shape_B3H).type = some t0 ∧
      (∀ o ∈ split.output_defs,
        o.type = some { elem_type := t0.elem_type, shape := some sh }) ∧
      sh.dims = [Example.B, Dimension.dim_value 1, Example.H]) ∧
    Example.pass.ApplyImpl (Example.graph_B3H 12) false [0, 1, 2, 3] =
      { exit := .returned Status.OK
        modified := true
        graph :=
          { Example.graph_B3H 12 with
            nodes :=
              [some { Example.producer "Relu" Example.shape_B3H 3 with output_edges := [] },
                none, none, none,
                some (split_node "Split" "CPUExecutionProvider" 1 (Example.x Example.shape_B3H)
                  [{ name := "split0"
                     type := Example.float_tensor ⟨[Example.B, .dim_value 1, Example.H], by decide⟩ },
                   { name := "split1"
                     type := Example.float_tensor ⟨[Example.B, .dim_value 1, Example.H], by decide⟩ },
                   { name := "split2"
                     type := Example.float_tensor ⟨[Example.B, .dim_value 1, Example.H], by decide⟩ }]),
                some (squeeze_node_axes_attribute "Squeeze0" "CPUExecutionProvider" 1
                  { name := "split0"
                    type := Example.float_tensor ⟨[Example.B, .dim_value 1, Example.H], by decide⟩ }
                  (some { name := "y0", type := Example.float_tensor Example.shape_BH })),
                some (squeeze_node_axes_attribute "Squeeze1" "CPUExecutionProvider" 1
                  { name := "split1"
                    type := Example.float_tensor ⟨[Example.B, .dim_value 1, Example.H], by decide⟩ }
                  (some { name := "y1", type := Example.float_tensor Example.shape_BH })),
                some (squeeze_node_axes_attribute "Squeeze2" "CPUExecutionProvider" 1
                  { name := "split2"
                    type := Example.float_tensor ⟨[Example.B, .dim_value 1, Example.H], by decide⟩ }
                  (some { name := "y2", type := Example.float_tensor Example.shape_BH }))]
            node_args := (Example.graph_B3H 12).node_args ++
              [{ name := "split0"
                 type := Example.float_tensor ⟨[Example.B, .dim_value 1, Example.H], by decide⟩ },
               { name := "split1"
                 type := Example.float_tensor ⟨[Example.B, .dim_value 1, Example.H], by decide⟩ },
               { name := "split2"
                 type := Example.float_tensor ⟨[Example.B, .dim_value 1, Example.H], by decide⟩ }]
            generated_node_arg_names := ["split2", "split1", "split0"]
            generated_node_names := ["Squeeze2", "Squeeze1", "Squeeze0", "Split"] } } :=
  ⟨match split_output_shape Example.pass (Example.graph_B3H 12) false 0
      (Example.producer "Relu" Example.shape_B3H 3) (Example.x Example.shape_B3H)
      Example.shape_B3H 3
      { first_edge := false
        split_axis := 1
        gather_outputs := [some (Example.y 0), some (Example.y 1), some (Example.y 2)]
        nodes_to_fuse := [1, 2, 3] }
      (by decide) (by decide) (by decide) with
    | ⟨split, t0, sh, h1, h2, h3, h4, h5, h6, _, _, h9⟩ =>
      ⟨split, t0, sh, h1, h2, h3, h4, h5, h6, h9 1 rfl (by decide)⟩,
    by decide⟩

/-! ## C6: the encoding of the Squeeze axis -/

/-- C6: on every successful fusion with matched axis `a` and fan-out `k`, the
`k` nodes appended after the Split node are Squeeze nodes, the `i`-th reading
Split output `i` first. (1) If the ONNX domain is absent from the
domain-to-version map of the graph, or its version is below 13, each Squeeze
node has exactly one input and the single attribute `axes = [a]`. (2) If the
version is 13 or above, each Squeeze node has no attribute and exactly two
inputs; the second is the same NodeArg for all of them, of type INT64 and
dims `[1]`, carrying a name new to the graph, under which the graph now holds
a constant initializer of type INT64 and dims `[1]` with the single value
`a`. (3) In both encodings the Squeeze node at the normalized index of a
consumer produces the NodeArg which that consumer produced. -/
theorem squeeze_axis_encoding (self : GatherToSplitFusion) (graph : Graph) (modified : Bool)
    (node_index : NodeIndex) (node : Node) (output : NodeArg) (shape : TensorShapeProto)
    (k : Nat) (s : LoopState) (hget : graph.GetNode node_index = some node)
    (hrec : (self.Recurse node modified).1 = Status.OK)
    (hm : self.match_node graph node = .fuse output shape k s) :
    ∃ (split : Node),
      (self.visit graph modified node_index).graph.GetNode graph.nodes.length = some split ∧
      split.op_type = "Split" ∧ split.output_defs.length = k ∧
      ((∀ v, graph.DomainToVersion kOnnxDomain = some v → v < 13) →
        ∀ i, i < k → ∃ sq split_output,
          (self.visit graph modified node_index).graph.GetNode (graph.nodes.length + 1 + i) =
            some sq ∧
          sq.op_type = "Squeeze" ∧ split.output_defs[i]? = some split_output ∧
          sq.input_defs = [split_output] ∧
          sq.attributes = [("axes", AttributeProto.ints [s.split_axis])]) ∧
      ((∃ v, graph.DomainToVersion kOnnxDomain = some v ∧ 13 ≤ v) →
        ∃ (axes_arg : NodeArg) (tensor : TensorProto),
          axes_arg.name ∉ graph.used_names ∧
          axes_arg.type = some { elem_type := TensorProto_DataType_INT64
                                 shape := some ⟨[Dimension.dim_value 1], by decide⟩ } ∧
          graph_utils.GetConstantInitializer (self.visit graph modified node_index).graph
            axes_arg.name = some tensor ∧
          tensor.data_type = TensorProto_DataType_INT64 ∧ tensor.dims = [1] ∧
          tensor.int64_data = [s.split_axis] ∧
          ∀ i, i < k → ∃ sq split_output,
            (self.visit graph modified node_index).graph.GetNode (graph.nodes.length + 1 + i) =
              some sq ∧
            sq.op_type = "Squeeze" ∧ split.output_defs[i]? = some split_output ∧
            sq.input_defs = [split_output, axes_arg] ∧ sq.attributes = []) ∧
      (∀ edge ∈ node.output_edges, ∀ c index axis out,
        graph.GetNode edge.node_index = some c →
        self.IsSupportedGather graph c = .supported index axis →
        c.output_defs[0]? = some out →
        ∃ sq, (self.visit graph modified node_index).graph.GetNode
            (graph.nodes.length + 1 + (normalize_index index k).toNat) = some sq ∧
          sq.op_type = "Squeeze" ∧ sq.output_defs = [out]) := by
  obtain ⟨hlen, hlive⟩ := match_node_fuse_live self graph node output shape k s hm
  obtain ⟨_, _, _, _, _, hedges, _⟩ := match_node_fuse_sound self graph node output shape k s hm
  obtain ⟨split_name, split_outputs, _, w2, _, _, _, _, _, w8, w9, w10⟩ :=
    rewrite_spec graph node output shape k s hlen hlive
  have hsq := rewrite_squeeze_node graph node output shape k s (fun h => (w9 h).2.2)
    (fun h => by
      obtain ⟨axes_name, _, _, _, h4⟩ := w10 h
      exact ⟨axes_name, h4⟩)
  rw [visit_of_fuse self graph modified node_index node output shape k s hget hrec hm]
  simp only []
  refine ⟨_, GetNode_of_getElem? _ _ _ w8, rfl, w2, ?_, ?_, ?_⟩
  · intro hv i hi
    obtain ⟨_, _, u3⟩ := w9 ((onnx_opset_version_lt_iff graph).2 hv)
    have hso : i < split_outputs.length := by omega
    have hgo : i < s.gather_outputs.length := by omega
    obtain ⟨name, hname⟩ := u3 i split_outputs[i] s.gather_outputs[i]
      (List.getElem?_eq_getElem hso) (List.getElem?_eq_getElem hgo)
    exact ⟨_, split_outputs[i], GetNode_of_getElem? _ _ _ hname, rfl,
      List.getElem?_eq_getElem hso, rfl, rfl⟩
  · rintro ⟨v, hv, hge⟩
    have hver : 13 ≤ onnx_opset_version graph := by
      simp only [onnx_opset_version, hv]
      exact hge
    obtain ⟨axes_name, u0, u1, _, u3⟩ := w10 hver
    refine ⟨axes_node_arg axes_name, axes_initializer_proto axes_name s.split_axis, u0, rfl, ?_,
      rfl, rfl, rfl, ?_⟩
    · unfold graph_utils.GetConstantInitializer
      rw [u1]
      exact find_initializer_append graph.initializers
        (axes_initializer_proto axes_name s.split_axis) (by
          intro u hu heq
          apply u0
          have hmem := initializer_name_mem_used graph u hu
          rw [heq] at hmem
          exact hmem)
    · intro i hi
      have hso : i < split_outputs.length := by omega
      have hgo : i < s.gather_outputs.length := by omega
      obtain ⟨name, hname⟩ := u3 i split_outputs[i] s.gather_outputs[i]
        (List.getElem?_eq_getElem hso) (List.getElem?_eq_getElem hgo)
      exact ⟨_, split_outputs[i], GetNode_of_getElem? _ _ _ hname, rfl,
        List.getElem?_eq_getElem hso, rfl, rfl⟩
  · intro edge he c index axis out hg hsup ho
    obtain ⟨c1, index1, axis1, out1, hg1, hsup1, _, h0, h1, ho1, hslot⟩ := hedges edge he
    rw [hg, Option.some.injEq] at hg1
    subst hg1
    rw [hsup, GatherSupport.supported.injEq] at hsup1
    obtain ⟨rfl, rfl⟩ := hsup1
    rw [ho, Option.some.injEq] at ho1
    subst ho1
    have hso : (normalize_index index k).toNat < split_outputs.length := by omega
    obtain ⟨sq, q1, q2, _, q4⟩ := hsq _ split_outputs[(normalize_index index k).toNat]
      (some out) (List.getElem?_eq_getElem hso) hslot
    exact ⟨sq, q1, q2, by rw [q4]; rfl⟩

/-- Witness of C6: the end-to-end example under opset 13 and under opset 12.
Under opset 13 node 5 is `Squeeze0` with the inputs `split0` and
`SqueezeAxesInitializer` and no attribute, and the graph holds the INT64
initializer `SqueezeAxesInitializer` of dims `[1]` and value `1`; under opset
12 node 5 is `Squeeze0` with the input `split0` and `axes = [1]`. Both
produce `y0`. -/
theorem squeeze_axis_encoding_witness :
    (∃ (axes_arg : NodeArg) (tensor : TensorProto),
      axes_arg.name ∉ (Example.graph_B3H 13).used_names ∧
      graph_utils.GetConstantInitializer (Example.pass.visit (Example.graph_B3H 13) false 0).graph
        axes_arg.name = some tensor ∧
      tensor.data_type = TensorProto_DataType_INT64 ∧ tensor.dims = [1] ∧
      tensor.int64_data = [1]) ∧
    (Example.pass.visit (Example.graph_B3H 13) false 0).graph.GetNode 5 =
      some (squeeze_node_axes_input "Squeeze0" "CPUExecutionProvider"
        (axes_node_arg "SqueezeAxesInitializer")
        { name := "split0"
          type := Example.float_tensor ⟨[Example.B, .dim_value 1, Example.H], by decide⟩ }
        (some (Example.y 0))) ∧
    (Example.pass.visit (Example.graph_B3H 13) false 0).graph.initializers =
      (Example.graph_B3H 13).initializers ++
        [axes_initializer_proto "SqueezeAxesInitializer" 1] ∧
    (Example.pass.visit (Example.graph_B3H 12) false 0).graph.GetNode 5 =
      some (squeeze_node_axes_attribute "Squeeze0" "CPUExecutionProvider" 1
        { name := "split0"
          type := Example.float_tensor ⟨[Example.B, .dim_value 1, Example.H], by decide⟩ }
        (some (Example.y 0))) :=
  ⟨match squeeze_axis_encoding Example.pass (Example.graph_B3H 13) false 0
      (Example.producer "Relu" Example.shape_B3H 3) (Example.x Example.shape_B3H)
      Example.shape_B3H 3
      { first_edge := false
        split_axis := 1
        gather_outputs := [some (Example.y 0), some (Example.y 1), some (Example.y 2)]
        nodes_to_fuse := [1, 2, 3] }
      (by decide) (by decide) (by decide) with
    | ⟨_, _, _, _, _, h13, _⟩ =>
      match h13 ⟨13, by decide, by decide⟩ with
      | ⟨axes_arg, tensor, h1, _, h3, h4, h5, h6, _⟩ => ⟨axes_arg, tensor, h1, h3, h4, h5, h6⟩,
    by decide, by decide, by decide⟩

/-! ## The `modified` flag and the status of the pass -/

/-- The pass without a match. Let the recursion into subgraphs report no
error and no rewrite (`Recurse` returns OK and leaves the flag as it is). (1)
If no visited node satisfies the full match, `ApplyImpl` leaves the graph
unchanged and leaves `modified` at its initial value, and it returns an OK
status provided no iteration makes an element access outside its container.
(2) In general the final value of `modified` is `true` exactly when it was
`true` initially or at least one fusion was performed at this graph level:
`ApplyImpl` never writes `false`, and writes `true` if and only if it performs
a fusion. -/
theorem failure_semantics (self : GatherToSplitFusion) (graph : Graph) (modified : Bool)
    (node_topology_list : List NodeIndex)
    (hrec : ∀ node m, self.Recurse node m = (Status.OK, m)) :
    ((∀ node_index ∈ node_topology_list, ∀ node output shape k s,
        graph.GetNode node_index = some node →
        self.match_node graph node ≠ .fuse output shape k s) →
      (self.ApplyImpl graph modified node_topology_list).graph = graph ∧
      (self.ApplyImpl graph modified node_topology_list).modified = modified ∧
      ((∀ node_index ∈ node_topology_list, ∀ node, graph.GetNode node_index = some node →
          self.match_node graph node ≠ .undefined) →
        (self.ApplyImpl graph modified node_topology_list).exit = .returned Status.OK)) ∧
    (self.ApplyImpl graph modified node_topology_list).modified =
      (modified || !(self.fusions node_topology_list graph modified).isEmpty) := by
  unfold GatherToSplitFusion.ApplyImpl
  constructor
  · induction node_topology_list with
    | nil =>
      intro _
      exact ⟨rfl, rfl, fun _ => rfl⟩
    | cons node_index rest ih =>
      intro hno
      have hrest := ih fun i hi => hno i (List.mem_cons_of_mem _ hi)
      have hfalse : self.fuses_at graph modified node_index = false := by
        unfold GatherToSplitFusion.fuses_at
        cases hg : graph.GetNode node_index with
        | none => rfl
        | some node =>
          simp only [hrec node modified]
          cases hm : self.match_node graph node with
          | skip => rfl
          | undefined => rfl
          | fuse output shape k s =>
            exact absurd hm (hno node_index (List.mem_cons_self _ _) node output shape k s hg)
      rcases visit_cases self graph modified node_index hrec with ⟨h, _⟩ | ⟨_, h1, h2, h3⟩
      · rw [hfalse] at h; cases h
      · simp only [GatherToSplitFusion.ApplyLoop]
        rcases h3 with h3 | ⟨h3, node, hg, hu⟩
        · rw [h3, h1, h2]
          refine ⟨hrest.1, hrest.2.1, fun hdef => ?_⟩
          exact hrest.2.2 fun i hi => hdef i (List.mem_cons_of_mem _ hi)
        · rw [h3]
          refine ⟨h1, h2, fun hdef => ?_⟩
          exact absurd hu (hdef node_index (List.mem_cons_self _ _) node hg)
  · induction node_topology_list generalizing graph modified with
    | nil => simp [GatherToSplitFusion.ApplyLoop, GatherToSplitFusion.fusions]
    | cons node_index rest ih =>
      simp only [GatherToSplitFusion.ApplyLoop, GatherToSplitFusion.fusions]
      rcases visit_cases self graph modified node_index hrec with ⟨h0, h1, h2⟩ | ⟨h0, h1, h2, h3⟩
      · rw [h0, h1]
        simp only [if_true]
        rw [ih, h2]
        simp
      · rw [h0]
        simp only [Bool.false_eq_true, if_false, List.nil_append]
        rcases h3 with h3 | ⟨h3, _⟩
        · rw [h3]
          simp only []
          rw [ih, h2, h1]
        · rw [h3]
          simp [h2]

/-- Example of a pass without a match: the graph `[B, 4, H]` with three Gather consumers has no
match: the pass returns OK, the graph is the one it was given and `modified`
keeps its initial value `false`; on the end-to-end example one fusion is
performed (at node 0) and `modified` ends `true`. -/
theorem failure_semantics_witness :
    ((Example.pass.ApplyImpl Example.graph_B4H false [0, 1, 2, 3]).graph = Example.graph_B4H ∧
      (Example.pass.ApplyImpl Example.graph_B4H false [0, 1, 2, 3]).modified = false ∧
      (Example.pass.ApplyImpl Example.graph_B4H false [0, 1, 2, 3]).exit =
        .returned Status.OK) ∧
    (Example.pass.ApplyImpl (Example.graph_B3H 12) false [0, 1, 2, 3]).modified =
      (false || !(Example.pass.fusions [0, 1, 2, 3] (Example.graph_B3H 12) false).isEmpty) ∧
    Example.pass.fusions [0, 1, 2, 3] (Example.graph_B3H 12) false = [0] :=
  ⟨match (failure_semantics Example.pass Example.graph_B4H false [0, 1, 2, 3]
      (fun _ _ => rfl)).1
      (fun i hi node output shape k s hg h => by
        rw [Example.graph_B4H_no_match i hi node hg] at h
        cases h) with
    | ⟨h1, h2, h3⟩ =>
      ⟨h1, h2, h3 fun i hi node hg h => by
        rw [Example.graph_B4H_no_match i hi node hg] at h
        cases h⟩,
    (failure_semantics Example.pass (Example.graph_B3H 12) false [0, 1, 2, 3]
      (fun _ _ => rfl)).2,
    by decide⟩

/-! ## C18: the accepted indices cover every slot -/

theorem perm_range_of_nodup_of_lt (l : List Nat) (k : Nat) (hlen : l.length = k)
    (hnodup : l.Nodup) (hlt : ∀ x ∈ l, x < k) : l.Perm (List.range k) := by
  apply List.perm_of_nodup_nodup_toFinset_eq hnodup (List.nodup_range k)
  apply Finset.eq_of_subset_of_card_le
  · intro x hx
    simp only [List.mem_toFinset, List.mem_range] at hx ⊢
    exact hlt x hx
  · rw [List.toFinset_card_of_nodup hnodup, List.toFinset_card_of_nodup (List.nodup_range k),
      List.length_range, hlen]

/-- The normalized indices of the consumers of a matched node, as natural
numbers, are a rearrangement of `0, ..., k-1`. -/
theorem match_node_fuse_indices_perm (self : GatherToSplitFusion) (graph : Graph) (node : Node)
    (output : NodeArg) (shape : TensorShapeProto) (k : Nat) (s : LoopState)
    (hm : self.match_node graph node = .fuse output shape k s) :
    (node.output_edges.map (self.normalized_index_at graph k)).Perm
      ((List.range k).map fun i : Nat => some (i : Int)) := by
  obtain ⟨_, _, _, hk, _, hedges, hpair, _⟩ :=
    match_node_fuse_sound self graph node output shape k s hm
  have hval : ∀ edge ∈ node.output_edges, ∃ ni : Int,
      self.normalized_index_at graph k edge = some ni ∧ 0 ≤ ni ∧ ni < (k : Int) := by
    intro edge he
    obtain ⟨c, index, axis, out, hg, hsup, _, h0, h1, _⟩ := hedges edge he
    exact ⟨normalize_index index k, by
      simp [GatherToSplitFusion.normalized_index_at, GatherToSplitFusion.gather_at,
      GatherSupport.values, hg, hsup],
      h0, h1⟩
  have hnat : (node.output_edges.map fun edge =>
      ((self.normalized_index_at graph k edge).getD 0).toNat).Perm (List.range k) := by
    apply perm_range_of_nodup_of_lt
    · rw [List.length_map, hk]
    · rw [List.Nodup, List.pairwise_map]
      rw [List.pairwise_map] at hpair
      refine List.Pairwise.imp_of_mem ?_ hpair
      intro a b ha hb hab heq
      obtain ⟨na, hna, ha0, _⟩ := hval a ha
      obtain ⟨nb, hnb, hb0, _⟩ := hval b hb
      apply hab
      rw [hna, hnb] at heq ⊢
      simp only [Option.getD_some] at heq
      congr 1
      omega
    · intro x hx
      obtain ⟨edge, he, rfl⟩ := List.mem_map.1 hx
      obtain ⟨ni, hni, h0, h1⟩ := hval edge he
      rw [hni]
      simp only [Option.getD_some]
      omega
  have hmap := hnat.map fun n : Nat => some (n : Int)
  rw [List.map_map] at hmap
  have heq : node.output_edges.map
      ((fun n : Nat => some (n : Int)) ∘ fun edge =>
        ((self.normalized_index_at graph k edge).getD 0).toNat) =
      node.output_edges.map (self.normalized_index_at graph k) := by
    apply List.map_congr_left
    intro edge he
    obtain ⟨ni, hni, h0, _⟩ := hval edge he
    simp only [Function.comp, hni, Option.getD_some, Option.some.injEq]
    omega
  rw [heq] at hmap
  exact hmap

/-- C18: whenever the consumer loop of `ApplyImpl` finishes with `can_fuse`
for a node with `k` output edges, `nodes_to_fuse` holds exactly `k` nodes (one
per output edge), the normalized indices of the consumers are exactly the
values `0, ..., k-1`, each taken once, every one of the `k` entries of
`gather_outputs` is non-null, and entry `i` is the output of a consumer
exactly when that consumer has the normalized index `i`: index and Gather
output correspond one to one. -/
theorem every_slot_defined (self : GatherToSplitFusion) (graph : Graph) (node : Node)
    (output : NodeArg) (shape : TensorShapeProto) (k : Nat) (s : LoopState)
    (hm : self.match_node graph node = .fuse output shape k s) :
    s.nodes_to_fuse = (node.output_edges.map fun edge => edge.node_index) ∧
      s.nodes_to_fuse.length = k ∧ s.gather_outputs.length = k ∧
      (node.output_edges.map (self.normalized_index_at graph k)).Perm
        ((List.range k).map fun i : Nat => some (i : Int)) ∧
      (∀ i, i < k → ∃ o, s.gather_outputs[i]? = some (some o)) ∧
      (∀ (i : Nat) (o : NodeArg), s.gather_outputs[i]? = some (some o) ↔
        ∃ edge ∈ node.output_edges, ∃ c index axis,
          graph.GetNode edge.node_index = some c ∧
          self.IsSupportedGather graph c = .supported index axis ∧
          normalize_index index k = (i : Int) ∧ c.output_defs[0]? = some o) := by
  have hperm := match_node_fuse_indices_perm self graph node output shape k s hm
  obtain ⟨_, _, _, hk, _, hedges, _, _, hfuse, hlen, hrev⟩ :=
    match_node_fuse_sound self graph node output shape k s hm
  have hslot : ∀ edge ∈ node.output_edges, ∀ c index axis o,
      graph.GetNode edge.node_index = some c →
      self.IsSupportedGather graph c = .supported index axis → c.output_defs[0]? = some o →
      s.gather_outputs[(normalize_index index k).toNat]? = some (some o) := by
    intro edge he c index axis o hg hsup ho
    obtain ⟨c1, index1, axis1, out1, hg1, hsup1, _, _, _, ho1, hs1⟩ := hedges edge he
    rw [hg, Option.some.injEq] at hg1
    subst hg1
    rw [hsup, GatherSupport.supported.injEq] at hsup1
    obtain ⟨rfl, rfl⟩ := hsup1
    rw [ho, Option.some.injEq] at ho1
    subst ho1
    exact hs1
  refine ⟨hfuse, by rw [hfuse, List.length_map, hk], hlen, hperm, ?_, ?_⟩
  · intro i hi
    have hmem : some (i : Int) ∈ (List.range k).map fun i : Nat => some (i : Int) :=
      List.mem_map.2 ⟨i, List.mem_range.2 hi, rfl⟩
    rw [← hperm.mem_iff] at hmem
    obtain ⟨edge, he, hidx⟩ := List.mem_map.1 hmem
    obtain ⟨c, index, axis, out, hg, hsup, _, _, _, ho, hs⟩ := hedges edge he
    simp only [GatherToSplitFusion.normalized_index_at, GatherToSplitFusion.gather_at,
      GatherSupport.values, hg, hsup,
      Option.map_some', Option.some.injEq] at hidx
    rw [hidx] at hs
    exact ⟨out, by simpa using hs⟩
  · intro i o
    constructor
    · exact hrev i o
    · rintro ⟨edge, he, c, index, axis, hg, hsup, hidx, ho⟩
      have := hslot edge he c index axis o hg hsup ho
      rw [hidx] at this
      simpa using this

/-- Witness of C18: the end-to-end example, whose loop ends with the three
slots `y0`, `y1`, `y2`: the normalized indices of the three consumers are a
rearrangement of 0, 1, 2 and the three slots are filled. -/
theorem every_slot_defined_witness :
    ((Example.producer "Relu" Example.shape_B3H 3).output_edges.map
        (Example.pass.normalized_index_at (Example.graph_B3H 12) 3)).Perm
        ((List.range 3).map fun i : Nat => some (i : Int)) ∧
      ([some (Example.y 0), some (Example.y 1), some (Example.y 2)] :
        List (Option NodeArg)).length = 3 :=
  match every_slot_defined Example.pass (Example.graph_B3H 12)
    (Example.producer "Relu" Example.shape_B3H 3) (Example.x Example.shape_B3H)
    Example.shape_B3H 3
    { first_edge := false
      split_axis := 1
      gather_outputs := [some (Example.y 0), some (Example.y 1), some (Example.y 2)]
      nodes_to_fuse := [1, 2, 3] } (by decide) with
  | ⟨_, _, h3, h4, _, _⟩ => ⟨h4, h3⟩

/-! ## C19: the axis is not checked against the rank -/

/-- C19 does not hold of the code: the axis of the first consumer is only
shifted by the rank when negative (line 91) and then used to index the shape
(lines 92-93) without a range check. With axis 7 (or -5) on a producer of rank
3 the normalized axis is 7 (or -2), outside `[0, 3)`, the dimension lookup is
out of range and `ApplyImpl` has no defined result. With axis `2^32 + 1` the
lookup, after `static_cast<int>`, reads dimension 1, the fusion is applied
with `split_axis = 2^32 + 1`, outside `[0, 3)`, and the type of the Split
outputs keeps all three dimensions of the shape: none is replaced by 1. -/
theorem axis_not_bounded_by_rank :
    (normalize_axis 7 Example.shape_B3H.dim_size = 7 ∧
      Example.shape_B3H.dim (static_cast_int (normalize_axis 7 Example.shape_B3H.dim_size)) = none ∧
      Example.pass.match_node Example.graph_axis_7
        (Example.producer "Relu" Example.shape_B3H 3) = Match.undefined ∧
      (Example.pass.ApplyImpl Example.graph_axis_7 false [0, 1, 2, 3]).exit = Exit.undefined) ∧
    (normalize_axis (-5) Example.shape_B3H.dim_size = -2 ∧
      Example.pass.match_node Example.graph_axis_minus_5
        (Example.producer "Relu" Example.shape_B3H 3) = Match.undefined) ∧
    (Example.pass.match_node Example.graph_axis_wrapped
        (Example.producer "Relu" Example.shape_B3H 3) =
        Match.fuse (Example.x Example.shape_B3H) Example.shape_B3H 3
          { first_edge := false
            split_axis := 4294967297
            gather_outputs := [some (Example.y 0), some (Example.y 1), some (Example.y 2)]
            nodes_to_fuse := [1, 2, 3] } ∧
      Example.pass.fusions [0, 1, 2, 3] Example.graph_axis_wrapped false = [0] ∧
      ¬ (4294967297 : Int) < Example.shape_B3H.dim_size ∧
      (split_output_type (Example.x Example.shape_B3H) Example.shape_B3H 4294967297).shape =
        some Example.shape_B3H) := by
  refine ⟨⟨by decide, by decide, by decide, by decide⟩, ⟨by decide, by decide⟩,
    by decide, by decide, by decide, by decide⟩

/-! ## C11, C12: the registration loop -/

theorem RegisterLoop_cons_sentinel {ρ : Type} (Register : ρ → KernelCreateInfo → Status × ρ)
    (f : BuildKernelCreateInfoFn) (rest : List BuildKernelCreateInfoFn) (i : Nat) (reg : ρ)
    (h : (f ()).kernel_def = none) :
    RegisterLoop Register (f :: rest) i reg =
      (RegisterLoop Register rest (i + 1) reg).after [.build i] := by
  simp [RegisterLoop, h]

theorem RegisterLoop_cons_ok {ρ : Type} (Register : ρ → KernelCreateInfo → Status × ρ)
    (f : BuildKernelCreateInfoFn) (rest : List BuildKernelCreateInfoFn) (i : Nat) (reg reg1 : ρ)
    (h : (f ()).kernel_def ≠ none) (hr : Register reg (f ()) = (Status.OK, reg1)) :
    RegisterLoop Register (f :: rest) i reg =
      (RegisterLoop Register rest (i + 1) reg1).after
        [.build i, .Register (f ()) Status.OK] := by
  simp [RegisterLoop, h, hr]

theorem RegisterLoop_cons_error {ρ : Type} (Register : ρ → KernelCreateInfo → Status × ρ)
    (f : BuildKernelCreateInfoFn) (rest : List BuildKernelCreateInfoFn) (i : Nat) (reg reg1 : ρ)
    (msg : String) (h : (f ()).kernel_def ≠ none)
    (hr : Register reg (f ()) = (Status.error msg, reg1)) :
    RegisterLoop Register (f :: rest) i reg =
      { status := Status.error msg
        kernel_registry := reg1
        steps := [.build i, .Register (f ()) (Status.error msg)] } := by
  simp [RegisterLoop, h, hr]

/-- The three ways an iteration of the loop can go. -/
theorem RegisterLoop_cons_cases {ρ : Type} (Register : ρ → KernelCreateInfo → Status × ρ)
    (f : BuildKernelCreateInfoFn) (reg : ρ) :
    (f ()).kernel_def = none ∨
      ((f ()).kernel_def ≠ none ∧ ∃ reg1, Register reg (f ()) = (Status.OK, reg1)) ∨
      ((f ()).kernel_def ≠ none ∧ ∃ msg reg1, Register reg (f ()) = (Status.error msg, reg1)) := by
  by_cases h : (f ()).kernel_def = none
  · exact Or.inl h
  · rcases hr : Register reg (f ()) with ⟨st, reg1⟩
    cases st with
    | OK => exact Or.inr (Or.inl ⟨h, reg1, rfl⟩)
    | error msg => exact Or.inr (Or.inr ⟨h, msg, reg1, rfl⟩)

/-- The loop over a table made of two parts: the second part is run, from
the registry the first part leaves, only when the first part returns OK. -/
theorem RegisterLoop_append {ρ : Type} (Register : ρ → KernelCreateInfo → Status × ρ)
    (pre rest : List BuildKernelCreateInfoFn) (i : Nat) (reg : ρ) :
    RegisterLoop Register (pre ++ rest) i reg =
      if (RegisterLoop Register pre i reg).status = Status.OK then
        (RegisterLoop Register rest (i + pre.length)
          (RegisterLoop Register pre i reg).kernel_registry).after
          (RegisterLoop Register pre i reg).steps
      else RegisterLoop Register pre i reg := by
  induction pre generalizing i reg with
  | nil => simp [RegisterLoop, RegistrationResult.after]
  | cons f pre ih =>
    rcases RegisterLoop_cons_cases Register f reg with h | ⟨h, reg1, hr⟩ | ⟨h, msg, reg1, hr⟩
    · rw [List.cons_append, RegisterLoop_cons_sentinel Register f _ i reg h,
        RegisterLoop_cons_sentinel Register f _ i reg h, ih]
      by_cases hs : (RegisterLoop Register pre (i + 1) reg).status = Status.OK
      · simp [RegistrationResult.after, hs, Nat.add_assoc, Nat.add_comm 1]
      · simp [RegistrationResult.after, hs]
    · rw [List.cons_append, RegisterLoop_cons_ok Register f _ i reg reg1 h hr,
        RegisterLoop_cons_ok Register f _ i reg reg1 h hr, ih]
      by_cases hs : (RegisterLoop Register pre (i + 1) reg1).status = Status.OK
      · simp [RegistrationResult.after, hs, Nat.add_assoc, Nat.add_comm 1]
      · simp [RegistrationResult.after, hs]
    · rw [List.cons_append, RegisterLoop_cons_error Register f _ i reg reg1 msg h hr,
        RegisterLoop_cons_error Register f _ i reg reg1 msg h hr]
      simp

/-- The loop returns OK exactly when every call of `Register` it made
returned OK. -/
theorem RegisterLoop_status_iff {ρ : Type} (Register : ρ → KernelCreateInfo → Status × ρ)
    (table : List BuildKernelCreateInfoFn) (i : Nat) (reg : ρ) :
    (RegisterLoop Register table i reg).status = Status.OK ↔
      ∀ info st, RegistrationStep.Register info st ∈ (RegisterLoop Register table i reg).steps →
        st = Status.OK := by
  induction table generalizing i reg with
  | nil => simp [RegisterLoop]
  | cons f rest ih =>
    rcases RegisterLoop_cons_cases Register f reg with h | ⟨h, reg1, hr⟩ | ⟨h, msg, reg1, hr⟩
    · rw [RegisterLoop_cons_sentinel Register f _ i reg h]
      simpa [RegistrationResult.after] using ih (i + 1) reg
    · rw [RegisterLoop_cons_ok Register f _ i reg reg1 h hr]
      have := ih (i + 1) reg1
      simp only [RegistrationResult.after, List.mem_append, List.mem_cons, List.mem_singleton,
        List.not_mem_nil, or_false, reduceCtorEq, false_or, RegistrationStep.Register.injEq]
      rw [this]
      constructor
      · rintro h1 info st (⟨_, rfl⟩ | h2)
        · rfl
        · exact h1 info st h2
      · intro h1 info st h2
        exact h1 info st (Or.inr h2)
    · rw [RegisterLoop_cons_error Register f _ i reg reg1 msg h hr]
      simp only [List.mem_cons, List.mem_singleton, reduceCtorEq, false_or,
        RegistrationStep.Register.injEq, List.not_mem_nil, or_false, false_iff, not_forall]
      exact ⟨f (), Status.error msg, ⟨rfl, rfl⟩, by simp⟩

/-- The loop never passes a sentinel to `Register`. -/
theorem RegisterLoop_registered_ne_none {ρ : Type}
    (Register : ρ → KernelCreateInfo → Status × ρ) (table : List BuildKernelCreateInfoFn)
    (i : Nat) (reg : ρ) :
    ∀ info st, RegistrationStep.Register info st ∈ (RegisterLoop Register table i reg).steps →
      info.kernel_def ≠ none := by
  induction table generalizing i reg with
  | nil => simp [RegisterLoop]
  | cons f rest ih =>
    rcases RegisterLoop_cons_cases Register f reg with h | ⟨h, reg1, hr⟩ | ⟨h, msg, reg1, hr⟩
    · rw [RegisterLoop_cons_sentinel Register f _ i reg h]
      simpa [RegistrationResult.after] using ih (i + 1) reg
    · rw [RegisterLoop_cons_ok Register f _ i reg reg1 h hr]
      intro info st hmem
      simp only [RegistrationResult.after, List.mem_append, List.mem_cons, List.mem_singleton,
        List.not_mem_nil, or_false, reduceCtorEq, false_or,
        RegistrationStep.Register.injEq] at hmem
      rcases hmem with ⟨rfl, _⟩ | h2
      · exact h
      · exact ih (i + 1) reg1 info st h2
    · rw [RegisterLoop_cons_error Register f _ i reg reg1 msg h hr]
      intro info st hmem
      simp only [List.mem_cons, List.mem_singleton, reduceCtorEq, false_or,
        RegistrationStep.Register.injEq, List.not_mem_nil, or_false] at hmem
      rw [hmem.1]
      exact h

theorem enabled_entries_cons_sentinel (f : BuildKernelCreateInfoFn)
    (rest : List BuildKernelCreateInfoFn) (h : (f ()).kernel_def = none) :
    enabled_entries (f :: rest) = enabled_entries rest := by
  simp [enabled_entries, h]

theorem enabled_entries_cons (f : BuildKernelCreateInfoFn)
    (rest : List BuildKernelCreateInfoFn) (h : (f ()).kernel_def ≠ none) :
    enabled_entries (f :: rest) = f () :: enabled_entries rest := by
  have : (f ()).kernel_def.isSome = true := by
    cases hk : (f ()).kernel_def with
    | none => exact absurd hk h
    | some _ => rfl
  simp [enabled_entries, this]

/-- The infos the loop passes to `Register` are the first non-sentinel
entries of the table, in table order; all of them when it returns OK, and then
every entry of the table has been called, in order. -/
theorem RegisterLoop_registered {ρ : Type} (Register : ρ → KernelCreateInfo → Status × ρ)
    (table : List BuildKernelCreateInfoFn) (i : Nat) (reg : ρ) :
    (∃ rest, (RegisterLoop Register table i reg).steps.filterMap RegistrationStep.registered ++
        rest = enabled_entries table) ∧
      ((RegisterLoop Register table i reg).status = Status.OK →
        (RegisterLoop Register table i reg).steps.filterMap RegistrationStep.registered =
          enabled_entries table ∧
        (RegisterLoop Register table i reg).steps.filterMap RegistrationStep.built =
          List.range' i table.length) := by
  induction table generalizing i reg with
  | nil => simp [RegisterLoop, enabled_entries]
  | cons f rest ih =>
    rcases RegisterLoop_cons_cases Register f reg with h | ⟨h, reg1, hr⟩ | ⟨h, msg, reg1, hr⟩
    · rw [RegisterLoop_cons_sentinel Register f _ i reg h, enabled_entries_cons_sentinel f rest h]
      obtain ⟨⟨tl, h1⟩, h2⟩ := ih (i + 1) reg
      refine ⟨⟨tl, by simpa [RegistrationResult.after, RegistrationStep.registered] using h1⟩, ?_⟩
      intro hs
      obtain ⟨h3, h4⟩ := h2 (by simpa [RegistrationResult.after] using hs)
      simp [RegistrationResult.after, RegistrationStep.registered, RegistrationStep.built, h3, h4,
        List.range'_succ]
    · rw [RegisterLoop_cons_ok Register f _ i reg reg1 h hr, enabled_entries_cons f rest h]
      obtain ⟨⟨tl, h1⟩, h2⟩ := ih (i + 1) reg1
      refine ⟨⟨tl, by simpa [RegistrationResult.after, RegistrationStep.registered] using h1⟩, ?_⟩
      intro hs
      obtain ⟨h3, h4⟩ := h2 (by simpa [RegistrationResult.after] using hs)
      simp [RegistrationResult.after, RegistrationStep.registered, RegistrationStep.built, h3, h4,
        List.range'_succ]
    · rw [RegisterLoop_cons_error Register f _ i reg reg1 msg h hr, enabled_entries_cons f rest h]
      exact ⟨⟨enabled_entries rest, by simp [RegistrationStep.registered]⟩, by simp⟩

theorem KernelRegistry.TryFindKernel_eq_none_iff (self : KernelRegistry) (key : KernelDef) :
    self.TryFindKernel key = none ↔ ∀ info ∈ self.entries, info.kernel_def ≠ some key := by
  simp [KernelRegistry.TryFindKernel, List.find?_eq_none]

theorem KernelRegistry.Register_of_new (self : KernelRegistry) (info : KernelCreateInfo)
    (key : KernelDef) (hkey : info.kernel_def = some key) (hnew : self.TryFindKernel key = none) :
    self.Register info = (Status.OK, { entries := self.entries ++ [info] }) := by
  simp [KernelRegistry.Register, hkey, hnew]

/-- A failed registration leaves the modelled registry as it was. -/
theorem KernelRegistry.Register_of_error (self : KernelRegistry) (info : KernelCreateInfo)
    (h : (self.Register info).1 ≠ Status.OK) : (self.Register info).2 = self := by
  unfold KernelRegistry.Register at h ⊢
  cases hk : info.kernel_def with
  | none => rfl
  | some key =>
    cases hf : self.TryFindKernel key with
    | none => simp [hk, hf] at h
    | some _ => simp [hf]

/-- With the modelled registry, a table whose keys are pairwise distinct and
new to the registry is registered in full: the loop returns OK and the
registry gains the non-sentinel entries, in table order. -/
theorem RegisterLoop_KernelRegistry (table : List BuildKernelCreateInfoFn) (i : Nat)
    (reg : KernelRegistry)
    (hnodup : ((enabled_entries table).map fun info => info.kernel_def).Nodup)
    (hnew : ∀ info ∈ enabled_entries table, ∀ key, info.kernel_def = some key →
      reg.TryFindKernel key = none) :
    (RegisterLoop KernelRegistry.Register table i reg).status = Status.OK ∧
      (RegisterLoop KernelRegistry.Register table i reg).kernel_registry.entries =
        reg.entries ++ enabled_entries table := by
  induction table generalizing i reg with
  | nil => simp [RegisterLoop, enabled_entries]
  | cons f rest ih =>
    by_cases h : (f ()).kernel_def = none
    · rw [RegisterLoop_cons_sentinel KernelRegistry.Register f _ i reg h]
      rw [enabled_entries_cons_sentinel f rest h] at hnodup hnew ⊢
      simpa [RegistrationResult.after] using ih (i + 1) reg hnodup hnew
    · rw [enabled_entries_cons f rest h] at hnodup hnew ⊢
      obtain ⟨key, hkey⟩ := Option.ne_none_iff_exists'.1 h
      have hreg := KernelRegistry.Register_of_new reg (f ()) key hkey
        (hnew (f ()) (List.mem_cons_self _ _) key hkey)
      rw [RegisterLoop_cons_ok KernelRegistry.Register f _ i reg _ h hreg]
      rw [List.map_cons, List.nodup_cons] at hnodup
      have hnew1 : ∀ info ∈ enabled_entries rest, ∀ key1, info.kernel_def = some key1 →
          KernelRegistry.TryFindKernel { entries := reg.entries ++ [f ()] } key1 = none := by
        intro info hinfo key1 hkey1
        rw [KernelRegistry.TryFindKernel_eq_none_iff]
        intro e he
        rcases List.mem_append.1 he with he | he
        · exact (KernelRegistry.TryFindKernel_eq_none_iff reg key1).1
            (hnew info (List.mem_cons_of_mem _ hinfo) key1 hkey1) e he
        · rw [List.mem_singleton] at he
          subst he
          intro heq
          apply hnodup.1
          rw [heq, ← hkey1]
          exact List.mem_map.2 ⟨info, hinfo, rfl⟩
      obtain ⟨h1, h2⟩ := ih (i + 1) { entries := reg.entries ++ [f ()] } hnodup.2 hnew1
      simp [RegistrationResult.after, h1, h2]

/-- C11, as it holds: the loop never passes a sentinel entry to `Register`,
and when every call of `Register` returns OK it calls `Register` once per
non-sentinel entry, in table order (N calls for N such entries), after
calling every entry of the table. With a registry that rejects a key it holds
already (and nothing else), the calls all return OK when the keys of the N
entries are pairwise distinct and new to the registry; the registry then gains
exactly these N entries, each with a key, and the lookup of a key finds an
entry exactly when the registry held the key before or a non-sentinel entry
carries it: a key that only a disabled entry would carry is not found. -/
theorem disabled_entries_filtered (function_table : List BuildKernelCreateInfoFn) :
    (∀ (ρ : Type) (Register : ρ → KernelCreateInfo → Status × ρ) (kernel_registry : ρ),
      (∀ info st, RegistrationStep.Register info st ∈
          (RegisterCudaContribKernels Register function_table kernel_registry).steps →
        info.kernel_def ≠ none) ∧
      ((∀ info st, RegistrationStep.Register info st ∈
          (RegisterCudaContribKernels Register function_table kernel_registry).steps →
          st = Status.OK) →
        (RegisterCudaContribKernels Register function_table kernel_registry).status =
          Status.OK ∧
        (RegisterCudaContribKernels Register function_table
          kernel_registry).steps.filterMap RegistrationStep.registered =
          enabled_entries function_table ∧
        (RegisterCudaContribKernels Register function_table
          kernel_registry).steps.filterMap RegistrationStep.built =
          List.range function_table.length)) ∧
    (∀ kernel_registry : KernelRegistry,
      ((enabled_entries function_table).map fun info => info.kernel_def).Nodup →
      (∀ info ∈ enabled_entries function_table, ∀ key, info.kernel_def = some key →
        kernel_registry.TryFindKernel key = none) →
      (RegisterCudaContribKernels KernelRegistry.Register function_table
        kernel_registry).status = Status.OK ∧
      ((RegisterCudaContribKernels KernelRegistry.Register function_table
        kernel_registry).steps.filterMap RegistrationStep.registered).length =
        (enabled_entries function_table).length ∧
      (RegisterCudaContribKernels KernelRegistry.Register function_table
        kernel_registry).kernel_registry.entries =
        kernel_registry.entries ++ enabled_entries function_table ∧
      (∀ info ∈ enabled_entries function_table, info.kernel_def ≠ none) ∧
      ∀ key, (RegisterCudaContribKernels KernelRegistry.Register function_table
          kernel_registry).kernel_registry.TryFindKernel key = none ↔
        kernel_registry.TryFindKernel key = none ∧
          ∀ info ∈ enabled_entries function_table, info.kernel_def ≠ some key) := by
  constructor
  · intro ρ Register kernel_registry
    refine ⟨RegisterLoop_registered_ne_none Register function_table 0 kernel_registry, ?_⟩
    intro hall
    have hs := (RegisterLoop_status_iff Register function_table 0 kernel_registry).2 hall
    obtain ⟨h1, h2⟩ := (RegisterLoop_registered Register function_table 0 kernel_registry).2 hs
    exact ⟨hs, h1, by rw [List.range_eq_range']; exact h2⟩
  · intro kernel_registry hnodup hnew
    obtain ⟨h1, h2⟩ := RegisterLoop_KernelRegistry function_table 0 kernel_registry hnodup hnew
    have h3 := ((RegisterLoop_registered KernelRegistry.Register function_table 0
      kernel_registry).2 h1).1
    refine ⟨h1, ?_, h2, ?_, ?_⟩
    · unfold RegisterCudaContribKernels
      rw [h3]
    · intro info hinfo
      have := (List.mem_filter.1 hinfo).2
      intro hnone
      rw [hnone] at this
      cases this
    · intro key
      unfold RegisterCudaContribKernels
      rw [KernelRegistry.TryFindKernel_eq_none_iff, KernelRegistry.TryFindKernel_eq_none_iff, h2]
      simp only [List.mem_append]
      constructor
      · intro h
        exact ⟨fun info hi => h info (Or.inl hi), fun info hi => h info (Or.inr hi)⟩
      · rintro ⟨ha, hb⟩ info (hi | hi)
        · exact ha info hi
        · exact hb info hi

/-- Witness of C11: the table that starts with the sentinel, on an empty
registry: three entries are registered and the key of the omitted `FusedConv`
kernel is not found. -/
theorem disabled_entries_filtered_witness :
    (RegisterCudaContribKernels KernelRegistry.Register Example.function_table
        { entries := [] }).status = Status.OK ∧
      ((RegisterCudaContribKernels KernelRegistry.Register Example.function_table
        { entries := [] }).steps.filterMap RegistrationStep.registered).length = 3 ∧
      (RegisterCudaContribKernels KernelRegistry.Register Example.function_table
        { entries := [] }).kernel_registry.entries.length = 3 ∧
      (RegisterCudaContribKernels KernelRegistry.Register Example.function_table
        { entries := [] }).kernel_registry.TryFindKernel Example.FusedConv_key = none :=
  match (disabled_entries_filtered Example.function_table).2 { entries := [] }
      (by decide) (by decide) with
  | ⟨h1, h2, h3, _, h5⟩ =>
    ⟨h1, h2.trans (by decide), (congrArg List.length h3).trans (by decide),
      (h5 Example.FusedConv_key).2 ⟨by decide, by decide⟩⟩

/-- C11 does not hold of every table: with two entries of the same key
followed by a third entry (three non-sentinel entries), the second call of
`Register` fails on a registry that rejects a duplicate key; `Register` has
then been called twice, not three times, the registry holds one entry, and
the function returns the error. -/
theorem C11_duplicate_key_stops_registration :
    (enabled_entries Example.function_table_duplicate).length = 3 ∧
      ((RegisterCudaContribKernels KernelRegistry.Register Example.function_table_duplicate
        { entries := [] }).steps.filterMap RegistrationStep.registered).length = 2 ∧
      (RegisterCudaContribKernels KernelRegistry.Register Example.function_table_duplicate
        { entries := [] }).kernel_registry.entries.length = 1 ∧
      (RegisterCudaContribKernels KernelRegistry.Register Example.function_table_duplicate
        { entries := [] }).status = Status.error "Failed to add kernel for FastGelu" := by
  decide

/-- C12: `RegisterCudaContribKernels` returns OK if and only if every call of
`Register` it makes returns OK. When the entries before a non-sentinel entry
are registered with OK and `Register` fails on that entry, the function
returns exactly the status of that call; its last steps are the call of that
entry and the failed `Register`, so no later entry is called or registered;
and the registry is the one the failed call left: the one that holds what the
earlier entries registered, when a failed `Register` leaves the registry as
it was. A result that is not OK always arises in this way. -/
theorem registration_failure_propagates {ρ : Type}
    (Register : ρ → KernelCreateInfo → Status × ρ)
    (function_table : List BuildKernelCreateInfoFn) (kernel_registry : ρ) :
    ((RegisterCudaContribKernels Register function_table kernel_registry).status = Status.OK ↔
      ∀ info st, RegistrationStep.Register info st ∈
        (RegisterCudaContribKernels Register function_table kernel_registry).steps →
        st = Status.OK) ∧
    (∀ (pre post : List BuildKernelCreateInfoFn) (f : BuildKernelCreateInfoFn)
      (msg : String) (reg : ρ),
      function_table = pre ++ f :: post →
      (RegisterCudaContribKernels Register pre kernel_registry).status = Status.OK →
      (f ()).kernel_def ≠ none →
      Register (RegisterCudaContribKernels Register pre kernel_registry).kernel_registry (f ()) =
        (Status.error msg, reg) →
      (RegisterCudaContribKernels Register function_table kernel_registry).status =
        Status.error msg ∧
      (RegisterCudaContribKernels Register function_table kernel_registry).steps =
        (RegisterCudaContribKernels Register pre kernel_registry).steps ++
          [.build pre.length, .Register (f ()) (Status.error msg)] ∧
      (RegisterCudaContribKernels Register function_table kernel_registry).kernel_registry =
        reg ∧
      ((∀ r info, (Register r info).1 ≠ Status.OK → (Register r info).2 = r) →
        (RegisterCudaContribKernels Register function_table kernel_registry).kernel_registry =
          (RegisterCudaContribKernels Register pre kernel_registry).kernel_registry)) ∧
    ((RegisterCudaContribKernels Register function_table kernel_registry).status ≠ Status.OK →
      ∃ (pre post : List BuildKernelCreateInfoFn) (f : BuildKernelCreateInfoFn)
        (msg : String) (reg : ρ),
        function_table = pre ++ f :: post ∧
        (RegisterCudaContribKernels Register pre kernel_registry).status = Status.OK ∧
        (f ()).kernel_def ≠ none ∧
        Register (RegisterCudaContribKernels Register pre kernel_registry).kernel_registry
          (f ()) = (Status.error msg, reg)) := by
  refine ⟨RegisterLoop_status_iff Register function_table 0 kernel_registry, ?_, ?_⟩
  · intro pre post f msg reg htable hpre hf hfail
    have hrun : RegisterCudaContribKernels Register function_table kernel_registry =
        RegistrationResult.after (RegisterCudaContribKernels Register pre kernel_registry).steps
          { status := Status.error msg
            kernel_registry := reg
            steps := [.build pre.length, .Register (f ()) (Status.error msg)] } := by
      unfold RegisterCudaContribKernels at hpre hfail ⊢
      rw [htable, RegisterLoop_append, if_pos hpre,
        RegisterLoop_cons_error Register f post _ _ reg msg hf hfail, Nat.zero_add]
    refine ⟨by rw [hrun]; rfl, by rw [hrun]; rfl, by rw [hrun]; rfl, ?_⟩
    intro hkeep
    rw [hrun]
    have := hkeep (RegisterCudaContribKernels Register pre kernel_registry).kernel_registry (f ())
    rw [hfail] at this
    exact this (by simp)
  · unfold RegisterCudaContribKernels
    generalize 0 = i
    induction function_table generalizing i kernel_registry with
    | nil => simp [RegisterLoop]
    | cons f rest ih =>
      intro hs
      rcases RegisterLoop_cons_cases Register f kernel_registry with
        h | ⟨h, reg1, hr⟩ | ⟨h, msg, reg1, hr⟩
      · rw [RegisterLoop_cons_sentinel Register f _ i kernel_registry h] at hs
        obtain ⟨pre, post, g, msg, reg, h1, h2, h3, h4⟩ := ih kernel_registry (i + 1) hs
        refine ⟨f :: pre, post, g, msg, reg, by rw [h1, List.cons_append], ?_, h3, ?_⟩
        · rw [RegisterLoop_cons_sentinel Register f _ i kernel_registry h]
          exact h2
        · rw [RegisterLoop_cons_sentinel Register f _ i kernel_registry h]
          exact h4
      · rw [RegisterLoop_cons_ok Register f _ i kernel_registry reg1 h hr] at hs
        obtain ⟨pre, post, g, msg, reg, h1, h2, h3, h4⟩ := ih reg1 (i + 1) hs
        refine ⟨f :: pre, post, g, msg, reg, by rw [h1, List.cons_append], ?_, h3, ?_⟩
        · rw [RegisterLoop_cons_ok Register f _ i kernel_registry reg1 h hr]
          exact h2
        · rw [RegisterLoop_cons_ok Register f _ i kernel_registry reg1 h hr]
          exact h4
      · exact ⟨[], rest, f, msg, reg1, rfl, rfl, h, hr⟩

/-- Witness of C12: in the table with a duplicated entry the third entry
fails; the function returns that error, the entry after it is never called,
and the registry still holds the entry registered before. -/
theorem registration_failure_propagates_witness :
    (RegisterCudaContribKernels KernelRegistry.Register Example.function_table_duplicate
        { entries := [] }).status = Status.error "Failed to add kernel for FastGelu" ∧
      (RegisterCudaContribKernels KernelRegistry.Register Example.function_table_duplicate
        { entries := [] }).steps.filterMap RegistrationStep.built = [0, 1, 2] ∧
      (RegisterCudaContribKernels KernelRegistry.Register Example.function_table_duplicate
        { entries := [] }).kernel_registry =
        { entries := [Example.BuildKernelCreateInfo "com.microsoft" "float" "FastGelu" ()] } :=
  match (registration_failure_propagates KernelRegistry.Register
      Example.function_table_duplicate { entries := [] }).2.1
      [BuildKernelCreateInfo_void, Example.BuildKernelCreateInfo "com.microsoft" "float" "FastGelu"]
      [Example.BuildKernelCreateInfo "com.microsoft" "float" "Gelu"]
      (Example.BuildKernelCreateInfo "com.microsoft" "float" "FastGelu")
      "Failed to add kernel for FastGelu"
      { entries := [Example.BuildKernelCreateInfo "com.microsoft" "float" "FastGelu" ()] }
      rfl (by decide) (by decide) (by decide) with
  | ⟨h1, h2, _, h4⟩ =>
    ⟨h1, (congrArg (List.filterMap RegistrationStep.built) h2).trans (by decide),
      (h4 fun r info h => KernelRegistry.Register_of_error r info h).trans (by decide)⟩

/-! ## C13-C16: the fence operations -/

/-- C13: `CanRelease` returns true if and only if the query of the read event
and the query of the write event both report success; it returns false,
throwing nothing, when the read event reports not-ready, and when the read
event reports success and the write event reports not-ready; it throws when
a polled event reports a status other than success and not-ready; and every
runtime call it makes is a query of one of the two events or the reading of
the last error, never an event-synchronize. The write event is polled only
after the read event reported success. -/
theorem can_release_polls (self : CUDAFence) (runtime : CudaRuntime) :
    ((self.CanRelease runtime).result = some true ↔
      self.read_poll runtime = cudaError_t.cudaSuccess ∧
        self.write_poll runtime = cudaError_t.cudaSuccess) ∧
    (self.read_poll runtime = cudaError_t.cudaErrorNotReady →
      (self.CanRelease runtime).result = some false ∧
      (self.CanRelease runtime).calls =
        [.cudaEventQuery self.read_event_, .cudaGetLastError]) ∧
    (self.read_poll runtime = cudaError_t.cudaSuccess →
      self.write_poll runtime = cudaError_t.cudaErrorNotReady →
      (self.CanRelease runtime).result = some false ∧
      (self.CanRelease runtime).calls =
        [.cudaEventQuery self.read_event_, .cudaEventQuery self.write_event_,
          .cudaGetLastError]) ∧
    (self.read_poll runtime ≠ cudaError_t.cudaSuccess →
      self.read_poll runtime ≠ cudaError_t.cudaErrorNotReady →
      (self.CanRelease runtime).result = none ∧
      (self.CanRelease runtime).calls = [.cudaEventQuery self.read_event_]) ∧
    (self.read_poll runtime = cudaError_t.cudaSuccess →
      self.write_poll runtime ≠ cudaError_t.cudaSuccess →
      self.write_poll runtime ≠ cudaError_t.cudaErrorNotReady →
      (self.CanRelease runtime).result = none ∧
      (self.CanRelease runtime).calls =
        [.cudaEventQuery self.read_event_, .cudaEventQuery self.write_event_]) ∧
    (self.read_poll runtime = cudaError_t.cudaSuccess →
      self.write_poll runtime = cudaError_t.cudaSuccess →
      (self.CanRelease runtime).calls =
        [.cudaEventQuery self.read_event_, .cudaEventQuery self.write_event_]) ∧
    (∀ op ∈ (self.CanRelease runtime).calls,
      op.is_query = true ∧ op.is_synchronize = false ∧
      (op = .cudaEventQuery self.read_event_ ∨ op = .cudaEventQuery self.write_event_ ∨
        op = .cudaGetLastError)) := by
  unfold CUDAFence.read_poll CUDAFence.write_poll CUDAFence.CanRelease
  by_cases h1 : runtime.respond [] (.cudaEventQuery self.read_event_) =
      cudaError_t.cudaErrorNotReady
  · simp [h1, CudaOp.is_query, CudaOp.is_synchronize]
  · by_cases h2 : runtime.respond [] (.cudaEventQuery self.read_event_) =
        cudaError_t.cudaSuccess
    · by_cases h3 : runtime.respond [.cudaEventQuery self.read_event_]
          (.cudaEventQuery self.write_event_) = cudaError_t.cudaErrorNotReady
      · simp [h2, h3, CudaOp.is_query, CudaOp.is_synchronize]
      · by_cases h4 : runtime.respond [.cudaEventQuery self.read_event_]
            (.cudaEventQuery self.write_event_) = cudaError_t.cudaSuccess
        · simp [h2, h4, CudaOp.is_query, CudaOp.is_synchronize]
        · simp [h2, h3, h4, CudaOp.is_query, CudaOp.is_synchronize]
    · simp [h1, h2, CudaOp.is_query, CudaOp.is_synchronize]

/-- Witness of C13: the read event has completed and the write event is not
ready: `CanRelease` returns false after the two queries. -/
theorem can_release_polls_witness :
    (Example.fence.CanRelease
        (Example.runtime_with 2 cudaError_t.cudaErrorNotReady)).result = some false ∧
      (Example.fence.CanRelease
        (Example.runtime_with 2 cudaError_t.cudaErrorNotReady)).calls =
        [.cudaEventQuery 1, .cudaEventQuery 2, .cudaGetLastError] :=
  (can_release_polls Example.fence
    (Example.runtime_with 2 cudaError_t.cudaErrorNotReady)).2.2.1 (by decide) (by decide)

/-- C14: `BeforeUsingAsInput` makes exactly one runtime call. For the CUDA
provider it is a stream-wait on the write event, enqueued on the stream of
the given queue, and not a host-blocking synchronize; for any other provider
it is a host-blocking synchronize on the write event, which enqueues nothing
on a stream. In both cases the one call is on the write event: the read event
is not waited on or touched. The call returns normally exactly when the
runtime reports success for it. -/
theorem before_using_as_input_ops (self : CUDAFence) (runtime : CudaRuntime)
    (provider_type : String) (async_queue_id : Int) :
    (provider_type = kCudaExecutionProvider →
      (self.BeforeUsingAsInput runtime provider_type async_queue_id).calls =
        [.cudaStreamWaitEvent (self.GetStream async_queue_id) self.write_event_ 0]) ∧
    (provider_type ≠ kCudaExecutionProvider →
      (self.BeforeUsingAsInput runtime provider_type async_queue_id).calls =
        [.cudaEventSynchronize self.write_event_]) ∧
    (self.BeforeUsingAsInput runtime provider_type async_queue_id).calls.length = 1 ∧
    (∀ op ∈ (self.BeforeUsingAsInput runtime provider_type async_queue_id).calls,
      op.event = some self.write_event_ ∧
      (self.read_event_ ≠ self.write_event_ → op.event ≠ some self.read_event_) ∧
      (provider_type = kCudaExecutionProvider → op.is_synchronize = false) ∧
      (provider_type ≠ kCudaExecutionProvider → op.stream = none)) ∧
    ((self.BeforeUsingAsInput runtime provider_type async_queue_id).result = some () ↔
      ∀ op ∈ (self.BeforeUsingAsInput runtime provider_type async_queue_id).calls,
        runtime.respond [] op = cudaError_t.cudaSuccess) := by
  unfold CUDAFence.BeforeUsingAsInput
  by_cases hp : provider_type = kCudaExecutionProvider
  · by_cases hr : runtime.respond []
        (.cudaStreamWaitEvent (self.GetStream async_queue_id) self.write_event_ 0) =
        cudaError_t.cudaSuccess
    · simp [hp, hr, CUDA_CALL_THROW, CudaOp.event, CudaOp.is_synchronize, CudaOp.stream]
      exact fun h1 h2 => h1 h2.symm
    · simp [hp, hr, CUDA_CALL_THROW, CudaOp.event, CudaOp.is_synchronize, CudaOp.stream]
      exact fun h1 h2 => h1 h2.symm
  · by_cases hr : runtime.respond [] (.cudaEventSynchronize self.write_event_) =
        cudaError_t.cudaSuccess
    · simp [hp, hr, CUDA_CALL_THROW, CudaOp.event, CudaOp.is_synchronize, CudaOp.stream]
      exact fun h1 h2 => h1 h2.symm
    · simp [hp, hr, CUDA_CALL_THROW, CudaOp.event, CudaOp.is_synchronize, CudaOp.stream]
      exact fun h1 h2 => h1 h2.symm

/-- Witness of C14: a consumer of the CUDA provider on queue 3 enqueues one
wait on the write event on stream 13; a consumer of the CPU provider makes
one synchronize on the write event. -/
theorem before_using_as_input_ops_witness :
    (Example.fence.BeforeUsingAsInput Example.runtime_success "CUDAExecutionProvider" 3).calls =
        [.cudaStreamWaitEvent 13 2 0] ∧
      (Example.fence.BeforeUsingAsInput Example.runtime_success "CPUExecutionProvider" 3).calls =
        [.cudaEventSynchronize 2] :=
  ⟨(before_using_as_input_ops Example.fence Example.runtime_success "CUDAExecutionProvider"
      3).1 (by decide),
    (before_using_as_input_ops Example.fence Example.runtime_success "CPUExecutionProvider"
      3).2.1 (by decide)⟩

/-- C15 does not hold for every run: when the runtime reports an error for
the first of the two calls, `CUDA_CALL_THROW` throws and the second call is
never made. For the CUDA provider only the wait on the read event is issued,
for another provider only the synchronize on the read event; the write event
is not waited on. -/
theorem C15_first_call_fails :
    (Example.fence.BeforeUsingAsOutput (Example.runtime_with 1 (cudaError_t.other 700))
        "CUDAExecutionProvider" 3).calls = [.cudaStreamWaitEvent 13 1 0] ∧
      (Example.fence.BeforeUsingAsOutput (Example.runtime_with 1 (cudaError_t.other 700))
        "CUDAExecutionProvider" 3).result = none ∧
      (Example.fence.BeforeUsingAsOutput (Example.runtime_with 1 (cudaError_t.other 700))
        "CPUExecutionProvider" 3).calls = [.cudaEventSynchronize 1] ∧
      (Example.fence.BeforeUsingAsOutput (Example.runtime_with 1 (cudaError_t.other 700))
        "CPUExecutionProvider" 3).result = none := by
  decide

/-- C15, as it holds: for the CUDA provider `BeforeUsingAsOutput` issues a
wait on the read event on the stream of the given queue and, when the runtime
reports success for it, a wait on the write event on the same stream, and
nothing else; it never makes a host-blocking synchronize. For any other
provider it makes a synchronize on the read event and, when the runtime
reports success for it, a synchronize on the write event, and nothing else;
it enqueues nothing on a stream. When the first call does not report success
the operation throws after that one call. -/
theorem before_using_as_output_ops (self : CUDAFence) (runtime : CudaRuntime)
    (provider_type : String) (queue_id : Int) :
    (provider_type = kCudaExecutionProvider →
      (runtime.respond [] (.cudaStreamWaitEvent (self.GetStream queue_id) self.read_event_ 0) =
          cudaError_t.cudaSuccess →
        (self.BeforeUsingAsOutput runtime provider_type queue_id).calls =
          [.cudaStreamWaitEvent (self.GetStream queue_id) self.read_event_ 0,
            .cudaStreamWaitEvent (self.GetStream queue_id) self.write_event_ 0]) ∧
      (runtime.respond [] (.cudaStreamWaitEvent (self.GetStream queue_id) self.read_event_ 0) ≠
          cudaError_t.cudaSuccess →
        (self.BeforeUsingAsOutput runtime provider_type queue_id).calls =
          [.cudaStreamWaitEvent (self.GetStream queue_id) self.read_event_ 0] ∧
        (self.BeforeUsingAsOutput runtime provider_type queue_id).result = none) ∧
      ∀ op ∈ (self.BeforeUsingAsOutput runtime provider_type queue_id).calls,
        op.is_synchronize = false ∧ op.stream = some (self.GetStream queue_id)) ∧
    (provider_type ≠ kCudaExecutionProvider →
      (runtime.respond [] (.cudaEventSynchronize self.read_event_) = cudaError_t.cudaSuccess →
        (self.BeforeUsingAsOutput runtime provider_type queue_id).calls =
          [.cudaEventSynchronize self.read_event_, .cudaEventSynchronize self.write_event_]) ∧
      (runtime.respond [] (.cudaEventSynchronize self.read_event_) ≠ cudaError_t.cudaSuccess →
        (self.BeforeUsingAsOutput runtime provider_type queue_id).calls =
          [.cudaEventSynchronize self.read_event_] ∧
        (self.BeforeUsingAsOutput runtime provider_type queue_id).result = none) ∧
      ∀ op ∈ (self.BeforeUsingAsOutput runtime provider_type queue_id).calls,
        op.is_synchronize = true ∧ op.stream = none) ∧
    ((self.BeforeUsingAsOutput runtime provider_type queue_id).result = some () →
      (self.BeforeUsingAsOutput runtime provider_type queue_id).calls.length = 2) := by
  unfold CUDAFence.BeforeUsingAsOutput
  by_cases hp : provider_type = kCudaExecutionProvider
  · by_cases hr : runtime.respond []
        (.cudaStreamWaitEvent (self.GetStream queue_id) self.read_event_ 0) =
        cudaError_t.cudaSuccess
    · by_cases hw : runtime.respond
          [.cudaStreamWaitEvent (self.GetStream queue_id) self.read_event_ 0]
          (.cudaStreamWaitEvent (self.GetStream queue_id) self.write_event_ 0) =
          cudaError_t.cudaSuccess
      · simp [hp, hr, hw, CUDA_CALL_THROW, CudaOp.is_synchronize, CudaOp.stream]
      · simp [hp, hr, hw, CUDA_CALL_THROW, CudaOp.is_synchronize, CudaOp.stream]
    · simp [hp, hr, CUDA_CALL_THROW, CudaOp.is_synchronize, CudaOp.stream]
  · by_cases hr : runtime.respond [] (.cudaEventSynchronize self.read_event_) =
        cudaError_t.cudaSuccess
    · by_cases hw : runtime.respond [.cudaEventSynchronize self.read_event_]
          (.cudaEventSynchronize self.write_event_) = cudaError_t.cudaSuccess
      · simp [hp, hr, hw, CUDA_CALL_THROW, CudaOp.is_synchronize, CudaOp.stream]
      · simp [hp, hr, hw, CUDA_CALL_THROW, CudaOp.is_synchronize, CudaOp.stream]
    · simp [hp, hr, CUDA_CALL_THROW, CudaOp.is_synchronize, CudaOp.stream]

/-- Witness of the amended C15: with a runtime that reports success, a
producer of the CUDA provider on queue 3 enqueues both waits on stream 13 and
a producer of the CPU provider synchronizes on both events. -/
theorem before_using_as_output_ops_witness :
    (Example.fence.BeforeUsingAsOutput Example.runtime_success "CUDAExecutionProvider" 3).calls =
        [.cudaStreamWaitEvent 13 1 0, .cudaStreamWaitEvent 13 2 0] ∧
      (Example.fence.BeforeUsingAsOutput Example.runtime_success "CPUExecutionProvider" 3).calls =
        [.cudaEventSynchronize 1, .cudaEventSynchronize 2] :=
  ⟨((before_using_as_output_ops Example.fence Example.runtime_success "CUDAExecutionProvider"
      3).1 (by decide)).1 (by decide),
    ((before_using_as_output_ops Example.fence Example.runtime_success "CPUExecutionProvider"
      3).2.1 (by decide)).1 (by decide)⟩

/-- C16: `AfterUsedAsInput` makes one runtime call, the record of the read
event on the stream of the given queue, and `AfterUsedAsOutput` makes one
runtime call, the record of the write event on the stream of the given queue.
The only event a call is about is the recorded one, so the other event is
left untouched, and no call is a wait, a synchronize or a query. -/
theorem after_used_records (self : CUDAFence) (runtime : CudaRuntime) (queue_id : Int) :
    (self.AfterUsedAsInput runtime queue_id).calls =
      [.cudaEventRecord self.read_event_ (self.GetStream queue_id)] ∧
    (self.AfterUsedAsOutput runtime queue_id).calls =
      [.cudaEventRecord self.write_event_ (self.GetStream queue_id)] ∧
    (∀ op ∈ (self.AfterUsedAsInput runtime queue_id).calls,
      op.event = some self.read_event_ ∧
      (self.read_event_ ≠ self.write_event_ → op.event ≠ some self.write_event_) ∧
      op.is_query = false ∧ op.is_synchronize = false ∧
      ∀ stream event flags, op ≠ .cudaStreamWaitEvent stream event flags) ∧
    (∀ op ∈ (self.AfterUsedAsOutput runtime queue_id).calls,
      op.event = some self.write_event_ ∧
      (self.read_event_ ≠ self.write_event_ → op.event ≠ some self.read_event_) ∧
      op.is_query = false ∧ op.is_synchronize = false ∧
      ∀ stream event flags, op ≠ .cudaStreamWaitEvent stream event flags) := by
  unfold CUDAFence.AfterUsedAsInput CUDAFence.AfterUsedAsOutput
  by_cases h1 : runtime.respond []
      (.cudaEventRecord self.read_event_ (self.GetStream queue_id)) = cudaError_t.cudaSuccess <;>
    by_cases h2 : runtime.respond []
      (.cudaEventRecord self.write_event_ (self.GetStream queue_id)) = cudaError_t.cudaSuccess <;>
    simp [h1, h2, CUDA_CALL_THROW, CudaOp.event, CudaOp.is_query, CudaOp.is_synchronize] <;>
    exact fun h3 h4 => h3 h4.symm

/-- Witness of C16: on the example fence, whose two events differ, the record
after a read is not about the write event and the record after a write is not
about the read event. -/
theorem after_used_records_witness :
    (∀ op ∈ (Example.fence.AfterUsedAsInput Example.runtime_success 3).calls,
        op.event ≠ some Example.fence.write_event_) ∧
      (∀ op ∈ (Example.fence.AfterUsedAsOutput Example.runtime_success 3).calls,
        op.event ≠ some Example.fence.read_event_) :=
  ⟨fun op h => ((after_used_records Example.fence Example.runtime_success 3).2.2.1 op h).2.1
      (by decide),
    fun op h => ((after_used_records Example.fence Example.runtime_success 3).2.2.2 op h).2.1
      (by decide)⟩

/-! ## C5, C9, C10: what the missing range checks do to the rewrite -/

/-- C5 does not hold of the code. On the graph `N -> {G0, G1, G2}` with the
output shape `[B, 3, H]` and the axis attribute `2^32 + 1` on the three
Gathers, the iteration for `N` performs the fusion: the dimension lookup of
lines 92-93 reads dimension 1 after the cast of the axis to `int`. The Split
node it adds carries the attribute `axis = 2^32 + 1`, and each of its three
outputs has the shape `[B, 3, H]` of `N`: no dimension is replaced by 1, so
the shape is not `[d_0, ..., 1, ..., d_{r-1}]` for any position of the 1. -/
theorem C5_split_outputs_keep_shape :
    (Example.pass.visit Example.graph_axis_wrapped false 0).exit = none ∧
      (Example.pass.visit Example.graph_axis_wrapped false 0).modified = true ∧
      ((Example.pass.visit Example.graph_axis_wrapped false 0).graph.GetNode 4).map
        (fun n => (n.op_type, n.attributes, n.output_defs.map fun o => o.type)) =
        some ("Split", [("axis", AttributeProto.i 4294967297)],
          [Example.float_tensor Example.shape_B3H, Example.float_tensor Example.shape_B3H,
            Example.float_tensor Example.shape_B3H]) ∧
      ∀ a ∈ List.range 3, Example.shape_B3H.dims ≠
        Example.shape_B3H.dims.take a ++ [Dimension.dim_value 1] ++
          Example.shape_B3H.dims.drop (a + 1) := by
  decide

/-- C9 does not hold of the code. On the graph `N -> {G0, G1, G2}` with the
output shape `[B, 3, H]` and the axis attribute `2^32 + 1` on the three
Gathers, the shared normalized axis of the consumers is `2^32 + 1`, the shape
of rank 3 has no dimension at that axis, and yet the fusion happens at `N`:
the iteration sets `modified` and leaves a graph of 8 node slots in which the
three Gathers are removed. -/
theorem C9_fusion_without_dimension_at_axis :
    (∀ edge ∈ (Example.producer "Relu" Example.shape_B3H 3).output_edges,
        Example.pass.normalized_axis_at Example.graph_axis_wrapped
          Example.shape_B3H.dim_size edge = some 4294967297) ∧
      Example.shape_B3H.dim_size = 3 ∧
      Example.shape_B3H.dims[4294967297]? = none ∧
      Example.pass.fuses_at Example.graph_axis_wrapped false 0 = true ∧
      (Example.pass.visit Example.graph_axis_wrapped false 0).modified = true ∧
      (Example.pass.visit Example.graph_axis_wrapped false 0).graph.nodes.length = 8 ∧
      (∀ i ∈ [1, 2, 3],
        (Example.pass.visit Example.graph_axis_wrapped false 0).graph.GetNode i = none) := by
  decide

/-- C10 does not hold of the code. On the graph `N -> {G0, G1, G2}` with the
output shape `[B, 3, H]` and the axis attribute 7 on the three Gathers, and on
the graph in which the three nodes of type Gather have one input each, the
recursion reports no error and no node satisfies the match (no fusion is
performed at any node), yet `ApplyImpl` does not return an OK status: the
iteration for `N` makes an element access outside its container (the
dimension lookup of line 92, and `InputDefs()[1]` of line 18), which has no
defined result. -/
theorem C10_no_match_without_ok_status :
    (∀ node m, Example.pass.Recurse node m = (Status.OK, m)) ∧
      (Example.pass.fusions [0, 1, 2, 3] Example.graph_axis_7 false = [] ∧
        (∀ i ∈ [0, 1, 2, 3], Example.pass.fuses_at Example.graph_axis_7 false i = false) ∧
        (Example.pass.ApplyImpl Example.graph_axis_7 false [0, 1, 2, 3]).exit ≠
          Exit.returned Status.OK ∧
        (Example.pass.ApplyImpl Example.graph_axis_7 false [0, 1, 2, 3]).exit =
          Exit.undefined) ∧
      (Example.pass.IsSupportedGather Example.graph_one_input (Example.gather_one_input 0) =
          GatherSupport.undefined ∧
        Example.pass.fusions [0, 1, 2, 3] Example.graph_one_input false = [] ∧
        (∀ i ∈ [0, 1, 2, 3], Example.pass.fuses_at Example.graph_one_input false i = false) ∧
        (Example.pass.ApplyImpl Example.graph_one_input false [0, 1, 2, 3]).exit =
          Exit.undefined) := by
  refine ⟨fun _ _ => rfl, by decide, by decide⟩

end onnxruntime
